import Mathlib

/-!
Shallow embedding of the signal/slot dispatch engine of this repository.

The primary source is the static `Signal` class of
`src/assets/src/signal2/qt-signal2.ts` (registration store, global group
index, dispatcher `emit`/`executeSlot`, `disconnect` family, `Connection`
handles).  The per-instance `Signal` variant of `src/unnamed/part_000`
(a `Map`-keyed slot store whose `emit` re-checks membership before each
slot) is embedded separately as `InstSig`.

Modelling conventions:
  * JavaScript function references are `Cb` values (`base code` for a user
    function, `bound code tgt` for the result of `fn.bind(target)`); `===`
    on functions is `Cb` equality.
  * JavaScript `Map`s are association lists in insertion order; `Set`s of
    pair objects are lists (object identity means `add` always appends).
  * `Date.now()` is the `clock` field of the state; `window.setTimeout`
    allocates a handle from `nextTimer` and is recorded as a `sched`
    event (no timer queue is modelled: no claim observes a timer firing,
    so `clearTimeout` has no modelled effect).
  * Slot callbacks are interpreted through an environment mapping a
    callback code to a list of re-entrant actions (`Act`); a callback that
    throws is not modelled (no claim needs a throwing slot).
  * Mutation of the shared slot record (throttle/debounce bookkeeping) is
    modelled by writing the updated fields back into the store entry that
    holds the same id.
-/

namespace SignalModel

/-- A JavaScript function reference: a plain function, or the fresh
function produced by `fn.bind(target)` (qt-signal2.ts line 108). -/
inductive Cb where
  | base (code : Nat)
  | bound (code : Nat) (tgt : Nat)
deriving DecidableEq, Repr

/-- The code (behaviour key) of a callback; `bind` preserves it. -/
def Cb.code : Cb → Nat
  | .base c => c
  | .bound c _ => c

/-- `fn.bind(target)`: binding a plain function attaches the target;
re-binding an already bound function keeps the original `this`. -/
def jsBind : Cb → Nat → Cb
  | .base c, t => .bound c t
  | .bound c t0, _ => .bound c t0

/-- The `SlotOptions` interface of qt-signal2.ts (lines 44-50). -/
structure SlotOptions where
  once : Bool := false
  queued : Bool := false
  group : Option String := none
  throttle : Option Nat := none
  debounce : Option Nat := none
deriving DecidableEq, Repr

/-- Re-entrant actions a slot callback may perform while it runs. -/
inductive Act where
  | aemit (sig : String) (args : List Nat)
  | adisById (sig : String) (id : Nat)
  | adis (sig : String) (cb : Cb) (tgt : Option Nat)
deriving DecidableEq, Repr

/-- The `SlotInfo` record of qt-signal2.ts (lines 29-41). -/
structure SlotInfo where
  id : Nat
  callback : Cb
  target : Option Nat
  once : Bool
  queued : Bool
  group : Option String
  throttle : Option Nat
  debounce : Option Nat
  lastCallTime : Option Nat
  timeoutId : Option Nat
deriving DecidableEq, Repr

/-- One member of a `GroupInfo` set: a `(signalName, slotId)` pair
(qt-signal2.ts line 20). -/
structure GPair where
  signalName : String
  slotId : Nat
deriving DecidableEq, Repr

/-- The `SignalInfo` record (lines 22-26): slot list plus the per-signal
group map `groupName -> Set<slotId>`. -/
structure SignalInfo where
  slots : List SlotInfo
  groups : List (String × List Nat)
deriving DecidableEq, Repr

/-- The static state of the `Signal` class: `_signals`, `_globals`,
`_nextId`, plus the ambient clock and timer-handle counter. -/
structure State where
  signals : List (String × SignalInfo)
  globals : List (String × List GPair)
  nextId : Nat
  clock : Nat
  nextTimer : Nat
deriving DecidableEq, Repr

/-- A `Connection` handle (lines 1-15): id, the signal name and slot id the
release closure captured, and whether `_disconnect` is still set. -/
structure ConnInfo where
  id : Nat
  sigName : String
  hasDisc : Bool
deriving DecidableEq, Repr

/-- Observable events of a dispatch: a synchronous callback invocation, or
a `setTimeout` scheduling performed by the debounce branch. -/
inductive Event where
  | call (cb : Cb) (args : List Nat)
  | sched (cb : Cb) (args : List Nat) (delay : Nat)
deriving DecidableEq, Repr

section AList

variable {α : Type}

/-- `Map.get`: value stored under a key. -/
def alookup (l : List (String × α)) (k : String) : Option α :=
  (l.find? (fun p => p.1 == k)).map Prod.snd

/-- `Map.set`: replace in place if present, else append (insertion order). -/
def aset (l : List (String × α)) (k : String) (v : α) : List (String × α) :=
  if l.any (fun p => p.1 == k) then
    l.map (fun p => if p.1 == k then (k, v) else p)
  else l ++ [(k, v)]

/-- `Map.delete`. -/
def aerase (l : List (String × α)) (k : String) : List (String × α) :=
  l.filter (fun p => ¬ p.1 == k)

end AList

/-- `_getSignalData` (lines 302-307): inserts an empty record when the
signal is unknown, and returns the record. -/
def getSignalData (st : State) (signalName : String) : State × SignalInfo :=
  match alookup st.signals signalName with
  | some sd => (st, sd)
  | none =>
      ({ st with signals := aset st.signals signalName ⟨[], []⟩ }, ⟨[], []⟩)

/-- `_addToGlobalGroup` (lines 318-321): `Set.add` of a fresh pair object
always inserts. -/
def addToGlobalGroup (st : State) (signalName : String) (slotId : Nat)
    (groupName : String) : State :=
  let l := (alookup st.globals groupName).getD []
  { st with globals := aset st.globals groupName (l ++ [⟨signalName, slotId⟩]) }

/-- The search-and-break loop of `_removeFromGlobalGroup` (lines 329-334):
delete the first pair with matching fields. -/
def removeFirstPair : List GPair → String → Nat → List GPair
  | [], _, _ => []
  | p :: rest, sig, id =>
      if p.signalName = sig ∧ p.slotId = id then rest
      else p :: removeFirstPair rest sig id

/-- `_removeFromGlobalGroup` (lines 324-340). -/
def removeFromGlobalGroup (st : State) (signalName : String) (slotId : Nat)
    (groupName : String) : State :=
  match alookup st.globals groupName with
  | none => st
  | some l =>
      let l' := removeFirstPair l signalName slotId
      if l'.isEmpty then { st with globals := aerase st.globals groupName }
      else { st with globals := aset st.globals groupName l' }

/-- `_addToSignalGroup` (lines 343-349); `Set<number>.add` deduplicates. -/
def addToSignalGroup (st : State) (signalName : String) (slotId : Nat)
    (groupName : String) : State :=
  let g := getSignalData st signalName
  let st1 := g.1
  let sd := g.2
  let cur := (alookup sd.groups groupName).getD []
  let cur' := if cur.contains slotId then cur else cur ++ [slotId]
  let sd' := { sd with groups := aset sd.groups groupName cur' }
  { st1 with signals := aset st1.signals signalName sd' }

/-- `_removeFromSignalGroup` (lines 352-364). -/
def removeFromSignalGroup (st : State) (signalName : String) (slotId : Nat)
    (groupName : String) : State :=
  let g := getSignalData st signalName
  let st1 := g.1
  let sd := g.2
  match alookup sd.groups groupName with
  | none => st1
  | some ids =>
      let ids' := ids.filter (fun i => ¬ i == slotId)
      let g' := if ids'.isEmpty then aerase sd.groups groupName
                else aset sd.groups groupName ids'
      let sd' := { sd with groups := g' }
      { st1 with signals := aset st1.signals signalName sd' }

/-- Group cleanup guarded by `if (slot.group)` (truthiness: `undefined` and
the empty string skip the cleanup). -/
def groupCleanup (st : State) (signalName : String) (slotId : Nat) :
    Option String → State
  | some g => if g ≠ "" then
      removeFromSignalGroup (removeFromGlobalGroup st signalName slotId g)
        signalName slotId g
    else st
  | none => st

/-- `splice(slotIndex, 1)` at the first index whose slot has the id. -/
def removeFirstSlot : List SlotInfo → Nat → List SlotInfo
  | [], _ => []
  | s :: rest, id => if s.id = id then rest else s :: removeFirstSlot rest id

/-- `disconnectById` (lines 184-209). -/
def disconnectById (st : State) (signalName : String) (id : Nat) : State :=
  let g := getSignalData st signalName
  let st1 := g.1
  let sd := g.2
  match sd.slots.find? (fun slot => slot.id == id) with
  | none => st1
  | some slot =>
      let st2 := groupCleanup st1 signalName slot.id slot.group
      let sd2 := (alookup st2.signals signalName).getD ⟨[], []⟩
      let newSlots := removeFirstSlot sd2.slots id
      if newSlots.isEmpty then
        { st2 with signals := aerase st2.signals signalName }
      else
        let sd3 := { sd2 with slots := newSlots }
        { st2 with signals := aset st2.signals signalName sd3 }

/-- The `isMatch` predicate of `disconnect` (line 165):
`slot.callback === slotFunc || (target && slot.target === target)`. -/
def disconnectMatch (cb : Cb) (tgt : Option Nat) (slot : SlotInfo) : Bool :=
  slot.callback == cb || (tgt.isSome && slot.target == tgt)

/-- `disconnect` (lines 155-182), at the resolved-name level: filter the
slot list, doing group cleanup for each match in iteration order, then
store the kept slots or delete the emptied signal record. -/
def disconnectS (st : State) (signalName : String) (cb : Cb)
    (tgt : Option Nat) : State :=
  let g := getSignalData st signalName
  let st1 := g.1
  let sd0 := g.2
  let step := fun (acc : State × List SlotInfo) (slot : SlotInfo) =>
    if disconnectMatch cb tgt slot then
      (groupCleanup acc.1 signalName slot.id slot.group, acc.2)
    else (acc.1, acc.2 ++ [slot])
  let p := sd0.slots.foldl step (st1, [])
  if p.2.isEmpty then { p.1 with signals := aerase p.1.signals signalName }
  else
    let sd2 := (alookup p.1.signals signalName).getD ⟨[], []⟩
    let sd3 := { sd2 with slots := p.2 }
    { p.1 with signals := aset p.1.signals signalName sd3 }

/-- `disconnectByGroup` (lines 212-237) after its argument validation:
snapshot the group set, funnel every pair through `disconnectById`, then
drop the group key if the (live) set drained. -/
def disconnectByGroupS (st : State) (groupName : String) : State :=
  match alookup st.globals groupName with
  | none => st
  | some pairs =>
      let st1 := pairs.foldl (fun acc p => disconnectById acc p.signalName p.slotId) st
      match alookup st1.globals groupName with
      | some l => if l.isEmpty then { st1 with globals := aerase st1.globals groupName }
                  else st1
      | none => st1

/-- `getConnectionCountByGroup` (lines 240-249). -/
def getConnectionCountByGroup (st : State) (groupName : String) : Nat :=
  if groupName = "" then 0
  else ((alookup st.globals groupName).getD []).length

/-- `hasConnectionsInGroup` (lines 251-260). -/
def hasConnectionsInGroup (st : State) (groupName : String) : Bool :=
  if groupName = "" then false
  else match alookup st.globals groupName with
       | some l => l.length > 0
       | none => false

/-- `getSignalsInGroup` (lines 282-299): signal names of the group's
pairs, deduplicated in first-occurrence order (a `Set`). -/
def getSignalsInGroup (st : State) (groupName : String) : List String :=
  if groupName = "" then []
  else match alookup st.globals groupName with
       | none => []
       | some pairs =>
           (pairs.map (fun p => p.signalName)).foldl
             (fun acc s => if acc.contains s then acc else acc ++ [s]) []

/-- Runtime values crossing the public API: strings, numbers, `undefined`,
and functions.  A function value carries its `.name`, an optional
(string-valued) `__signalName` property, the optional default group of its
`__debugInfo`, and its reference. -/
inductive JsVal where
  | vstr (s : String)
  | vnum (n : Int)
  | vundef
  | vfun (jsname : String) (sigProp : Option String) (dbgGroup : Option String) (cb : Cb)
deriving DecidableEq, Repr

/-- `getName` (lines 517-531): a function resolves through `.name`, falling
back to `__signalName || 'unknown'`; any other value passes through. -/
def getName : JsVal → JsVal
  | .vfun jsname sigProp _ _ =>
      if jsname = "anonymous" ∨ jsname = "" then
        match sigProp with
        | some s => if s ≠ "" then .vstr s else .vstr "unknown"
        | none => .vstr "unknown"
      else .vstr jsname
  | v => v

/-- The validation of `addSlot` line 421: the resolved identity passes
`!signalName || typeof signalName !== 'string'` exactly when it is a
non-empty string. -/
def isValidSignalName : JsVal → Bool
  | .vstr s => s ≠ ""
  | _ => false

/-- `typeof v === 'function'`. -/
def isFunction : JsVal → Bool
  | .vfun _ _ _ _ => true
  | _ => false

def JsVal.asStr : JsVal → String
  | .vstr s => s
  | _ => ""

/-- The exceptions of the connect/disconnectByGroup family. -/
inductive JsErr where
  | invalidSignalName
  | invalidCallback
  | invalidGroupName
  | bindTypeError
deriving DecidableEq, Repr

/-- `||`-style normalization of a numeric option (`0` is falsy). -/
def truthyNum : Option Nat → Option Nat
  | some n => if n = 0 then none else some n
  | none => none

/-- The slot record built by `addSlot` (lines 437-446) for the freshly
allocated id `++_nextId`. -/
def newSlotOf (st : State) (signalName : String) (cbRef : Cb)
    (target : Option Nat) (opts : SlotOptions) : SlotInfo :=
  { id := (getSignalData st signalName).1.nextId + 1, callback := cbRef,
    target := target, once := opts.once, queued := opts.queued,
    throttle := truthyNum opts.throttle, debounce := truthyNum opts.debounce,
    group := opts.group, lastCallTime := none, timeoutId := none }

/-- The mutation path of `addSlot` (lines 429-456) after validation:
fetch/create the signal record, bump `_nextId`, push the slot, and index
its (truthy) group in both the global and the per-signal group maps. -/
def addSlotState (st : State) (signalName : String) (cbRef : Cb)
    (target : Option Nat) (opts : SlotOptions) : State :=
  let g := getSignalData st signalName
  let st1 := g.1
  let sd := g.2
  let slot := newSlotOf st signalName cbRef target opts
  let st2 := { st1 with nextId := st1.nextId + 1 }
  let sd' := { sd with slots := sd.slots ++ [slot] }
  let st3 := { st2 with signals := aset st2.signals signalName sd' }
  match opts.group with
  | some g => if g ≠ "" then
        addToSignalGroup (addToGlobalGroup st3 signalName slot.id g)
          signalName slot.id g
      else st3
  | none => st3

/-- `addSlot` (lines 419-462): validate, perform the mutation path, and
build the `Connection` whose release closure captures `(signalName, id)`.
The two `throw`s happen before any mutation, so the error cases return no
state. -/
def addSlot (st : State) (signalNameV : JsVal) (callback : JsVal)
    (target : Option Nat) (opts : SlotOptions) :
    Except JsErr (State × ConnInfo) :=
  if ¬ isValidSignalName signalNameV then .error .invalidSignalName
  else if ¬ isFunction callback then .error .invalidCallback
  else
    let signalName := signalNameV.asStr
    let cbRef := match callback with
      | .vfun _ _ _ c => c
      | _ => .base 0
    .ok (addSlotState st signalName cbRef target opts,
      ⟨(getSignalData st signalName).1.nextId + 1, signalName, true⟩)

/-- `connect` (lines 104-125): resolve the name, bind the callback to the
target (`fn.bind` throws a TypeError on a non-function before `addSlot`
is reached), compute the effective group (`options?.group ||
defaultGroup`), and delegate to `addSlot`. -/
def connect (st : State) (signal : JsVal) (slotFunc : JsVal)
    (target : Option Nat) (options : SlotOptions) :
    Except JsErr (State × ConnInfo) :=
  let signalName := getName signal
  if target.isSome ∧ ¬ isFunction slotFunc then .error .bindTypeError
  else
    let boundCallback : JsVal := match slotFunc, target with
      | .vfun n p dg c, some t => .vfun n p dg (jsBind c t)
      | f, _ => f
    let defaultGroup : Option String := match signal with
      | .vfun _ _ dg _ => dg
      | _ => none
    let group := match options.group with
      | some g => if g ≠ "" then some g else defaultGroup
      | none => defaultGroup
    addSlot st signalName boundCallback target { options with group := group }

/-- `Connection.disconnect` (lines 8-13): run and clear the stored closure,
which performs `disconnectById(signalName, id)`; a second call finds the
closure cleared and does nothing. -/
def connDisconnect (st : State) (c : ConnInfo) : State × ConnInfo :=
  if c.hasDisc then (disconnectById st c.sigName c.id, { c with hasDisc := false })
  else (st, c)

/-- `disconnectByGroup` (lines 212-237) including its argument validation,
which throws before any mutation. -/
def disconnectByGroupV (st : State) (groupName : JsVal) :
    Except JsErr State :=
  if ¬ isValidSignalName groupName then .error .invalidGroupName
  else .ok (disconnectByGroupS st groupName.asStr)

/-- Writing mutated bookkeeping fields of a shared slot object back into
the store entry that holds the same id (no-op if the slot is no longer
stored). -/
def updateSlotFields (st : State) (signalName : String) (id : Nat)
    (f : SlotInfo → SlotInfo) : State :=
  match alookup st.signals signalName with
  | none => st
  | some sd =>
      let sd' := { sd with slots := sd.slots.map (fun s => if s.id = id then f s else s) }
      { st with signals := aset st.signals signalName sd' }

/-- Callback behaviours: the body of the function with a given code. -/
def Env : Type := Nat → List Act

/-- The suppression condition of the throttle branch (line 471):
`slot.lastCallTime && (now - slot.lastCallTime) < slot.throttle` — note a
`lastCallTime` of `0` is falsy and never suppresses. -/
def throttleSuppresses (slot : SlotInfo) (now thr : Nat) : Bool :=
  match slot.lastCallTime with
  | some t => t != 0 && decide (now - t < thr)
  | none => false

/-- A single re-entrant action performed by a running callback; `emitf`
is the dispatcher, re-entered at one less fuel by a nested `emit`. -/
def runActG (emitf : State → String → List Nat → State × List Event)
    (st : State) : Act → State × List Event
  | .aemit sig args => emitf st sig args
  | .adisById sig id => (disconnectById st sig id, [])
  | .adis sig cb tgt => (disconnectS st sig cb tgt, [])

/-- Sequential execution of a callback body. -/
def runActsG (emitf : State → String → List Nat → State × List Event) :
    State → List Act → State × List Event
  | st, [] => (st, [])
  | st, a :: rest =>
      let r1 := runActG emitf st a
      let r2 := runActsG emitf r1.1 rest
      (r2.1, r1.2 ++ r2.2)

/-- The debounce branch and the normal invocation of `executeSlot` (lines
477-499): a truthy `debounce` replaces the pending timer and schedules a
deferred run instead of executing; otherwise the callback is invoked
synchronously (its body may re-enter the dispatcher). -/
def executeSlotPostG (env : Env)
    (emitf : State → String → List Nat → State × List Event)
    (st : State) (signalName : String) (slot : SlotInfo) (args : List Nat) :
    State × List Event :=
  match slot.debounce with
  | some deb =>
      if deb ≠ 0 then
        let tid := st.nextTimer
        let st1 := { st with nextTimer := st.nextTimer + 1 }
        let st2 := updateSlotFields st1 signalName slot.id
          (fun s => { s with timeoutId := some tid })
        (st2, [.sched slot.callback args deb])
      else
        let r := runActsG emitf st (env slot.callback.code)
        (r.1, .call slot.callback args :: r.2)
  | none =>
      let r := runActsG emitf st (env slot.callback.code)
      (r.1, .call slot.callback args :: r.2)

/-- The throttle branch of `executeSlot` (lines 468-475): with a truthy
`throttle`, suppress when `lastCallTime` is truthy and within the window,
else record `now` and continue. -/
def executeSlotG (env : Env)
    (emitf : State → String → List Nat → State × List Event)
    (st : State) (signalName : String) (slot : SlotInfo) (args : List Nat) :
    State × List Event :=
  match slot.throttle with
  | some thr =>
      if thr ≠ 0 then
        let now := st.clock
        if throttleSuppresses slot now thr then (st, [])
        else
          let st1 := updateSlotFields st signalName slot.id
            (fun s => { s with lastCallTime := some now })
          executeSlotPostG env emitf st1 signalName
            { slot with lastCallTime := some now } args
      else executeSlotPostG env emitf st signalName slot args
  | none => executeSlotPostG env emitf st signalName slot args

/-- The `for (const slot of slotsToExecute)` loop of `emit` (lines 87-94):
execute the snapshot entry, then remove it if it is a `once` slot. -/
def emitLoopG (env : Env)
    (emitf : State → String → List Nat → State × List Event)
    (st : State) (snapshot : List SlotInfo) (signalName : String)
    (args : List Nat) : State × List Event :=
  match snapshot with
  | [] => (st, [])
  | slot :: rest =>
      let r1 := executeSlotG env emitf st signalName slot args
      let st2 := if slot.once then disconnectById r1.1 signalName slot.id else r1.1
      let r2 := emitLoopG env emitf st2 rest signalName args
      (r2.1, r1.2 ++ r2.2)

/-- `emit` (lines 78-95): resolve the record (creating an empty one for an
unknown name), return if there are no slots, otherwise snapshot the slot
array and run the loop.  The fuel bounds re-entrant emission depth; depth
zero cuts the run. -/
def emitF (env : Env) : Nat → State → String → List Nat → State × List Event
  | 0, st, _, _ => (st, [])
  | fuel + 1, st, signalName, args =>
      let g := getSignalData st signalName
      if g.2.slots.isEmpty then (g.1, [])
      else emitLoopG env (emitF env fuel) g.1 g.2.slots signalName args

/-- `executeSlot` at a given re-entrancy budget. -/
def executeSlotF (env : Env) (fuel : Nat) (st : State) (signalName : String)
    (slot : SlotInfo) (args : List Nat) : State × List Event :=
  executeSlotG env (emitF env fuel) st signalName slot args

/-- The emit loop at a given re-entrancy budget. -/
def emitLoop (env : Env) (fuel : Nat) (st : State) (snapshot : List SlotInfo)
    (signalName : String) (args : List Nat) : State × List Event :=
  emitLoopG env (emitF env fuel) st snapshot signalName args

/-- A callback body at a given re-entrancy budget. -/
def runActs (env : Env) (fuel : Nat) (st : State) (acts : List Act) :
    State × List Event :=
  runActsG (emitF env fuel) st acts

/-- `slotsOf st sig`: the stored slot list of a signal (empty when the
signal has no record). -/
def slotsOf (st : State) (sig : String) : List SlotInfo :=
  ((alookup st.signals sig).map SignalInfo.slots).getD []

/-- Observable agreement of two states: the same slots fire on subsequent
emits and the same group-query results are returned. -/
structure ObsEq (st st' : State) : Prop where
  slots : ∀ sig, slotsOf st sig = slotsOf st' sig
  counts : ∀ g, getConnectionCountByGroup st g = getConnectionCountByGroup st' g
  has : ∀ g, hasConnectionsInGroup st g = hasConnectionsInGroup st' g
  sigs : ∀ g, getSignalsInGroup st g = getSignalsInGroup st' g

/-- Top-level API operations (string-identified signals).  The two
operations that can throw keep the state unchanged when they do, which is
how their caller observes the exception. -/
inductive Op where
  | opConnect (sig : String) (code : Nat) (tgt : Option Nat) (opts : SlotOptions)
  | opDisconnect (sig : String) (code : Nat) (tgt : Option Nat)
  | opDisById (sig : String) (id : Nat)
  | opDisByGroup (g : String)
  | opEmit (sig : String) (args : List Nat) (fuel : Nat)
deriving DecidableEq, Repr

def runOp (env : Env) (st : State) : Op → State
  | .opConnect sig code tgt opts =>
      match connect st (.vstr sig) (.vfun "f" none none (.base code)) tgt opts with
      | .ok r => r.1
      | .error _ => st
  | .opDisconnect sig code tgt => disconnectS st sig (.base code) tgt
  | .opDisById sig id => disconnectById st sig id
  | .opDisByGroup g =>
      match disconnectByGroupV st (.vstr g) with
      | .ok st' => st'
      | .error _ => st
  | .opEmit sig args fuel => (emitF env fuel st sig args).1

def runOps (env : Env) (ops : List Op) (st : State) : State :=
  ops.foldl (runOp env) st

/-- The pristine static state (`_signals`/`_globals` empty, `_nextId = 1`). -/
def initState : State := ⟨[], [], 1, 0, 0⟩

namespace InstSig

/-- A slot of the per-instance `Signal` of `src/unnamed/part_000`
(lines 28-34); the store is a `Map<number, Slot>`. -/
structure ISlot where
  callback : SignalModel.Cb
  target : Option Nat
  once : Bool
  queued : Bool
deriving DecidableEq, Repr

/-- Callback behaviours for the per-instance variant: each code names a
list of slot ids the callback deletes from this signal instance
(`this._slots.delete(id)` through a captured `Connection`). -/
def IEnv : Type := Nat → List Nat

/-- The `for (const [id, slot] of snapshot)` loop of `emit`
(part_000 lines 75-108): skip entries no longer in the live map, delete
`once` entries, then run the callback synchronously (recording its
deletions) or schedule it when `queued`. -/
def emitLoopI (ienv : IEnv) (slots : List (Nat × ISlot)) :
    List (Nat × ISlot) → List Nat → List (Nat × ISlot) × List SignalModel.Event
  | [], _ => (slots, [])
  | (id, slot) :: rest, args =>
      if slots.any (fun p => p.1 == id) then
        let slots1 := if slot.once then slots.filter (fun p => ¬ p.1 == id) else slots
        if slot.queued then
          let r := emitLoopI ienv slots1 rest args
          (r.1, .sched slot.callback args 0 :: r.2)
        else
          let slots2 := (ienv slot.callback.code).foldl
            (fun acc did => acc.filter (fun p => ¬ p.1 == did)) slots1
          let r := emitLoopI ienv slots2 rest args
          (r.1, .call slot.callback args :: r.2)
      else emitLoopI ienv slots rest args

/-- `emit` of part_000: snapshot the entries, then iterate. -/
def emitI (ienv : IEnv) (slots : List (Nat × ISlot)) (args : List Nat) :
    List (Nat × ISlot) × List SignalModel.Event :=
  emitLoopI ienv slots slots args

end InstSig

section AListLemmas

variable {α : Type}

theorem find?_aset_map (l : List (String × α)) (k : String) (v : α) :
    (l.map (fun p => if p.1 == k then (k, v) else p)).find? (fun p => p.1 == k) =
      ((l.find? (fun p => p.1 == k)).map (fun _ => (k, v))) := by
  induction l with
  | nil => rfl
  | cons a l ih =>
      by_cases h : a.1 = k
      · have e1 : (if (a.1 == k) = true then (k, v) else a) = (k, v) := by
          rw [if_pos]; simp [h]
        rw [List.map_cons, e1, List.find?_cons_of_pos _ (by simp),
          List.find?_cons_of_pos _ (by simp [h])]
        rfl
      · have e1 : (if (a.1 == k) = true then (k, v) else a) = a := by
          rw [if_neg]; simp [h]
        rw [List.map_cons, e1, List.find?_cons_of_neg _ (by simp [h]),
          List.find?_cons_of_neg _ (by simp [h]), ih]

theorem find?_aset_map_ne (l : List (String × α)) (k k' : String) (v : α)
    (hne : k' ≠ k) :
    (l.map (fun p => if p.1 == k then (k, v) else p)).find? (fun p => p.1 == k') =
      l.find? (fun p => p.1 == k') := by
  induction l with
  | nil => rfl
  | cons a l ih =>
      by_cases h : a.1 = k
      · have e1 : (if (a.1 == k) = true then (k, v) else a) = (k, v) := by
          rw [if_pos]; simp [h]
        have h2 : ¬ a.1 = k' := by rw [h]; exact fun hh => hne hh.symm
        rw [List.map_cons, e1, List.find?_cons_of_neg _ (by simp; exact fun hh => hne hh.symm),
          List.find?_cons_of_neg _ (by simp [h2]), ih]
      · have e1 : (if (a.1 == k) = true then (k, v) else a) = a := by
          rw [if_neg]; simp [h]
        by_cases h4 : a.1 = k'
        · rw [List.map_cons, e1, List.find?_cons_of_pos _ (by simp [h4]),
            List.find?_cons_of_pos _ (by simp [h4])]
        · rw [List.map_cons, e1, List.find?_cons_of_neg _ (by simp [h4]),
            List.find?_cons_of_neg _ (by simp [h4]), ih]

theorem any_iff_find?_isSome (l : List (String × α)) (k : String) :
    l.any (fun p => p.1 == k) = true ↔ (l.find? (fun p => p.1 == k)).isSome := by
  rw [List.any_eq_true, List.find?_isSome]

theorem alookup_aset_self (l : List (String × α)) (k : String) (v : α) :
    alookup (aset l k v) k = some v := by
  unfold alookup aset
  by_cases h : l.any (fun p => p.1 == k)
  · rw [if_pos h, find?_aset_map]
    rcases hf : l.find? (fun p => p.1 == k) with _ | p
    · exact absurd ((any_iff_find?_isSome l k).mp h) (by simp [hf])
    · rw [hf]; rfl
  · rw [if_neg h, List.find?_append]
    have hnone : l.find? (fun p => p.1 == k) = none := by
      rcases hf : l.find? (fun p => p.1 == k) with _ | p
      · exact hf
      · exact absurd ((any_iff_find?_isSome l k).mpr (by simp [hf])) h
    rw [hnone, List.find?_cons_of_pos _ (by simp)]
    rfl

theorem alookup_aset_ne (l : List (String × α)) (k k' : String) (v : α)
    (hne : k' ≠ k) : alookup (aset l k v) k' = alookup l k' := by
  unfold alookup aset
  by_cases h : l.any (fun p => p.1 == k)
  · rw [if_pos h, find?_aset_map_ne l k k' v hne]
  · rw [if_neg h, List.find?_append]
    have e1 : ([(k, v)].find? (fun p => p.1 == k')) = none := by
      rw [List.find?_cons_of_neg _ (by simp; exact fun hh => hne hh.symm)]
      rfl
    rw [e1, Option.or_none]

theorem alookup_aerase_self (l : List (String × α)) (k : String) :
    alookup (aerase l k) k = none := by
  unfold alookup aerase
  have : (l.filter (fun p => ¬ p.1 == k)).find? (fun p => p.1 == k) = none := by
    rw [List.find?_eq_none]
    intro p hp
    have := List.of_mem_filter hp
    simpa using this
  rw [this]
  rfl

theorem alookup_aerase_ne (l : List (String × α)) (k k' : String)
    (hne : k' ≠ k) : alookup (aerase l k) k' = alookup l k' := by
  unfold alookup aerase
  induction l with
  | nil => rfl
  | cons a l ih =>
      by_cases h : a.1 = k
      · rw [List.filter_cons_of_neg (by simp [h]),
          List.find?_cons_of_neg _ (by simp [h]; exact fun hh => hne hh.symm), ih]
      · rw [List.filter_cons_of_pos (by simp [h])]
        by_cases h4 : a.1 = k'
        · rw [List.find?_cons_of_pos _ (by simp [h4]), List.find?_cons_of_pos _ (by simp [h4])]
        · rw [List.find?_cons_of_neg _ (by simp [h4]), List.find?_cons_of_neg _ (by simp [h4]), ih]

end AListLemmas


section StoreLemmas

theorem getSignalData_known (st : State) (sig : String) (sd : SignalInfo)
    (h : alookup st.signals sig = some sd) : getSignalData st sig = (st, sd) := by
  unfold getSignalData; rw [h]

theorem getSignalData_unknown (st : State) (sig : String)
    (h : alookup st.signals sig = none) :
    getSignalData st sig = ({ st with signals := aset st.signals sig ⟨[], []⟩ }, ⟨[], []⟩) := by
  unfold getSignalData; rw [h]

theorem getSignalData_snd_slots (st : State) (sig : String) :
    (getSignalData st sig).2.slots = slotsOf st sig := by
  unfold getSignalData slotsOf
  rcases h : alookup st.signals sig with _ | sd <;> simp

theorem slotsOf_of_lookup (st : State) (sig : String) (sd : SignalInfo)
    (h : alookup st.signals sig = some sd) : slotsOf st sig = sd.slots := by
  unfold slotsOf; rw [h]; rfl

theorem slotsOf_of_lookup_none (st : State) (sig : String)
    (h : alookup st.signals sig = none) : slotsOf st sig = [] := by
  unfold slotsOf; rw [h]; rfl

end StoreLemmas

section DisconnectLemmas

theorem disconnectS_fold_kept (sig : String) (cb : Cb) (tgt : Option Nat) :
    ∀ (l : List SlotInfo) (st : State) (acc : List SlotInfo),
    (l.foldl (fun (acc : State × List SlotInfo) slot =>
        if disconnectMatch cb tgt slot then
          (groupCleanup acc.1 sig slot.id slot.group, acc.2)
        else (acc.1, acc.2 ++ [slot])) (st, acc)).2 =
      acc ++ l.filter (fun sl => ¬ disconnectMatch cb tgt sl) := by
  intro l
  induction l with
  | nil => intro st acc; simp
  | cons slot l ih =>
      intro st acc
      by_cases h : disconnectMatch cb tgt slot
      · rw [List.foldl_cons, if_pos h, ih, List.filter_cons_of_neg (by simp [h])]
      · rw [List.foldl_cons, if_neg h, ih, List.filter_cons_of_pos (by simp [h])]
        simp

end DisconnectLemmas


/-- The empty callback environment: every callback has a pure body. -/
def env0 : Env := fun _ => []

/-- A state reached by connecting callback 0 with target 7 on signal "s":
the stored callback is the bound function, distinct from every user
function reference. -/
def c4state : State := runOps env0 [Op.opConnect "s" 0 (some 7) {}] initState

/-- C4 counterexample: on `c4state`, the single registration stores the
bound callback `Cb.bound 0 7` (not the user callback `Cb.base 1`) and
target `7`; yet `disconnect` with callback `Cb.base 1` and target `7`
removes it, because the source combines the two tests with OR (line 165).
The claim says a registration whose callback differs from the given one is
kept when only its target matches. -/
theorem C4_counterexample :
    (slotsOf c4state "s").map SlotInfo.callback = [Cb.bound 0 7] ∧
    (slotsOf c4state "s").map SlotInfo.target = [some 7] ∧
    slotsOf (disconnectS c4state "s" (Cb.base 1) (some 7)) "s" = [] := by
  decide

/-- C4 (amended): `disconnect(identity, callback, target?)` removes exactly
those registrations on the identity whose stored callback equals the given
callback OR whose target matches the supplied target; the survivors are
exactly the stored slots matching neither test. -/
theorem C4_disconnect_removal_predicate (st : State) (sig : String)
    (cb : Cb) (tgt : Option Nat) :
    slotsOf (disconnectS st sig cb tgt) sig =
      (slotsOf st sig).filter (fun sl => ¬ disconnectMatch cb tgt sl) := by
  have hkept := disconnectS_fold_kept sig cb tgt (getSignalData st sig).2.slots
    (getSignalData st sig).1 []
  rw [getSignalData_snd_slots, List.nil_append] at hkept
  unfold disconnectS
  dsimp only
  rw [getSignalData_snd_slots]
  by_cases hE : ((slotsOf st sig).filter (fun sl => ¬ disconnectMatch cb tgt sl)) = []
  · rw [hkept, hE]
    simp only [List.isEmpty_nil, if_true]
    unfold slotsOf
    rw [alookup_aerase_self]
    rfl
  · rw [hkept]
    simp only [List.isEmpty_iff, hE, if_false]
    unfold slotsOf
    rw [alookup_aset_self]
    rfl


section ExecuteSlotLemmas

theorem runActs_nil (env : Env) (fuel : Nat) (st : State) :
    runActs env fuel st [] = (st, []) := by
  unfold runActs
  rfl

theorem updateSlotFields_known (st : State) (sig : String) (sd : SignalInfo)
    (h : alookup st.signals sig = some sd) (id : Nat) (f : SlotInfo → SlotInfo) :
    updateSlotFields st sig id f =
      { st with signals := (aset st.signals sig
          { sd with slots := sd.slots.map (fun s => if s.id = id then f s else s) }) } := by
  unfold updateSlotFields; rw [h]

theorem executeSlotF_suppressed (env : Env) (fuel : Nat) (st : State)
    (sig : String) (slot : SlotInfo) (args : List Nat) (thr : Nat)
    (hthr : slot.throttle = some thr) (h0 : thr ≠ 0)
    (hsup : throttleSuppresses slot st.clock thr = true) :
    executeSlotF env fuel st sig slot args = (st, []) := by
  unfold executeSlotF executeSlotG
  rw [hthr]
  simp [h0, hsup]

theorem executeSlotF_throttle_pass_debounce (env : Env) (fuel : Nat) (st : State)
    (sig : String) (slot : SlotInfo) (args : List Nat) (thr deb : Nat)
    (hthr : slot.throttle = some thr) (h0 : thr ≠ 0)
    (hsup : throttleSuppresses slot st.clock thr = false)
    (hdeb : slot.debounce = some deb) (hd0 : deb ≠ 0) :
    (executeSlotF env fuel st sig slot args).2 = [Event.sched slot.callback args deb] := by
  unfold executeSlotF executeSlotG executeSlotPostG
  rw [hthr]
  simp [h0, hsup, hdeb, hd0]

theorem executeSlotF_plain (env : Env) (fuel : Nat) (st : State)
    (sig : String) (slot : SlotInfo) (args : List Nat)
    (hthr : slot.throttle = none) (hdeb : slot.debounce = none) :
    executeSlotF env fuel st sig slot args =
      ((runActs env fuel st (env slot.callback.code)).1,
        Event.call slot.callback args :: (runActs env fuel st (env slot.callback.code)).2) := by
  unfold executeSlotF executeSlotG executeSlotPostG
  rw [hthr, hdeb]
  rfl

theorem executeSlotF_throttle_pass_plain (env : Env) (fuel : Nat) (st : State)
    (sig : String) (slot : SlotInfo) (args : List Nat) (thr : Nat)
    (hthr : slot.throttle = some thr) (h0 : thr ≠ 0)
    (hsup : throttleSuppresses slot st.clock thr = false)
    (hdeb : slot.debounce = none) :
    executeSlotF env fuel st sig slot args =
      ((runActs env fuel
          (updateSlotFields st sig slot.id (fun s => { s with lastCallTime := some st.clock }))
          (env slot.callback.code)).1,
        Event.call slot.callback args ::
          (runActs env fuel
            (updateSlotFields st sig slot.id (fun s => { s with lastCallTime := some st.clock }))
            (env slot.callback.code)).2) := by
  unfold executeSlotF executeSlotG executeSlotPostG
  rw [hthr]
  simp [h0, hsup, hdeb, runActs]

theorem emitF_one (env : Env) (fuel : Nat) (st : State) (sig : String)
    (sd : SignalInfo) (slot : SlotInfo) (args : List Nat)
    (hlook : alookup st.signals sig = some sd) (hsl : sd.slots = [slot])
    (honce : slot.once = false) :
    emitF env (fuel + 1) st sig args = executeSlotF env fuel st sig slot args := by
  unfold emitF
  rw [getSignalData_known st sig sd hlook]
  dsimp only
  rw [hsl]
  simp [emitLoopG, honce, executeSlotF]

end ExecuteSlotLemmas


/-- A registration carrying both a throttle and a debounce window, with a
recorded last call time, as reached after a first emission. -/
def c7slot : SlotInfo :=
  { id := 2, callback := Cb.base 3, target := none, once := false,
    queued := false, group := none, throttle := some 2, debounce := some 5,
    lastCallTime := some 1, timeoutId := none }

/-- A store holding `c7slot` on signal "u" at clock 2 (inside the
throttle window that started at clock 1). -/
def c7st : State :=
  { signals := [("u", ⟨[c7slot], []⟩)], globals := [], nextId := 2,
    clock := 2, nextTimer := 1 }

/-- The state reached by connecting callback 3 with both throttle 2 and
debounce 5 on signal "u". -/
def c7state : State :=
  runOps env0 [Op.opConnect "u" 3 none { throttle := some 2, debounce := some 5 }] initState

/-- The state after a first emission on "u" at clock 1 (which passed the
throttle gate and scheduled a debounced run). -/
def c7after1 : State := (emitF env0 1 { c7state with clock := 1 } "u" [4]).1

/-- C7 counterexample: with both throttle (2) and debounce (5) configured,
the emission at clock 1 is deferred by the debounce branch, but the
emission at clock 2 — inside the throttle window — produces no event at
all and leaves the state unchanged: it is suppressed by the throttle
check, which the source runs first (lines 468-475), so it is not handled
by the debounce policy, contradicting the claim that with both options
set the call is never suppressed by the throttle check. -/
theorem C7_counterexample :
    (slotsOf c7state "u").map SlotInfo.throttle = [some 2] ∧
    (slotsOf c7state "u").map SlotInfo.debounce = [some 5] ∧
    (emitF env0 1 { c7state with clock := 1 } "u" [4]).2
      = [Event.sched (Cb.base 3) [4] 5] ∧
    (emitF env0 1 { c7after1 with clock := 2 } "u" [4]).2 = [] ∧
    (emitF env0 1 { c7after1 with clock := 2 } "u" [4]).1 = { c7after1 with clock := 2 } := by
  decide

/-- C7 (amended): for a registration with both a truthy throttle and a
truthy debounce, every emission is first gated by the throttle check: a
call inside the throttle window is suppressed entirely (no event, no
state change), and a call that passes the gate is handled by the debounce
policy — it is deferred as a scheduled run and never executed
synchronously. -/
theorem C7_throttle_gates_then_debounce (env : Env) (fuel : Nat) (st : State)
    (sig : String) (slot : SlotInfo) (args : List Nat) (thr deb : Nat)
    (hthr : slot.throttle = some thr) (h0 : thr ≠ 0)
    (hdeb : slot.debounce = some deb) (hd0 : deb ≠ 0) :
    (throttleSuppresses slot st.clock thr = true →
      executeSlotF env fuel st sig slot args = (st, [])) ∧
    (throttleSuppresses slot st.clock thr = false →
      (executeSlotF env fuel st sig slot args).2 = [Event.sched slot.callback args deb]) :=
  ⟨fun hsup => executeSlotF_suppressed env fuel st sig slot args thr hthr h0 hsup,
   fun hsup => executeSlotF_throttle_pass_debounce env fuel st sig slot args thr deb
     hthr h0 hsup hdeb hd0⟩

/-- Witness for C7: the amended theorem applied to the concrete
registration `c7slot` at clock 2. -/
theorem C7_witness :
    (throttleSuppresses c7slot c7st.clock 2 = true →
      executeSlotF env0 0 c7st "u" c7slot [4] = (c7st, [])) ∧
    (throttleSuppresses c7slot c7st.clock 2 = false →
      (executeSlotF env0 0 c7st "u" c7slot [4]).2 = [Event.sched (Cb.base 3) [4] 5]) :=
  C7_throttle_gates_then_debounce env0 0 c7st "u" c7slot [4] 2 5
    (by decide) (by decide) (by decide) (by decide)


theorem throttleSuppresses_of_none (slot : SlotInfo) (now thr : Nat)
    (h : slot.lastCallTime = none) : throttleSuppresses slot now thr = false := by
  unfold throttleSuppresses; rw [h]

theorem throttleSuppresses_of_some (slot : SlotInfo) (now thr t : Nat)
    (h : slot.lastCallTime = some t) :
    throttleSuppresses slot now thr = (t != 0 && decide (now - t < thr)) := by
  unfold throttleSuppresses; rw [h]

/-- The state reached by connecting callback 2 with throttle 2 on signal
"t"; the ambient clock is exactly 0. -/
def c6state : State := runOps env0 [Op.opConnect "t" 2 none { throttle := some 2 }] initState

/-- The first emission of the burst, at clock 0. -/
def c6e1 : State × List Event := emitF env0 1 c6state "t" [9]

/-- C6 counterexample: with throttle window N = 2 and a burst at times
t = 0, t = N/2 = 1 (and t = 2N = 4), the call at t = N/2 is NOT
suppressed: it executes the callback and overwrites `lastCallTime`,
because the recorded timestamp 0 fails the truthiness test
`slot.lastCallTime &&` on line 471.  The claim asserts that the t = N/2
call is suppressed entirely. -/
theorem C6_counterexample :
    (slotsOf c6state "t").map SlotInfo.throttle = [some 2] ∧
    (slotsOf c6state "t").map SlotInfo.lastCallTime = [none] ∧
    c6state.clock = 0 ∧
    c6e1.2 = [Event.call (Cb.base 2) [9]] ∧
    (emitF env0 1 { c6e1.1 with clock := 1 } "t" [9]).2 = [Event.call (Cb.base 2) [9]] ∧
    (slotsOf (emitF env0 1 { c6e1.1 with clock := 1 } "t" [9]).1 "t").map
      SlotInfo.lastCallTime = [some 1] := by
  decide

/-- C6 (amended): for a registration with throttle window N ≥ 1 and no
recorded last call, a burst of emissions at times T, T + N/2, T + 2N with
T ≥ 1 executes exactly the first and third calls (each recording its time
as the new `lastCallTime`), while the call at T + N/2 is suppressed
entirely: no callback execution and no state change.  The claim's literal
T = 0 case fails because a recorded `lastCallTime` of 0 is falsy
(see the counterexample). -/
theorem C6_throttle_burst (env : Env) (st : State) (sig : String)
    (sd : SignalInfo) (slot : SlotInfo) (args : List Nat) (N : Nat)
    (hlook : alookup st.signals sig = some sd) (hsl : sd.slots = [slot])
    (honce : slot.once = false) (hthr : slot.throttle = some N) (hN : 1 ≤ N)
    (hdeb : slot.debounce = none) (hlct : slot.lastCallTime = none)
    (henv : env slot.callback.code = []) (hT : 1 ≤ st.clock) :
    (emitF env 1 st sig args).2 = [Event.call slot.callback args] ∧
    (emitF env 1 { (emitF env 1 st sig args).1 with clock := st.clock + N / 2 } sig args)
      = ({ (emitF env 1 st sig args).1 with clock := st.clock + N / 2 }, []) ∧
    (emitF env 1 { (emitF env 1 st sig args).1 with clock := st.clock + 2 * N } sig args).2
      = [Event.call slot.callback args] ∧
    (slotsOf (emitF env 1
        { (emitF env 1 st sig args).1 with clock := st.clock + 2 * N } sig args).1 sig).map
      SlotInfo.lastCallTime = [some (st.clock + 2 * N)] := by
  have hN0 : N ≠ 0 := by omega
  set T := st.clock with hTdef
  -- the slot after the first execution
  set slot1 : SlotInfo := { slot with lastCallTime := some T } with hslot1
  set sd1 : SignalInfo := { sd with slots := [slot1] } with hsd1
  -- first emission executes and records T
  have hsup1 : throttleSuppresses slot st.clock N = false :=
    throttleSuppresses_of_none slot st.clock N hlct
  have hupd : updateSlotFields st sig slot.id
      (fun s => { s with lastCallTime := some st.clock }) =
      { st with signals := aset st.signals sig sd1 } := by
    rw [updateSlotFields_known st sig sd hlook, hsl]
    simp [hsd1, hslot1]
  have h1 : emitF env 1 st sig args =
      ({ st with signals := aset st.signals sig sd1 }, [Event.call slot.callback args]) := by
    rw [emitF_one env 0 st sig sd slot args hlook hsl honce,
      executeSlotF_throttle_pass_plain env 0 st sig slot args N hthr hN0 hsup1 hdeb,
      henv, hupd, runActs_nil]
  rw [h1]
  dsimp only
  -- lookup in the post-first-emission store
  have hlook1 : ∀ c : Nat, alookup ({ st with signals := aset st.signals sig sd1, clock := c } : State).signals sig = some sd1 := by
    intro c
    exact alookup_aset_self st.signals sig sd1
  have hs1 : slot1.throttle = some N := hthr
  have hs1d : slot1.debounce = none := hdeb
  have hs1o : slot1.once = false := honce
  have hs1c : slot1.callback = slot.callback := rfl
  -- second emission is suppressed
  have hsup2 : throttleSuppresses slot1 (T + N / 2) N = true := by
    rw [throttleSuppresses_of_some slot1 (T + N / 2) N T rfl]
    have hd : T + N / 2 - T < N := by
      have := Nat.div_lt_self (by omega : 0 < N) (by omega : 1 < 2)
      omega
    simp [hd]
    omega
  have h2 : emitF env 1 ({ st with signals := aset st.signals sig sd1, clock := T + N / 2 } : State) sig args
      = ({ st with signals := aset st.signals sig sd1, clock := T + N / 2 }, []) := by
    rw [emitF_one env 0 _ sig sd1 slot1 args (hlook1 (T + N / 2)) rfl hs1o]
    exact executeSlotF_suppressed env 0 _ sig slot1 args N hs1 hN0 hsup2
  -- third emission passes the window
  have hsup3 : throttleSuppresses slot1 (T + 2 * N) N = false := by
    rw [throttleSuppresses_of_some slot1 (T + 2 * N) N T rfl]
    have hd : ¬ (T + 2 * N - T < N) := by omega
    simp [hd]
    omega
  have hupd3 : updateSlotFields ({ st with signals := aset st.signals sig sd1, clock := T + 2 * N } : State) sig slot1.id
      (fun s => { s with lastCallTime := some (T + 2 * N) }) =
      { st with signals := (aset (aset st.signals sig sd1) sig
          { sd1 with slots := [{ slot1 with lastCallTime := some (T + 2 * N) }] }), clock := T + 2 * N } := by
    rw [updateSlotFields_known _ sig sd1 (hlook1 (T + 2 * N))]
    simp [hsd1]
  have h3 : emitF env 1 ({ st with signals := aset st.signals sig sd1, clock := T + 2 * N } : State) sig args
      = ({ st with signals := (aset (aset st.signals sig sd1) sig
            { sd1 with slots := [{ slot1 with lastCallTime := some (T + 2 * N) }] }), clock := T + 2 * N },
          [Event.call slot.callback args]) := by
    rw [emitF_one env 0 _ sig sd1 slot1 args (hlook1 (T + 2 * N)) rfl hs1o,
      executeSlotF_throttle_pass_plain env 0 _ sig slot1 args N hs1 hN0 hsup3 hs1d]
    rw [show slot1.callback.code = slot.callback.code from rfl, henv]
    rw [hupd3, runActs_nil]
  refine ⟨rfl, h2, ?_, ?_⟩
  · rw [h3]
  · rw [h3]
    dsimp only
    unfold slotsOf
    rw [alookup_aset_self]
    rfl


/-- A fresh throttle-2 registration used to witness the burst theorem. -/
def c6slot : SlotInfo :=
  { id := 2, callback := Cb.base 2, target := none, once := false,
    queued := false, group := none, throttle := some 2, debounce := none,
    lastCallTime := none, timeoutId := none }

/-- A store holding `c6slot` on "t" at clock 1. -/
def c6wst : State :=
  { signals := [("t", ⟨[c6slot], []⟩)], globals := [], nextId := 2,
    clock := 1, nextTimer := 0 }

/-- Witness for C6: the amended burst property at base time T = 1 and
window N = 2. -/
theorem C6_witness :
    (emitF env0 1 c6wst "t" [9]).2 = [Event.call c6slot.callback [9]] ∧
    (emitF env0 1 { (emitF env0 1 c6wst "t" [9]).1 with clock := c6wst.clock + 2 / 2 } "t" [9])
      = ({ (emitF env0 1 c6wst "t" [9]).1 with clock := c6wst.clock + 2 / 2 }, []) ∧
    (emitF env0 1 { (emitF env0 1 c6wst "t" [9]).1 with clock := c6wst.clock + 2 * 2 } "t" [9]).2
      = [Event.call c6slot.callback [9]] ∧
    (slotsOf (emitF env0 1
        { (emitF env0 1 c6wst "t" [9]).1 with clock := c6wst.clock + 2 * 2 } "t" [9]).1 "t").map
      SlotInfo.lastCallTime = [some (c6wst.clock + 2 * 2)] :=
  C6_throttle_burst env0 c6wst "t" ⟨[c6slot], []⟩ c6slot [9] 2
    (by decide) rfl rfl rfl (by decide) rfl rfl rfl (by decide)


theorem isFunction_bound (slotFunc : JsVal) (tgt : Option Nat) :
    isFunction (match slotFunc, tgt with
      | JsVal.vfun n p dg c, some t => JsVal.vfun n p dg (jsBind c t)
      | f, _ => f) = isFunction slotFunc := by
  cases slotFunc <;> cases tgt <;> rfl

theorem addSlot_error_iff (st : State) (nameV cbV : JsVal) (tgt : Option Nat)
    (opts : SlotOptions) :
    (∃ e, addSlot st nameV cbV tgt opts = Except.error e) ↔
      (isValidSignalName nameV = false ∨ isFunction cbV = false) := by
  unfold addSlot
  by_cases h1 : isValidSignalName nameV
  · by_cases h2 : isFunction cbV
    · simp [h1, h2]
    · simp [h1, h2]
  · simp [h1]

/-- C8: `connect` throws synchronously exactly when the resolved signal
identity is an empty or non-string value or the callback is not a
function, and `disconnectByGroup` throws exactly when the group name is
empty or non-string.  (Both validations in the source precede every
mutation — `fn.bind` at line 108 and the two checks at lines 421-427
throw before `addSlot` touches the store, and the check at lines 214-216
throws before the group scan — which the embedding mirrors by producing
the error before constructing any new state.) -/
theorem C8_invalid_argument_exactly (st : State) (signal slotFunc : JsVal)
    (tgt : Option Nat) (opts : SlotOptions) (g : JsVal) :
    ((∃ e, connect st signal slotFunc tgt opts = Except.error e) ↔
      (isValidSignalName (getName signal) = false ∨ isFunction slotFunc = false)) ∧
    ((∃ e, disconnectByGroupV st g = Except.error e) ↔
      isValidSignalName g = false) := by
  constructor
  · unfold connect
    by_cases hb : tgt.isSome ∧ ¬ isFunction slotFunc
    · simp only [hb, if_true]
      constructor
      · intro _
        right
        simp [hb.2]
      · intro _
        exact ⟨JsErr.bindTypeError, rfl⟩
    · simp only [hb, if_false]
      rw [addSlot_error_iff, isFunction_bound]
  · unfold disconnectByGroupV
    by_cases hg : isValidSignalName g
    · simp [hg]
    · simp [hg]


theorem obsEq_refl (st : State) : ObsEq st st :=
  ⟨fun _ => rfl, fun _ => rfl, fun _ => rfl, fun _ => rfl⟩

theorem alookup_none_forall {α : Type} (l : List (String × α)) (k : String)
    (h : alookup l k = none) : ∀ p ∈ l, (p.1 == k) = false := by
  unfold alookup at h
  rcases hf : l.find? (fun p => p.1 == k) with _ | p
  · intro p hp
    have := List.find?_eq_none.mp hf p hp
    simpa using this
  · rw [hf] at h; simp at h

theorem aerase_aset_of_absent {α : Type} (l : List (String × α)) (k : String) (v : α)
    (h : alookup l k = none) : aerase (aset l k v) k = l := by
  have hall := alookup_none_forall l k h
  have hany : l.any (fun p => p.1 == k) = false := by
    rcases ha : l.any (fun p => p.1 == k)
    · rfl
    · rw [List.any_eq_true] at ha
      obtain ⟨p, hp, hpk⟩ := ha
      rw [hall p hp] at hpk
      cases hpk
  unfold aset
  rw [hany]
  simp only [Bool.false_eq_true, if_false]
  unfold aerase
  rw [List.filter_append]
  have h1 : l.filter (fun p => ¬ p.1 == k) = l :=
    List.filter_eq_self.mpr (fun p hp => by simp [hall p hp])
  have h2 : ([(k, v)].filter (fun p : String × α => ¬ p.1 == k)) = [] := by
    simp
  rw [h1, h2, List.append_nil]

theorem disconnectById_unknown_id (st : State) (sig : String) (id : Nat)
    (h : ∀ sl ∈ slotsOf st sig, sl.id ≠ id) :
    ObsEq (disconnectById st sig id) st := by
  unfold disconnectById
  rcases hl : alookup st.signals sig with _ | sd
  · rw [getSignalData_unknown st sig hl]
    dsimp only
    simp only [List.find?_nil]
    constructor
    · intro sig'
      by_cases hs : sig' = sig
      · subst hs
        unfold slotsOf
        rw [alookup_aset_self, hl]
        rfl
      · unfold slotsOf
        rw [alookup_aset_ne st.signals sig sig' _ hs]
    · intro g'; rfl
    · intro g'; rfl
    · intro g'; rfl
  · rw [getSignalData_known st sig sd hl]
    dsimp only
    have hf : sd.slots.find? (fun slot => slot.id == id) = none := by
      rw [List.find?_eq_none]
      intro sl hsl
      have := h sl (by rw [slotsOf_of_lookup st sig sd hl]; exact hsl)
      simp [this]
    rw [hf]
    exact obsEq_refl st

theorem disconnectS_unknown_sig (st : State) (sig : String) (cb : Cb)
    (tgt : Option Nat) (h : alookup st.signals sig = none) :
    disconnectS st sig cb tgt = st := by
  unfold disconnectS
  rw [getSignalData_unknown st sig h]
  dsimp only
  simp only [List.foldl_nil, List.isEmpty_nil, if_true]
  rw [aerase_aset_of_absent st.signals sig _ h]

theorem disconnectByGroupV_unknown_group (st : State) (g : String)
    (hg : g ≠ "") (h : alookup st.globals g = none) :
    disconnectByGroupV st (JsVal.vstr g) = Except.ok st := by
  unfold disconnectByGroupV
  have hv : isValidSignalName (JsVal.vstr g) = true := by
    simp [isValidSignalName, hg]
  rw [hv]
  simp only [Bool.not_true, Bool.false_eq_true, if_false]
  unfold disconnectByGroupS
  have hstr : JsVal.asStr (JsVal.vstr g) = g := rfl
  rw [hstr, h]
  simp

/-- C9: disconnection is idempotent and safe to call speculatively: a
Connection handle's second disconnect is a no-op; `disconnectById` with an
id not registered on the identity changes no observable state (stored
slots and group-query results); `disconnect` on an unknown identity
returns the state unchanged; `disconnectByGroup` on a valid but unknown
group neither throws nor changes the state. -/
theorem C9_disconnect_idempotent_and_noop :
    (∀ (st : State) (c : ConnInfo),
      connDisconnect (connDisconnect st c).1 (connDisconnect st c).2 = connDisconnect st c) ∧
    (∀ (st : State) (sig : String) (id : Nat),
      (∀ sl ∈ slotsOf st sig, sl.id ≠ id) → ObsEq (disconnectById st sig id) st) ∧
    (∀ (st : State) (sig : String) (cb : Cb) (tgt : Option Nat),
      alookup st.signals sig = none → disconnectS st sig cb tgt = st) ∧
    (∀ (st : State) (g : String), g ≠ "" → alookup st.globals g = none →
      disconnectByGroupV st (JsVal.vstr g) = Except.ok st) := by
  refine ⟨?_, disconnectById_unknown_id, disconnectS_unknown_sig,
    disconnectByGroupV_unknown_group⟩
  intro st c
  unfold connDisconnect
  by_cases h : c.hasDisc
  · simp [h]
  · simp [h]

/-- Witness for C9: the four parts applied at concrete states — a live
handle on `c4state`, an id (99) not registered there, an identity "nope"
with no record, and a group "gone" with no index entry. -/
theorem C9_witness :
    (connDisconnect (connDisconnect c4state ⟨2, "s", true⟩).1
        (connDisconnect c4state ⟨2, "s", true⟩).2 = connDisconnect c4state ⟨2, "s", true⟩) ∧
    ObsEq (disconnectById c4state "s" 99) c4state ∧
    disconnectS c4state "nope" (Cb.base 0) none = c4state ∧
    disconnectByGroupV c4state (JsVal.vstr "gone") = Except.ok c4state :=
  ⟨C9_disconnect_idempotent_and_noop.1 c4state ⟨2, "s", true⟩,
   C9_disconnect_idempotent_and_noop.2.1 c4state "s" 99 (by decide),
   C9_disconnect_idempotent_and_noop.2.2.1 c4state "nope" (Cb.base 0) none (by decide),
   C9_disconnect_idempotent_and_noop.2.2.2 c4state "gone" (by decide) (by decide)⟩


theorem slotsOf_addToGlobalGroup (st : State) (sig : String) (id : Nat)
    (g x : String) : slotsOf (addToGlobalGroup st sig id g) x = slotsOf st x := rfl

theorem slotsOf_addToSignalGroup (st : State) (sig : String) (id : Nat)
    (g x : String) : slotsOf (addToSignalGroup st sig id g) x = slotsOf st x := by
  unfold addToSignalGroup
  rcases hl : alookup st.signals sig with _ | sd
  · rw [getSignalData_unknown st sig hl]
    dsimp only
    unfold slotsOf
    by_cases hx : x = sig
    · subst hx
      rw [alookup_aset_self, hl]
      rfl
    · rw [alookup_aset_ne _ sig x _ hx, alookup_aset_ne _ sig x _ hx]
  · rw [getSignalData_known st sig sd hl]
    dsimp only
    unfold slotsOf
    by_cases hx : x = sig
    · subst hx
      rw [alookup_aset_self, hl]
      rfl
    · rw [alookup_aset_ne _ sig x _ hx]

theorem slotsOf_addSlotState_self (st : State) (name : String) (cbRef : Cb)
    (tgt : Option Nat) (opts : SlotOptions) :
    slotsOf (addSlotState st name cbRef tgt opts) name =
      slotsOf st name ++ [newSlotOf st name cbRef tgt opts] := by
  unfold addSlotState
  dsimp only
  have base : ∀ (st3 : State), st3.signals =
      aset ({ (getSignalData st name).1 with nextId := (getSignalData st name).1.nextId + 1 }).signals name
        { (getSignalData st name).2 with slots := (getSignalData st name).2.slots ++ [newSlotOf st name cbRef tgt opts] } →
      slotsOf st3 name = slotsOf st name ++ [newSlotOf st name cbRef tgt opts] := by
    intro st3 h3
    have h4 := getSignalData_snd_slots st name
    unfold slotsOf at h4 ⊢
    rw [h3, alookup_aset_self]
    simp only [Option.map_some', Option.getD_some]
    rw [h4]
  rcases hg : opts.group with _ | g
  · exact base _ rfl
  · dsimp only
    by_cases hge : g ≠ ""
    · rw [if_pos hge, slotsOf_addToSignalGroup, slotsOf_addToGlobalGroup]
      exact base _ rfl
    · rw [if_neg hge]
      exact base _ rfl

theorem slotsOf_addSlotState_other (st : State) (name : String) (cbRef : Cb)
    (tgt : Option Nat) (opts : SlotOptions) (other : String) (hne : other ≠ name) :
    slotsOf (addSlotState st name cbRef tgt opts) other = slotsOf st other := by
  unfold addSlotState
  dsimp only
  have base : ∀ (st3 : State), st3.signals =
      aset ({ (getSignalData st name).1 with nextId := (getSignalData st name).1.nextId + 1 }).signals name
        { (getSignalData st name).2 with slots := (getSignalData st name).2.slots ++ [newSlotOf st name cbRef tgt opts] } →
      slotsOf st3 other = slotsOf st other := by
    intro st3 h3
    unfold slotsOf
    rw [h3, alookup_aset_ne _ name other _ hne]
    unfold getSignalData
    rcases hl : alookup st.signals name with _ | sd
    · dsimp only
      rw [alookup_aset_ne _ name other _ hne]
    · rfl
  rcases hg : opts.group with _ | g
  · exact base _ rfl
  · dsimp only
    by_cases hge : g ≠ ""
    · rw [if_pos hge, slotsOf_addToSignalGroup, slotsOf_addToGlobalGroup]
      exact base _ rfl
    · rw [if_neg hge]
      exact base _ rfl


theorem executeSlotG_plain (env : Env)
    (emitf : State → String → List Nat → State × List Event)
    (st : State) (sig : String) (slot : SlotInfo) (args : List Nat)
    (hthr : slot.throttle = none) (hdeb : slot.debounce = none)
    (henv : env slot.callback.code = []) :
    executeSlotG env emitf st sig slot args = (st, [Event.call slot.callback args]) := by
  unfold executeSlotG executeSlotPostG
  rw [hthr, hdeb, henv]
  rfl

theorem emitLoopG_plain (env : Env)
    (emitf : State → String → List Nat → State × List Event)
    (sig : String) (args : List Nat) :
    ∀ (snapshot : List SlotInfo) (st : State),
    (∀ sl ∈ snapshot, sl.once = false ∧ sl.throttle = none ∧
      sl.debounce = none ∧ env sl.callback.code = []) →
    emitLoopG env emitf st snapshot sig args =
      (st, snapshot.map (fun sl => Event.call sl.callback args)) := by
  intro snapshot
  induction snapshot with
  | nil => intro st _; rfl
  | cons slot rest ih =>
      intro st h
      obtain ⟨honce, hthr, hdeb, henv⟩ := h slot (by simp)
      have hrest := ih st (fun sl hsl => h sl (by simp [hsl]))
      unfold emitLoopG
      rw [executeSlotG_plain env emitf st sig slot args hthr hdeb henv]
      dsimp only
      rw [honce]
      simp only [Bool.false_eq_true, if_false]
      rw [hrest]
      simp

/-- C1: for a signal identity whose N connected registrations are all
plain (no once, queued, throttle, or debounce option) and whose callbacks
perform no re-entrant actions, `emit` invokes each of the N stored
callbacks exactly once with exactly the emitted argument tuple, in the
stored order; and the stored order is FIFO connection order, because a
successful `connect` appends the new registration at the end of the
identity's slot list and leaves every other identity unchanged. -/
theorem C1_plain_fifo_dispatch (env : Env) (st : State) (sig : String)
    (args : List Nat) (fuel : Nat)
    (hne : slotsOf st sig ≠ [])
    (hplain : ∀ sl ∈ slotsOf st sig, sl.once = false ∧ sl.queued = false ∧
      sl.throttle = none ∧ sl.debounce = none ∧ env sl.callback.code = []) :
    (emitF env (fuel + 1) st sig args).2 =
      (slotsOf st sig).map (fun sl => Event.call sl.callback args) ∧
    (∀ (st2 : State) (sig2 : String) (cbv : JsVal) (tgt : Option Nat)
       (opts : SlotOptions) (r : State × ConnInfo),
       connect st2 (JsVal.vstr sig2) cbv tgt opts = Except.ok r →
       (∃ sl, slotsOf r.1 sig2 = slotsOf st2 sig2 ++ [sl]) ∧
       (∀ other, other ≠ sig2 → slotsOf r.1 other = slotsOf st2 other)) := by
  constructor
  · rcases hl : alookup st.signals sig with _ | sd
    · exact absurd (slotsOf_of_lookup_none st sig hl) hne
    · have hsl := slotsOf_of_lookup st sig sd hl
      unfold emitF
      rw [getSignalData_known st sig sd hl]
      dsimp only
      have hne2 : sd.slots ≠ [] := by rw [← hsl]; exact hne
      have hindep : sd.slots.isEmpty = false := by
        rcases h : sd.slots with _ | ⟨a, l⟩
        · rw [h] at hne2; exact absurd rfl hne2
        · rfl
      rw [hindep]
      simp only [Bool.false_eq_true, if_false]
      rw [emitLoopG_plain env (emitF env fuel) sig args sd.slots st
        (fun sl hsl2 => by
          obtain ⟨h1, _, h3, h4, h5⟩ := hplain sl (by rw [hsl]; exact hsl2)
          exact ⟨h1, h3, h4, h5⟩)]
      rw [hsl]
  · intro st2 sig2 cbv tgt opts r hconn
    unfold connect at hconn
    by_cases hb : tgt.isSome ∧ ¬ isFunction cbv
    · rw [if_pos hb] at hconn; cases hconn
    · rw [if_neg hb] at hconn
      dsimp only at hconn
      unfold addSlot at hconn
      rw [isFunction_bound cbv tgt] at hconn
      by_cases h1 : isValidSignalName (getName (JsVal.vstr sig2))
      · by_cases h2 : isFunction cbv
        · rw [if_neg (by simp [h1]), if_neg (by simp [h2])] at hconn
          dsimp only at hconn
          have hr := congrArg (fun x : Except JsErr (State × ConnInfo) =>
            match x with | .ok v => v.1 | .error _ => st2) hconn
          dsimp only at hr
          have hname : (getName (JsVal.vstr sig2)).asStr = sig2 := rfl
          rw [hname] at hr
          rw [← hr]
          exact ⟨⟨_, slotsOf_addSlotState_self st2 sig2 _ tgt _⟩,
            fun other hother => slotsOf_addSlotState_other st2 sig2 _ tgt _ other hother⟩
        · rw [if_neg (by simp [h1]), if_pos (by simp [h2])] at hconn
          cases hconn
      · rw [if_pos (by simp [h1])] at hconn
        cases hconn


/-- A state with two plain registrations (codes 0 and 1) on signal "p",
connected in that order. -/
def c1state : State :=
  runOps env0 [Op.opConnect "p" 0 none {}, Op.opConnect "p" 1 none {}] initState

/-- Witness for C1: the dispatch and FIFO-append property at the concrete
two-slot state `c1state`. -/
theorem C1_witness :
    ((emitF env0 1 c1state "p" [3, 4]).2 =
      (slotsOf c1state "p").map (fun sl => Event.call sl.callback [3, 4])) ∧
    (∀ (st2 : State) (sig2 : String) (cbv : JsVal) (tgt : Option Nat)
       (opts : SlotOptions) (r : State × ConnInfo),
       connect st2 (JsVal.vstr sig2) cbv tgt opts = Except.ok r →
       (∃ sl, slotsOf r.1 sig2 = slotsOf st2 sig2 ++ [sl]) ∧
       (∀ other, other ≠ sig2 → slotsOf r.1 other = slotsOf st2 other)) :=
  C1_plain_fifo_dispatch env0 c1state "p" [3, 4] 0 (by decide) (by decide)


/-- Callback 0 disconnects slot id 3 on "s"; all other callbacks are pure. -/
def env2 : Env := fun c => if c = 0 then [Act.adisById "s" 3] else []

/-- Two plain registrations on "s": slot 2 (callback 0, which disconnects
slot 3 when invoked) and slot 3 (callback 1). -/
def c2state : State :=
  runOps env2 [Op.opConnect "s" 0 none {}, Op.opConnect "s" 1 none {}] initState

/-- C2 counterexample: during the emission, slot 2's callback disconnects
slot 3 — which has not yet executed in the pass (the final store no
longer holds it) — and yet slot 3 still fires in the same pass, because
`emit` (lines 85-94) iterates the snapshot without re-checking store
membership.  The claim says such a slot does not fire in this pass. -/
theorem C2_counterexample :
    (slotsOf c2state "s").map SlotInfo.id = [2, 3] ∧
    (slotsOf (emitF env2 1 c2state "s" [5]).1 "s").map SlotInfo.id = [2] ∧
    (emitF env2 1 c2state "s" [5]).2 =
      [Event.call (Cb.base 0) [5], Event.call (Cb.base 1) [5]] := by
  decide

theorem emitLoopG_mem_fires (env : Env)
    (emitf : State → String → List Nat → State × List Event)
    (sig : String) (args : List Nat) :
    ∀ (snapshot : List SlotInfo) (st : State) (sl : SlotInfo),
    sl ∈ snapshot → sl.throttle = none → sl.debounce = none →
    Event.call sl.callback args ∈ (emitLoopG env emitf st snapshot sig args).2 := by
  intro snapshot
  induction snapshot with
  | nil => intro st sl h _ _; cases h
  | cons slot rest ih =>
      intro st sl hmem hthr hdeb
      unfold emitLoopG
      dsimp only
      rcases List.mem_cons.mp hmem with heq | hrest
      · subst heq
        have hx : (executeSlotG env emitf st sig sl args).2 =
            Event.call sl.callback args ::
              (runActsG emitf st (env sl.callback.code)).2 := by
          unfold executeSlotG executeSlotPostG
          rw [hthr, hdeb]
        rw [hx]
        simp
      · exact List.mem_append_right _ (ih _ sl hrest hthr hdeb)

/-- The per-instance callback environment for the variant scenario:
callback 0 deletes slot id 11. -/
def ienvC2 : InstSig.IEnv := fun c => if c = 0 then [11] else []

/-- Per-instance store: slot 10 (callback 0, which deletes slot 11) and
slot 11 (callback 1). -/
def islotsC2 : List (Nat × InstSig.ISlot) :=
  [(10, ⟨Cb.base 0, none, false, false⟩), (11, ⟨Cb.base 1, none, false, false⟩)]

/-- C2 (amended): in the static `Signal` of qt-signal2.ts, the firing set
of an emission is fixed by the snapshot taken at entry: a plain slot
stored when `emit` begins fires in the pass even if it is disconnected
mid-emission (by an earlier slot's callback or any other re-entrant
mutation) — the disconnection only affects later emissions.  In the
per-instance variant of src/unnamed/part_000, whose `emit` re-checks
`this._slots.has(id)` before each snapshot entry, a slot disconnected
before its turn (e.g. slot 11, deleted by slot 10's callback) does not
fire in the pass. -/
theorem C2_snapshot_fixes_firing_set :
    (∀ (env : Env) (fuel : Nat) (st : State) (sig : String) (args : List Nat)
       (sl : SlotInfo), sl ∈ slotsOf st sig → sl.throttle = none →
       sl.debounce = none →
       Event.call sl.callback args ∈ (emitF env (fuel + 1) st sig args).2) ∧
    (InstSig.emitI ienvC2 islotsC2 [7]).2 = [Event.call (Cb.base 0) [7]] := by
  constructor
  · intro env fuel st sig args sl hmem hthr hdeb
    rcases hl : alookup st.signals sig with _ | sd
    · rw [slotsOf_of_lookup_none st sig hl] at hmem; cases hmem
    · rw [slotsOf_of_lookup st sig sd hl] at hmem
      unfold emitF
      rw [getSignalData_known st sig sd hl]
      dsimp only
      have hne : sd.slots.isEmpty = false := by
        rcases h : sd.slots with _ | ⟨a, l⟩
        · rw [h] at hmem; cases hmem
        · rfl
      rw [hne]
      simp only [Bool.false_eq_true, if_false]
      exact emitLoopG_mem_fires env (emitF env fuel) sig args sd.slots st sl hmem hthr hdeb
  · decide

/-- The registration of slot 3 on "s" in `c2state`. -/
def c2slotB : SlotInfo :=
  { id := 3, callback := Cb.base 1, target := none, once := false,
    queued := false, group := none, throttle := none, debounce := none,
    lastCallTime := none, timeoutId := none }

/-- Witness for C2: the snapshot-firing property applied to slot 3 of
`c2state`, which fires even though slot 2's callback disconnects it. -/
theorem C2_witness :
    Event.call c2slotB.callback [5] ∈ (emitF env2 (0 + 1) c2state "s" [5]).2 :=
  C2_snapshot_fixes_firing_set.1 env2 0 c2state "s" [5] c2slotB (by decide) rfl rfl


section DisconnectByIdChar

theorem removeFromGlobalGroup_signals (st : State) (s : String) (i : Nat)
    (g : String) : (removeFromGlobalGroup st s i g).signals = st.signals := by
  unfold removeFromGlobalGroup
  rcases h : alookup st.globals g with _ | l
  · rfl
  · dsimp only
    split <;> rfl

theorem removeFromSignalGroup_lookup_slots (st : State) (s : String) (i : Nat)
    (g x : String) (sd0 : SignalInfo) (h : alookup st.signals s = some sd0) :
    (alookup (removeFromSignalGroup st s i g).signals x).map SignalInfo.slots =
      (alookup st.signals x).map SignalInfo.slots := by
  unfold removeFromSignalGroup
  rw [getSignalData_known st s sd0 h]
  dsimp only
  rcases hg : alookup sd0.groups g with _ | ids
  · rfl
  · dsimp only
    by_cases hx : x = s
    · subst hx
      rw [alookup_aset_self, h]
      rfl
    · rw [alookup_aset_ne _ s x _ hx]

theorem groupCleanup_lookup_slots (st : State) (s : String) (i : Nat)
    (og : Option String) (x : String) (sd0 : SignalInfo)
    (h : alookup st.signals s = some sd0) :
    (alookup (groupCleanup st s i og).signals x).map SignalInfo.slots =
      (alookup st.signals x).map SignalInfo.slots := by
  unfold groupCleanup
  rcases og with _ | g
  · rfl
  · dsimp only
    by_cases hg : g ≠ ""
    · rw [if_pos hg]
      have h2 : alookup (removeFromGlobalGroup st s i g).signals s = some sd0 := by
        rw [removeFromGlobalGroup_signals]; exact h
      rw [removeFromSignalGroup_lookup_slots _ s i g x sd0 h2,
        removeFromGlobalGroup_signals]
    · rw [if_neg hg]

theorem removeFirstSlot_of_absent (l : List SlotInfo) (id : Nat)
    (h : ∀ sl ∈ l, sl.id ≠ id) : removeFirstSlot l id = l := by
  induction l with
  | nil => rfl
  | cons a l ih =>
      unfold removeFirstSlot
      rw [if_neg (h a (by simp)), ih (fun sl hsl => h sl (by simp [hsl]))]

theorem slotsOf_disconnectById_self (st : State) (sig : String) (id : Nat) :
    slotsOf (disconnectById st sig id) sig = removeFirstSlot (slotsOf st sig) id := by
  unfold disconnectById
  rcases hl : alookup st.signals sig with _ | sd
  · rw [getSignalData_unknown st sig hl]
    dsimp only
    simp only [List.find?_nil]
    rw [slotsOf_of_lookup_none st sig hl]
    unfold slotsOf
    rw [alookup_aset_self]
    rfl
  · rw [getSignalData_known st sig sd hl]
    dsimp only
    rw [slotsOf_of_lookup st sig sd hl]
    rcases hf : sd.slots.find? (fun slot => slot.id == id) with _ | slot
    · rw [hf, slotsOf_of_lookup st sig sd hl]
      exact (removeFirstSlot_of_absent sd.slots id (fun sl hsl => by
        have := List.find?_eq_none.mp hf sl hsl
        simpa using this)).symm
    · rw [hf]
      dsimp only
      have hcl := groupCleanup_lookup_slots st sig slot.id slot.group sig sd hl
      rcases hcl2 : alookup (groupCleanup st sig slot.id slot.group).signals sig with _ | sd2
      · rw [hcl2, hl] at hcl
        simp at hcl
      · rw [hcl2, hl] at hcl
        simp only [Option.map_some'] at hcl
        have hslots : sd2.slots = sd.slots := by injection hcl
        simp only [Option.getD_some]
        by_cases he : (removeFirstSlot sd2.slots id).isEmpty
        · rw [if_pos he]
          unfold slotsOf
          rw [alookup_aerase_self]
          rw [List.isEmpty_iff] at he
          rw [← hslots, he]
          rfl
        · rw [if_neg he]
          unfold slotsOf
          rw [alookup_aset_self]
          rw [← hslots]
          rfl

theorem slotsOf_disconnectById_other (st : State) (sig : String) (id : Nat)
    (x : String) (hx : x ≠ sig) :
    slotsOf (disconnectById st sig id) x = slotsOf st x := by
  unfold disconnectById
  rcases hl : alookup st.signals sig with _ | sd
  · rw [getSignalData_unknown st sig hl]
    dsimp only
    simp only [List.find?_nil]
    unfold slotsOf
    rw [alookup_aset_ne _ sig x _ hx]
  · rw [getSignalData_known st sig sd hl]
    dsimp only
    rcases hf : sd.slots.find? (fun slot => slot.id == id) with _ | slot
    · rw [hf]
    · rw [hf]
      dsimp only
      have hcl := groupCleanup_lookup_slots st sig slot.id slot.group x sd hl
      rcases hcl2 : alookup (groupCleanup st sig slot.id slot.group).signals sig with _ | sd2
      · have hcl3 := groupCleanup_lookup_slots st sig slot.id slot.group sig sd hl
        rw [hcl2, hl] at hcl3
        simp at hcl3
      · simp only [Option.getD_some]
        by_cases he : (removeFirstSlot sd2.slots id).isEmpty
        · rw [if_pos he]
          unfold slotsOf
          rw [alookup_aerase_ne _ sig x hx, hcl]
        · rw [if_neg he]
          unfold slotsOf
          rw [alookup_aset_ne _ sig x _ hx, hcl]

end DisconnectByIdChar


section PureEmission

/-- The registration-identifying core of a slot record: everything except
the mutable throttle/debounce bookkeeping fields. -/
def slotCore (sl : SlotInfo) : Nat × Cb × Bool × Option Nat × Option Nat :=
  (sl.id, sl.callback, sl.once, sl.throttle, sl.debounce)

/-- Whether an event is a synchronous invocation of the given callback. -/
def isCallOf (cb : Cb) : Event → Bool
  | .call c _ => c == cb
  | _ => false

/-- One slot list is the other with only bookkeeping fields rewritten. -/
def coreMap (l' l : List SlotInfo) : Prop :=
  ∃ f : SlotInfo → SlotInfo, (∀ s, slotCore (f s) = slotCore s) ∧ l' = l.map f

theorem coreMap_refl (l : List SlotInfo) : coreMap l l :=
  ⟨id, fun _ => rfl, (List.map_id l).symm⟩

theorem coreMap_trans {l1 l2 l3 : List SlotInfo}
    (h1 : coreMap l2 l1) (h2 : coreMap l3 l2) : coreMap l3 l1 := by
  obtain ⟨f1, hf1, rfl⟩ := h1
  obtain ⟨f2, hf2, rfl⟩ := h2
  exact ⟨f2 ∘ f1, fun s => by rw [Function.comp_apply, hf2, hf1],
    List.map_map f2 f1 l1⟩

theorem coreMap_core {l' l : List SlotInfo} (h : coreMap l' l) :
    ∀ sl' ∈ l', ∃ sl ∈ l, slotCore sl' = slotCore sl := by
  obtain ⟨f, hf, rfl⟩ := h
  intro sl' h'
  obtain ⟨sl, hsl, rfl⟩ := List.mem_map.mp h'
  exact ⟨sl, hsl, hf sl⟩

theorem coreMap_ids {l' l : List SlotInfo} (h : coreMap l' l) :
    l'.map SlotInfo.id = l.map SlotInfo.id := by
  obtain ⟨f, hf, rfl⟩ := h
  rw [List.map_map]
  exact List.map_eq_map_iff.mpr (fun s _ => by
    have := congrArg Prod.fst (hf s)
    simpa using this)

theorem slotsOf_updateSlotFields_self (st : State) (sig : String) (id : Nat)
    (f : SlotInfo → SlotInfo) :
    slotsOf (updateSlotFields st sig id f) sig =
      (slotsOf st sig).map (fun s => if s.id = id then f s else s) := by
  unfold updateSlotFields
  rcases hl : alookup st.signals sig with _ | sd
  · rw [slotsOf_of_lookup_none st sig hl]
    rfl
  · rw [slotsOf_of_lookup st sig sd hl]
    unfold slotsOf
    rw [alookup_aset_self]
    rfl

theorem slotsOf_updateSlotFields_other (st : State) (sig : String) (id : Nat)
    (f : SlotInfo → SlotInfo) (x : String) (hx : x ≠ sig) :
    slotsOf (updateSlotFields st sig id f) x = slotsOf st x := by
  unfold updateSlotFields
  rcases hl : alookup st.signals sig with _ | sd
  · rfl
  · unfold slotsOf
    rw [alookup_aset_ne _ sig x _ hx]

theorem coreMap_updateSlotFields (st : State) (sig : String) (id : Nat)
    (f : SlotInfo → SlotInfo) (hcore : ∀ s, slotCore (f s) = slotCore s)
    (x : String) :
    coreMap (slotsOf (updateSlotFields st sig id f) x) (slotsOf st x) := by
  by_cases hx : x = sig
  · subst hx
    rw [slotsOf_updateSlotFields_self]
    exact ⟨fun s => if s.id = id then f s else s,
      fun s => by by_cases h : s.id = id <;> simp [h, hcore], rfl⟩
  · rw [slotsOf_updateSlotFields_other st sig id f x hx]
    exact coreMap_refl _

end PureEmission


theorem executeSlotPostG_pure_shape (env : Env)
    (emitf : State → String → List Nat → State × List Event)
    (st : State) (sig : String) (slot : SlotInfo) (args : List Nat)
    (hp : env slot.callback.code = []) :
    ((executeSlotPostG env emitf st sig slot args).2 = [Event.call slot.callback args] ∨
     ∃ d, (executeSlotPostG env emitf st sig slot args).2 = [Event.sched slot.callback args d]) ∧
    (∀ x, coreMap (slotsOf (executeSlotPostG env emitf st sig slot args).1 x) (slotsOf st x)) := by
  unfold executeSlotPostG
  rcases hd : slot.debounce with _ | deb
  · rw [hp]
    exact ⟨Or.inl rfl, fun x => coreMap_refl _⟩
  · dsimp only
    by_cases hd0 : deb ≠ 0
    · rw [if_pos hd0]
      dsimp only
      refine ⟨Or.inr ⟨deb, rfl⟩, fun x => ?_⟩
      exact coreMap_updateSlotFields ({ st with nextTimer := st.nextTimer + 1 }) sig slot.id
        (fun s => { s with timeoutId := some st.nextTimer }) (fun s => rfl) x
    · rw [if_neg hd0]
      rw [hp]
      exact ⟨Or.inl rfl, fun x => coreMap_refl _⟩

theorem executeSlotG_pure_shape (env : Env)
    (emitf : State → String → List Nat → State × List Event)
    (st : State) (sig : String) (slot : SlotInfo) (args : List Nat)
    (hp : env slot.callback.code = []) :
    ((executeSlotG env emitf st sig slot args).2 = [] ∨
     (executeSlotG env emitf st sig slot args).2 = [Event.call slot.callback args] ∨
     ∃ d, (executeSlotG env emitf st sig slot args).2 = [Event.sched slot.callback args d]) ∧
    (∀ x, coreMap (slotsOf (executeSlotG env emitf st sig slot args).1 x) (slotsOf st x)) := by
  unfold executeSlotG
  rcases ht : slot.throttle with _ | thr
  · obtain ⟨he, hs⟩ := executeSlotPostG_pure_shape env emitf st sig slot args hp
    exact ⟨Or.inr he, hs⟩
  · dsimp only
    by_cases ht0 : thr ≠ 0
    · rw [if_pos ht0]
      by_cases hsup : throttleSuppresses slot st.clock thr = true
      · rw [if_pos hsup]
        exact ⟨Or.inl rfl, fun x => coreMap_refl _⟩
      · rw [if_neg hsup]
        have hp2 : env ({ slot with lastCallTime := some st.clock } : SlotInfo).callback.code = [] := hp
        obtain ⟨he, hs⟩ := executeSlotPostG_pure_shape env emitf
          (updateSlotFields st sig slot.id (fun s => { s with lastCallTime := some st.clock }))
          sig { slot with lastCallTime := some st.clock } args hp2
        refine ⟨Or.inr he, fun x => coreMap_trans ?_ (hs x)⟩
        exact coreMap_updateSlotFields st sig slot.id
          (fun s => { s with lastCallTime := some st.clock }) (fun s => rfl) x
    · rw [if_neg ht0]
      obtain ⟨he, hs⟩ := executeSlotPostG_pure_shape env emitf st sig slot args hp
      exact ⟨Or.inr he, hs⟩


theorem removeFirstSlot_mem {l : List SlotInfo} {id : Nat} {sl : SlotInfo}
    (h : sl ∈ removeFirstSlot l id) : sl ∈ l := by
  induction l with
  | nil => cases h
  | cons a l ih =>
      unfold removeFirstSlot at h
      by_cases ha : a.id = id
      · rw [if_pos ha] at h
        exact List.mem_cons_of_mem a h
      · rw [if_neg ha] at h
        rcases List.mem_cons.mp h with h | h
        · exact h ▸ List.mem_cons_self a l
        · exact List.mem_cons_of_mem a (ih h)

theorem removeFirstSlot_sublist (l : List SlotInfo) (id : Nat) :
    List.Sublist (removeFirstSlot l id) l := by
  induction l with
  | nil => exact List.Sublist.refl []
  | cons a l ih =>
      unfold removeFirstSlot
      by_cases ha : a.id = id
      · rw [if_pos ha]
        exact List.sublist_cons_self a l
      · rw [if_neg ha]
        exact List.Sublist.cons₂ a ih

theorem removeFirstSlot_absent_of_nodup (l : List SlotInfo) (id : Nat)
    (h : (l.map SlotInfo.id).Nodup) :
    ∀ sl ∈ removeFirstSlot l id, sl.id ≠ id := by
  induction l with
  | nil => intro sl hsl; cases hsl
  | cons a l ih =>
      rw [List.map_cons, List.nodup_cons] at h
      unfold removeFirstSlot
      by_cases ha : a.id = id
      · rw [if_pos ha]
        intro sl hsl hid
        exact h.1 (by rw [ha, ← hid]; exact List.mem_map_of_mem SlotInfo.id hsl)
      · rw [if_neg ha]
        intro sl hsl
        rcases List.mem_cons.mp hsl with h2 | h2
        · rw [h2]; exact ha
        · exact ih h.2 sl h2

theorem disconnectById_absent (st : State) (sig : String) (id : Nat)
    (h : ((slotsOf st sig).map SlotInfo.id).Nodup) :
    ∀ sl ∈ slotsOf (disconnectById st sig id) sig, sl.id ≠ id := by
  rw [slotsOf_disconnectById_self]
  exact removeFirstSlot_absent_of_nodup _ id h

theorem emitLoopG_pure_from (env : Env)
    (emitf : State → String → List Nat → State × List Event)
    (sig : String) (args : List Nat) (hp : ∀ c, env c = []) :
    ∀ (snapshot : List SlotInfo) (st : State),
    ∀ sl' ∈ slotsOf (emitLoopG env emitf st snapshot sig args).1 sig,
      ∃ sl ∈ slotsOf st sig, slotCore sl' = slotCore sl := by
  intro snapshot
  induction snapshot with
  | nil => intro st sl' h; exact ⟨sl', h, rfl⟩
  | cons slot rest ih =>
      intro st sl' h
      unfold emitLoopG at h
      dsimp only at h
      obtain ⟨sl2, hsl2, hc2⟩ := ih _ sl' h
      have step : ∀ sl3 ∈ slotsOf (if slot.once = true then
          disconnectById (executeSlotG env emitf st sig slot args).1 sig slot.id
        else (executeSlotG env emitf st sig slot args).1) sig,
          ∃ sl ∈ slotsOf st sig, slotCore sl3 = slotCore sl := by
        intro sl3 hsl3
        have hex := (executeSlotG_pure_shape env emitf st sig slot args (hp _)).2 sig
        by_cases ho : slot.once = true
        · rw [if_pos ho] at hsl3
          rw [slotsOf_disconnectById_self] at hsl3
          exact coreMap_core hex sl3 (removeFirstSlot_mem hsl3)
        · rw [if_neg ho] at hsl3
          exact coreMap_core hex sl3 hsl3
      obtain ⟨sl4, hsl4, hc4⟩ := step sl2 hsl2
      exact ⟨sl4, hsl4, hc2.trans hc4⟩

theorem emitLoopG_pure_nodup (env : Env)
    (emitf : State → String → List Nat → State × List Event)
    (sig : String) (args : List Nat) (hp : ∀ c, env c = []) :
    ∀ (snapshot : List SlotInfo) (st : State),
    ((slotsOf st sig).map SlotInfo.id).Nodup →
    ((slotsOf (emitLoopG env emitf st snapshot sig args).1 sig).map SlotInfo.id).Nodup := by
  intro snapshot
  induction snapshot with
  | nil => intro st h; exact h
  | cons slot rest ih =>
      intro st h
      unfold emitLoopG
      dsimp only
      apply ih
      have hex := (executeSlotG_pure_shape env emitf st sig slot args (hp _)).2 sig
      have h1 : ((slotsOf (executeSlotG env emitf st sig slot args).1 sig).map SlotInfo.id).Nodup := by
        rw [coreMap_ids hex]; exact h
      by_cases ho : slot.once = true
      · rw [if_pos ho]
        rw [slotsOf_disconnectById_self]
        exact ((removeFirstSlot_sublist _ _).map SlotInfo.id).nodup h1
      · rw [if_neg ho]
        exact h1

theorem emitLoopG_pure_count_zero (env : Env)
    (emitf : State → String → List Nat → State × List Event)
    (sig : String) (args : List Nat) (cb : Cb) (hp : ∀ c, env c = []) :
    ∀ (snapshot : List SlotInfo) (st : State),
    (∀ sl ∈ snapshot, sl.callback ≠ cb) →
    ((emitLoopG env emitf st snapshot sig args).2.countP (isCallOf cb)) = 0 := by
  intro snapshot
  induction snapshot with
  | nil => intro st _; rfl
  | cons slot rest ih =>
      intro st h
      unfold emitLoopG
      dsimp only
      rw [List.countP_append]
      have h1 : ((executeSlotG env emitf st sig slot args).2.countP (isCallOf cb)) = 0 := by
        obtain ⟨he, _⟩ := executeSlotG_pure_shape env emitf st sig slot args (hp _)
        rcases he with h0 | h0 | ⟨d, h0⟩ <;> rw [h0]
        · rfl
        · have : (slot.callback == cb) = false := by
            simp [h slot (by simp)]
          simp [List.countP_cons, isCallOf, this]
        · rfl
      rw [h1, ih _ (fun sl hsl => h sl (by simp [hsl]))]

theorem emitLoopG_nil (env : Env)
    (emitf : State → String → List Nat → State × List Event)
    (st : State) (sig : String) (args : List Nat) :
    emitLoopG env emitf st [] sig args = (st, []) := rfl

theorem emitLoopG_cons (env : Env)
    (emitf : State → String → List Nat → State × List Event)
    (st : State) (slot : SlotInfo) (rest : List SlotInfo)
    (sig : String) (args : List Nat) :
    emitLoopG env emitf st (slot :: rest) sig args =
      ((emitLoopG env emitf
          (if slot.once then
            disconnectById (executeSlotG env emitf st sig slot args).1 sig slot.id
          else (executeSlotG env emitf st sig slot args).1) rest sig args).1,
        (executeSlotG env emitf st sig slot args).2 ++
          (emitLoopG env emitf
            (if slot.once then
              disconnectById (executeSlotG env emitf st sig slot args).1 sig slot.id
            else (executeSlotG env emitf st sig slot args).1) rest sig args).2) := rfl

theorem emitLoopG_append (env : Env)
    (emitf : State → String → List Nat → State × List Event)
    (sig : String) (args : List Nat) :
    ∀ (l1 l2 : List SlotInfo) (st : State),
    emitLoopG env emitf st (l1 ++ l2) sig args =
      ((emitLoopG env emitf (emitLoopG env emitf st l1 sig args).1 l2 sig args).1,
       (emitLoopG env emitf st l1 sig args).2 ++
         (emitLoopG env emitf (emitLoopG env emitf st l1 sig args).1 l2 sig args).2) := by
  intro l1
  induction l1 with
  | nil =>
      intro l2 st
      rw [List.nil_append, emitLoopG_nil]
      simp
  | cons slot rest ih =>
      intro l2 st
      rw [List.cons_append, emitLoopG_cons, emitLoopG_cons env emitf st slot rest sig args]
      dsimp only
      rw [ih]
      simp


theorem emitF_zero (env : Env) (st : State) (sig : String) (args : List Nat) :
    emitF env 0 st sig args = (st, []) := rfl

theorem emitF_succ_known (env : Env) (fuel : Nat) (st : State) (sig : String)
    (args : List Nat) (sd : SignalInfo) (hl : alookup st.signals sig = some sd)
    (hne : sd.slots.isEmpty = false) :
    emitF env (fuel + 1) st sig args =
      emitLoopG env (emitF env fuel) st sd.slots sig args := by
  unfold emitF
  rw [getSignalData_known st sig sd hl]
  dsimp only
  rw [hne]
  simp

theorem emitF_succ_unknown (env : Env) (fuel : Nat) (st : State) (sig : String)
    (args : List Nat) (hl : alookup st.signals sig = none) :
    emitF env (fuel + 1) st sig args =
      ({ st with signals := aset st.signals sig ⟨[], []⟩ }, []) := by
  unfold emitF
  rw [getSignalData_unknown st sig hl]
  rfl

theorem emitF_succ_empty (env : Env) (fuel : Nat) (st : State) (sig : String)
    (args : List Nat) (sd : SignalInfo) (hl : alookup st.signals sig = some sd)
    (he : sd.slots.isEmpty = true) :
    emitF env (fuel + 1) st sig args = (st, []) := by
  unfold emitF
  rw [getSignalData_known st sig sd hl]
  dsimp only
  rw [he]
  simp

theorem emitLoopG_pure_first (env : Env)
    (emitf : State → String → List Nat → State × List Event)
    (sig : String) (args : List Nat) (B : SlotInfo) (l1 l2 : List SlotInfo)
    (hp : ∀ c, env c = []) (honce : B.once = true)
    (hthr : B.throttle = none) (hdeb : B.debounce = none)
    (hcb1 : ∀ sl ∈ l1, sl.callback ≠ B.callback)
    (hcb2 : ∀ sl ∈ l2, sl.callback ≠ B.callback)
    (st : State) (hnodup : ((slotsOf st sig).map SlotInfo.id).Nodup) :
    ((emitLoopG env emitf st (l1 ++ B :: l2) sig args).2.countP (isCallOf B.callback) = 1) ∧
    (∀ sl ∈ slotsOf (emitLoopG env emitf st (l1 ++ B :: l2) sig args).1 sig, sl.id ≠ B.id) := by
  rw [emitLoopG_append, emitLoopG_cons]
  dsimp only
  rw [executeSlotG_plain env emitf _ sig B args hthr hdeb (hp _)]
  dsimp only
  rw [honce]
  simp only [if_true]
  have hnodup1 : ((slotsOf (emitLoopG env emitf st l1 sig args).1 sig).map SlotInfo.id).Nodup :=
    emitLoopG_pure_nodup env emitf sig args hp l1 st hnodup
  have habs2 : ∀ sl ∈ slotsOf (disconnectById (emitLoopG env emitf st l1 sig args).1 sig B.id) sig,
      sl.id ≠ B.id :=
    disconnectById_absent _ sig B.id hnodup1
  constructor
  · rw [List.countP_append, List.countP_append]
    rw [emitLoopG_pure_count_zero env emitf sig args B.callback hp l1 st hcb1]
    rw [emitLoopG_pure_count_zero env emitf sig args B.callback hp l2 _ hcb2]
    simp [isCallOf]
  · intro sl hsl
    obtain ⟨sl0, hsl0, hc⟩ := emitLoopG_pure_from env emitf sig args hp l2 _ sl hsl
    have : sl.id = sl0.id := congrArg (fun t => t.1) hc
    rw [this]
    exact habs2 sl0 hsl0

theorem emitF_pure_absent (env : Env) (st : State) (sig : String)
    (args : List Nat) (cb : Cb) (id0 : Nat) (fuel : Nat)
    (hp : ∀ c, env c = [])
    (hcb : ∀ sl ∈ slotsOf st sig, sl.callback ≠ cb)
    (hid : ∀ sl ∈ slotsOf st sig, sl.id ≠ id0) :
    ((emitF env fuel st sig args).2.countP (isCallOf cb) = 0) ∧
    (∀ sl ∈ slotsOf (emitF env fuel st sig args).1 sig, sl.callback ≠ cb) ∧
    (∀ sl ∈ slotsOf (emitF env fuel st sig args).1 sig, sl.id ≠ id0) := by
  rcases fuel with _ | fuel
  · rw [emitF_zero]
    exact ⟨rfl, hcb, hid⟩
  · rcases hl : alookup st.signals sig with _ | sd
    · rw [emitF_succ_unknown env fuel st sig args hl]
      refine ⟨rfl, ?_, ?_⟩ <;>
        · intro sl hsl
          unfold slotsOf at hsl
          rw [alookup_aset_self] at hsl
          cases hsl
    · rcases he : sd.slots.isEmpty with _ | _
      · rw [emitF_succ_known env fuel st sig args sd hl he]
        have hsnap : ∀ sl ∈ sd.slots, sl.callback ≠ cb := by
          intro sl hsl
          exact hcb sl (by rw [slotsOf_of_lookup st sig sd hl]; exact hsl)
        refine ⟨emitLoopG_pure_count_zero env (emitF env fuel) sig args cb hp sd.slots st hsnap, ?_, ?_⟩
        · intro sl hsl
          obtain ⟨sl0, hsl0, hc⟩ := emitLoopG_pure_from env (emitF env fuel) sig args hp sd.slots st sl hsl
          have : sl.callback = sl0.callback := congrArg (fun t => t.2.1) hc
          rw [this]
          exact hcb sl0 hsl0
        · intro sl hsl
          obtain ⟨sl0, hsl0, hc⟩ := emitLoopG_pure_from env (emitF env fuel) sig args hp sd.slots st sl hsl
          have : sl.id = sl0.id := congrArg (fun t => t.1) hc
          rw [this]
          exact hid sl0 hsl0
      · rw [emitF_succ_empty env fuel st sig args sd hl he]
        exact ⟨rfl, hcb, hid⟩

/-- A sequence of top-level emissions of the same identity, one call of
`emit` (at re-entrancy budget 1, enough for pure callbacks) per element. -/
def runEmits (env : Env) (sig : String) : List (List Nat) → State → State × List Event
  | [], st => (st, [])
  | args :: rest, st =>
      let r1 := emitF env 1 st sig args
      let r2 := runEmits env sig rest r1.1
      (r2.1, r1.2 ++ r2.2)

theorem runEmits_pure_absent (env : Env) (sig : String) (cb : Cb) (id0 : Nat)
    (hp : ∀ c, env c = []) :
    ∀ (rest : List (List Nat)) (st : State),
    (∀ sl ∈ slotsOf st sig, sl.callback ≠ cb) →
    (∀ sl ∈ slotsOf st sig, sl.id ≠ id0) →
    ((runEmits env sig rest st).2.countP (isCallOf cb) = 0) ∧
    (∀ sl ∈ slotsOf (runEmits env sig rest st).1 sig, sl.id ≠ id0) := by
  intro rest
  induction rest with
  | nil => intro st hcb hid; exact ⟨rfl, hid⟩
  | cons args rest ih =>
      intro st hcb hid
      unfold runEmits
      dsimp only
      obtain ⟨hc0, hcb1, hid1⟩ := emitF_pure_absent env st sig args cb id0 1 hp hcb hid
      obtain ⟨hcr, hidr⟩ := ih _ hcb1 hid1
      constructor
      · rw [List.countP_append, hc0, hcr]
      · exact hidr


/-- Callback 0 re-entrantly emits "s"; all other callbacks are pure. -/
def env3 : Env := fun c => if c = 0 then [Act.aemit "s" []] else []

/-- Slot 2 (callback 0, which re-emits "s") followed by the once-slot 3
(callback 1). -/
def c3state : State :=
  runOps env3 [Op.opConnect "s" 0 none {}, Op.opConnect "s" 1 none { once := true }] initState

/-- C3 counterexample: slot 2's callback re-entrantly emits "s".  The
once-slot 3 executes in the inner pass (where it is removed), and then
executes a second time from the outer snapshot, because `emit` (lines
87-94) runs `executeSlot` before the once-removal and never re-checks
membership.  Its callback therefore runs twice across the re-entrant
emission, contradicting exactly-once execution. -/
theorem C3_counterexample :
    ((slotsOf c3state "s").map (fun sl => (sl.id, sl.once)) = [(2, false), (3, true)]) ∧
    ((emitF env3 2 c3state "s" []).2.countP (isCallOf (Cb.base 1)) = 2) := by
  decide

/-- C3 (amended): for a registration connected with once:true on an
identity, across any non-empty sequence of top-level emits on that
identity whose slot callbacks perform no re-entrant actions, the callback
executes exactly once (counting synchronous invocations of its unique
callback reference) and the registration is removed from the store by the
first emission and never reappears.  Under re-entrant emission the
exactly-once execution fails (see the counterexample); the removal is
still performed at most once, the second `disconnectById` finding no
slot. -/
theorem C3_once_fires_once (env : Env) (st : State) (sig : String)
    (sd : SignalInfo) (B : SlotInfo) (argsList : List (List Nat))
    (hp : ∀ c, env c = [])
    (hl : alookup st.signals sig = some sd)
    (hmem : B ∈ sd.slots)
    (hnodup : (sd.slots.map SlotInfo.id).Nodup)
    (honce : B.once = true) (hthr : B.throttle = none) (hdeb : B.debounce = none)
    (huniq : ∀ sl ∈ sd.slots, sl.id ≠ B.id → sl.callback ≠ B.callback)
    (hne : argsList ≠ []) :
    ((runEmits env sig argsList st).2.countP (isCallOf B.callback) = 1) ∧
    (∀ sl ∈ slotsOf (runEmits env sig argsList st).1 sig, sl.id ≠ B.id) := by
  rcases argsList with _ | ⟨args, rest⟩
  · exact absurd rfl hne
  unfold runEmits
  dsimp only
  obtain ⟨l1, l2, hsplit⟩ := List.append_of_mem hmem
  have hnodup3 : ((l1.map SlotInfo.id) ++ B.id :: (l2.map SlotInfo.id)).Nodup := by
    have h0 := hnodup
    rw [hsplit] at h0
    simpa using h0
  have hB_notin : B.id ∉ l1.map SlotInfo.id ++ l2.map SlotInfo.id :=
    (List.nodup_cons.mp (List.nodup_middle.mp hnodup3)).1
  have hids : ∀ sl, (sl ∈ l1 ∨ sl ∈ l2) → sl.id ≠ B.id := by
    intro sl hsl hid
    apply hB_notin
    rw [← hid]
    rcases hsl with h | h
    · exact List.mem_append_left _ (List.mem_map_of_mem _ h)
    · exact List.mem_append_right _ (List.mem_map_of_mem _ h)
  have hcb1 : ∀ sl ∈ l1, sl.callback ≠ B.callback := fun sl hsl =>
    huniq sl (by rw [hsplit]; exact List.mem_append_left _ hsl) (hids sl (Or.inl hsl))
  have hcb2 : ∀ sl ∈ l2, sl.callback ≠ B.callback := fun sl hsl =>
    huniq sl (by rw [hsplit]; simp [hsl]) (hids sl (Or.inr hsl))
  have hne2 : sd.slots.isEmpty = false := by
    rw [hsplit]
    cases l1 <;> rfl
  have hemit1 : emitF env 1 st sig args = emitLoopG env (emitF env 0) st sd.slots sig args :=
    emitF_succ_known env 0 st sig args sd hl hne2
  have hnodupS : ((slotsOf st sig).map SlotInfo.id).Nodup := by
    rw [slotsOf_of_lookup st sig sd hl]; exact hnodup
  have hfirst := emitLoopG_pure_first env (emitF env 0) sig args B l1 l2 hp honce
    hthr hdeb hcb1 hcb2 st hnodupS
  rw [hsplit] at hemit1
  have habsid : ∀ sl ∈ slotsOf (emitF env 1 st sig args).1 sig, sl.id ≠ B.id := by
    rw [hemit1]; exact hfirst.2
  have hcount1 : (emitF env 1 st sig args).2.countP (isCallOf B.callback) = 1 := by
    rw [hemit1]; exact hfirst.1
  have habscb : ∀ sl ∈ slotsOf (emitF env 1 st sig args).1 sig, sl.callback ≠ B.callback := by
    intro sl hsl
    have hsl2 := hsl
    rw [hemit1] at hsl2
    obtain ⟨sl0, hsl0, hc⟩ := emitLoopG_pure_from env (emitF env 0) sig args hp
      (l1 ++ B :: l2) st sl hsl2
    have hid_eq : sl.id = sl0.id := congrArg (fun t => t.1) hc
    have hcb_eq : sl.callback = sl0.callback := congrArg (fun t => t.2.1) hc
    have hslid : sl.id ≠ B.id := habsid sl hsl
    rw [hcb_eq]
    apply huniq sl0 (by rw [← slotsOf_of_lookup st sig sd hl]; exact hsl0)
    rw [← hid_eq]
    exact hslid
  obtain ⟨hc0, hidr⟩ := runEmits_pure_absent env sig B.callback B.id hp rest _ habscb habsid
  constructor
  · rw [List.countP_append, hcount1, hc0]
  · exact hidr

/-- A plain slot and a once-slot used to witness the amended C3. -/
def c3wslotA : SlotInfo :=
  { id := 2, callback := Cb.base 0, target := none, once := false,
    queued := false, group := none, throttle := none, debounce := none,
    lastCallTime := none, timeoutId := none }

def c3wslotB : SlotInfo :=
  { id := 3, callback := Cb.base 1, target := none, once := true,
    queued := false, group := none, throttle := none, debounce := none,
    lastCallTime := none, timeoutId := none }

def c3wst : State :=
  { signals := [("s", ⟨[c3wslotA, c3wslotB], []⟩)], globals := [],
    nextId := 3, clock := 0, nextTimer := 0 }

/-- Witness for C3: the once-slot 3 of `c3wst` fires exactly once across
two pure emissions and is gone from the store afterwards. -/
theorem C3_witness :
    ((runEmits env0 "s" [[7], [8]] c3wst).2.countP (isCallOf c3wslotB.callback) = 1) ∧
    (∀ sl ∈ slotsOf (runEmits env0 "s" [[7], [8]] c3wst).1 "s", sl.id ≠ c3wslotB.id) :=
  C3_once_fires_once env0 c3wst "s" ⟨[c3wslotA, c3wslotB], []⟩ c3wslotB [[7], [8]]
    (fun _ => rfl) (by decide) (by decide) (by decide) rfl rfl rfl (by decide) (by decide)


section GroupIndex

/-- The pair list stored under group `g` in `_globals` (`[]` when the
group is absent). -/
def gpairs (st : State) (g : String) : List GPair :=
  (alookup st.globals g).getD []

/-- The `(signalName, slotId)` pairs a slot list contributes to the index
of group `g` on signal `sig`. -/
def gpairsOfSlots (g sig : String) (L : List SlotInfo) : List GPair :=
  (L.filter (fun sl => sl.group == some g)).map (fun sl => ⟨sig, sl.id⟩)

/-- All pairs the per-signal store justifies for group `g`. -/
def canonicalPairs (st : State) (g : String) : List GPair :=
  (st.signals.map (fun p => gpairsOfSlots g p.1 p.2.slots)).flatten

/-- The canonical pairs contributed by the signals other than `sig`. -/
def canonicalExcept (st : State) (g sig : String) : List GPair :=
  ((st.signals.filter (fun p => ¬ p.1 == sig)).map
    (fun p => gpairsOfSlots g p.1 p.2.slots)).flatten

/-- The number of stored registrations whose group field is `g`. -/
def groupRegCount (st : State) (g : String) : Nat :=
  (st.signals.map
    (fun p => (p.2.slots.filter (fun sl => sl.group == some g)).length)).sum

/-- `(sig, id)` appears in the global index under group `g`. -/
def pairIn (st : State) (g sig : String) (id : Nat) : Prop :=
  (⟨sig, id⟩ : GPair) ∈ gpairs st g

/-- The store holds a registration with this id on this signal whose
group field is `g`. -/
def slotHasGroup (st : State) (g sig : String) (id : Nat) : Prop :=
  ∃ sl ∈ slotsOf st sig, sl.id = id ∧ sl.group = some g

/-- Well-formedness of the static state: signal keys are unique, slot ids
are unique per signal and bounded by `_nextId`, no stored slot carries the
empty group name, and for every group the globally indexed pair list is a
permutation of the pairs the per-signal store justifies. -/
structure Inv (st : State) : Prop where
  keysNodup : (st.signals.map Prod.fst).Nodup
  idsNodup : ∀ sig, ((slotsOf st sig).map SlotInfo.id).Nodup
  idsBound : ∀ sig, ∀ sl ∈ slotsOf st sig, sl.id ≤ st.nextId
  groupsNE : ∀ sig, ∀ sl ∈ slotsOf st sig, sl.group ≠ some ""
  gperm : ∀ g, (gpairs st g).Perm (canonicalPairs st g)

theorem keys_aset_of_any {α : Type} (l : List (String × α)) (k : String) (v : α)
    (h : l.any (fun p => p.1 == k) = true) :
    (aset l k v).map Prod.fst = l.map Prod.fst := by
  unfold aset
  rw [if_pos h, List.map_map]
  refine List.map_congr_left (fun p hp => ?_)
  by_cases hk : p.1 = k
  · simp [hk]
  · simp [hk]

theorem nodup_keys_aset {α : Type} (l : List (String × α)) (k : String) (v : α)
    (h : (l.map Prod.fst).Nodup) : ((aset l k v).map Prod.fst).Nodup := by
  by_cases ha : l.any (fun p => p.1 == k) = true
  · rw [keys_aset_of_any l k v ha]; exact h
  · unfold aset
    rw [if_neg ha, List.map_append]
    rw [List.nodup_append]
    refine ⟨h, List.nodup_singleton k, ?_⟩
    intro x hx hx2
    simp only [List.map_cons, List.map_nil, List.mem_singleton] at hx2
    subst hx2
    rw [List.mem_map] at hx
    obtain ⟨p, hp, hpk⟩ := hx
    apply ha
    rw [List.any_eq_true]
    exact ⟨p, hp, by simp [hpk]⟩

theorem nodup_keys_aerase {α : Type} (l : List (String × α)) (k : String)
    (h : (l.map Prod.fst).Nodup) : ((aerase l k).map Prod.fst).Nodup :=
  List.Nodup.sublist (List.Sublist.map Prod.fst (List.filter_sublist l)) h

theorem alookup_eq_of_mem {α : Type} (l : List (String × α)) (p : String × α)
    (hnd : (l.map Prod.fst).Nodup) (hp : p ∈ l) : alookup l p.1 = some p.2 := by
  induction l with
  | nil => cases hp
  | cons q l ih =>
      rw [List.map_cons, List.nodup_cons] at hnd
      rcases List.mem_cons.mp hp with h | h
      · subst h
        unfold alookup
        rw [List.find?_cons_of_pos _ (by simp)]
        rfl
      · have hq : ¬ q.1 = p.1 := by
          intro he
          exact hnd.1 (by rw [he]; exact List.mem_map_of_mem Prod.fst h)
        unfold alookup
        rw [List.find?_cons_of_neg _ (by simp [hq])]
        exact ih hnd.2 h

theorem mem_of_alookup {α : Type} (l : List (String × α)) (k : String) (v : α)
    (h : alookup l k = some v) : (k, v) ∈ l := by
  unfold alookup at h
  rcases hf : l.find? (fun p => p.1 == k) with _ | p
  · rw [hf] at h; cases h
  · rw [hf] at h
    simp only [Option.map_some'] at h
    have hm := List.mem_of_find?_eq_some hf
    have hk := List.find?_some hf
    rcases p with ⟨a, b⟩
    simp only at h
    simp only [beq_iff_eq] at hk
    subst hk
    injection h with h2
    subst h2
    exact hm

theorem perm_cons_filter_of_alookup {α : Type} (l : List (String × α)) (k : String) (v : α)
    (hnd : (l.map Prod.fst).Nodup) (h : alookup l k = some v) :
    l.Perm ((k, v) :: l.filter (fun p => ¬ p.1 == k)) := by
  induction l with
  | nil => simp [alookup] at h
  | cons q l ih =>
      rw [List.map_cons, List.nodup_cons] at hnd
      by_cases hq : q.1 = k
      · have hv : q.2 = v := by
          unfold alookup at h
          rw [List.find?_cons_of_pos _ (by simp [hq])] at h
          simpa using h
        have hrest : l.filter (fun p => ¬ p.1 == k) = l := by
          refine List.filter_eq_self.mpr (fun p hp => ?_)
          have : ¬ p.1 = k := by
            intro he
            exact hnd.1 (by rw [hq, ← he]; exact List.mem_map_of_mem Prod.fst hp)
          simp [this]
        rw [List.filter_cons_of_neg (by simp [hq]), hrest]
        have hqe : q = (k, v) := by
          rcases q with ⟨a, b⟩
          simp only at hq hv
          rw [hq, hv]
        rw [hqe]
      · have h2 : alookup l k = some v := by
          unfold alookup at h ⊢
          rw [List.find?_cons_of_neg _ (by simp [hq])] at h
          exact h
        have hp := ih hnd.2 h2
        rw [List.filter_cons_of_pos (by simp [hq])]
        exact List.Perm.trans (hp.cons q) (List.Perm.swap (k, v) q _)

theorem entry_slots_eq_slotsOf (st : State)
    (hnd : (st.signals.map Prod.fst).Nodup)
    (p : String × SignalInfo) (hp : p ∈ st.signals) :
    slotsOf st p.1 = p.2.slots := by
  rw [slotsOf_of_lookup st p.1 p.2 (alookup_eq_of_mem st.signals p hnd hp)]

theorem canonical_decomp (st : State) (g sig : String)
    (hnd : (st.signals.map Prod.fst).Nodup) :
    (canonicalPairs st g).Perm
      (gpairsOfSlots g sig (slotsOf st sig) ++ canonicalExcept st g sig) := by
  rcases hl : alookup st.signals sig with _ | sd
  · rw [slotsOf_of_lookup_none st sig hl]
    have hfe : st.signals.filter (fun p => ¬ p.1 == sig) = st.signals := by
      refine List.filter_eq_self.mpr (fun p hp => ?_)
      have := alookup_none_forall st.signals sig hl p hp
      simp [this]
    unfold canonicalPairs canonicalExcept
    rw [hfe]
    exact List.Perm.refl _
  · rw [slotsOf_of_lookup st sig sd hl]
    have hperm := perm_cons_filter_of_alookup st.signals sig sd hnd hl
    unfold canonicalPairs canonicalExcept
    exact (hperm.map (fun p => gpairsOfSlots g p.1 p.2.slots)).flatten

theorem gpairsOfSlots_append (g sig : String) (L1 L2 : List SlotInfo) :
    gpairsOfSlots g sig (L1 ++ L2) =
      gpairsOfSlots g sig L1 ++ gpairsOfSlots g sig L2 := by
  unfold gpairsOfSlots
  rw [List.filter_append, List.map_append]

theorem mem_gpairsOfSlots (g sig : String) (L : List SlotInfo) (p : GPair) :
    p ∈ gpairsOfSlots g sig L ↔
      p.signalName = sig ∧ ∃ sl ∈ L, sl.id = p.slotId ∧ sl.group = some g := by
  unfold gpairsOfSlots
  rw [List.mem_map]
  constructor
  · rintro ⟨sl, hsl, rfl⟩
    have hm := List.mem_filter.mp hsl
    refine ⟨rfl, sl, hm.1, rfl, ?_⟩
    simpa using hm.2
  · rintro ⟨hsig, sl, hsl, hid, hgrp⟩
    refine ⟨sl, List.mem_filter.mpr ⟨hsl, by simp [hgrp]⟩, ?_⟩
    rcases p with ⟨a, b⟩
    simp only at hsig hid
    rw [hsig, hid]

theorem sig_of_mem_gpairsOfSlots {g sig : String} {L : List SlotInfo} {p : GPair}
    (h : p ∈ gpairsOfSlots g sig L) : p.signalName = sig :=
  ((mem_gpairsOfSlots g sig L p).mp h).1

theorem nodup_gpairsOfSlots (g sig : String) (L : List SlotInfo)
    (h : (L.map SlotInfo.id).Nodup) : (gpairsOfSlots g sig L).Nodup := by
  unfold gpairsOfSlots
  have h1 : ((L.filter (fun sl => sl.group == some g)).map SlotInfo.id).Nodup :=
    List.Nodup.sublist (List.Sublist.map SlotInfo.id (List.filter_sublist L)) h
  have h2 : (L.filter (fun sl => sl.group == some g)).map
        (fun sl => (⟨sig, sl.id⟩ : GPair)) =
      ((L.filter (fun sl => sl.group == some g)).map SlotInfo.id).map
        (fun i => (⟨sig, i⟩ : GPair)) := by
    rw [List.map_map]
    rfl
  rw [h2]
  exact h1.map (fun a b hab => by simpa using hab)

theorem nodup_canonicalPairs (st : State) (g : String)
    (hnd : (st.signals.map Prod.fst).Nodup)
    (hids : ∀ sig, ((slotsOf st sig).map SlotInfo.id).Nodup) :
    (canonicalPairs st g).Nodup := by
  unfold canonicalPairs
  rw [List.nodup_flatten]
  constructor
  · intro l hl
    rw [List.mem_map] at hl
    obtain ⟨p, hp, rfl⟩ := hl
    refine nodup_gpairsOfSlots g p.1 p.2.slots ?_
    rw [← entry_slots_eq_slotsOf st hnd p hp]
    exact hids p.1
  · rw [List.pairwise_map]
    have hpw : st.signals.Pairwise (fun p q => p.1 ≠ q.1) :=
      (List.pairwise_map).mp hnd
    refine hpw.imp (fun hne => ?_)
    intro x hx hy
    exact hne ((sig_of_mem_gpairsOfSlots hx) ▸ (sig_of_mem_gpairsOfSlots hy) ▸ rfl)

theorem mem_canonicalPairs (st : State) (g : String) (p : GPair)
    (hnd : (st.signals.map Prod.fst).Nodup) :
    p ∈ canonicalPairs st g ↔
      ∃ sl ∈ slotsOf st p.signalName, sl.id = p.slotId ∧ sl.group = some g := by
  unfold canonicalPairs
  rw [List.mem_flatten]
  constructor
  · rintro ⟨l, hl, hpl⟩
    rw [List.mem_map] at hl
    obtain ⟨q, hq, rfl⟩ := hl
    obtain ⟨hsig, sl, hsl, hid, hgrp⟩ := (mem_gpairsOfSlots g q.1 q.2.slots p).mp hpl
    refine ⟨sl, ?_, hid, hgrp⟩
    rw [hsig, entry_slots_eq_slotsOf st hnd q hq]
    exact hsl
  · rintro ⟨sl, hsl, hid, hgrp⟩
    rcases hlk : alookup st.signals p.signalName with _ | sd
    · rw [slotsOf_of_lookup_none st _ hlk] at hsl; cases hsl
    · refine ⟨gpairsOfSlots g p.signalName sd.slots, ?_, ?_⟩
      · rw [List.mem_map]
        exact ⟨(p.signalName, sd), mem_of_alookup _ _ _ hlk, rfl⟩
      · rw [mem_gpairsOfSlots]
        refine ⟨rfl, sl, ?_, hid, hgrp⟩
        rw [slotsOf_of_lookup st _ sd hlk] at hsl
        exact hsl

theorem length_canonicalPairs (st : State) (g : String) :
    (canonicalPairs st g).length = groupRegCount st g := by
  unfold canonicalPairs groupRegCount
  rw [List.length_flatten, List.map_map]
  congr 1
  refine List.map_congr_left (fun p hp => ?_)
  simp [gpairsOfSlots]

end GroupIndex


section OpChar

theorem getSignalData_fst_globals (st : State) (sig : String) :
    (getSignalData st sig).1.globals = st.globals := by
  unfold getSignalData
  rcases alookup st.signals sig with _ | sd <;> rfl

theorem getSignalData_fst_nextId (st : State) (sig : String) :
    (getSignalData st sig).1.nextId = st.nextId := by
  unfold getSignalData
  rcases alookup st.signals sig with _ | sd <;> rfl

theorem addToGlobalGroup_signals (st : State) (s : String) (i : Nat)
    (g : String) : (addToGlobalGroup st s i g).signals = st.signals := rfl

theorem addToGlobalGroup_nextId (st : State) (s : String) (i : Nat)
    (g : String) : (addToGlobalGroup st s i g).nextId = st.nextId := rfl

theorem removeFromGlobalGroup_nextId (st : State) (s : String) (i : Nat)
    (g : String) : (removeFromGlobalGroup st s i g).nextId = st.nextId := by
  unfold removeFromGlobalGroup
  rcases h : alookup st.globals g with _ | l
  · rfl
  · dsimp only
    split <;> rfl

theorem addToSignalGroup_globals (st : State) (s : String) (i : Nat)
    (g : String) : (addToSignalGroup st s i g).globals = st.globals := by
  unfold addToSignalGroup
  exact getSignalData_fst_globals st s

theorem addToSignalGroup_nextId (st : State) (s : String) (i : Nat)
    (g : String) : (addToSignalGroup st s i g).nextId = st.nextId := by
  unfold addToSignalGroup
  exact getSignalData_fst_nextId st s

theorem removeFromSignalGroup_globals (st : State) (s : String) (i : Nat)
    (g : String) : (removeFromSignalGroup st s i g).globals = st.globals := by
  unfold removeFromSignalGroup
  dsimp only
  split
  · exact getSignalData_fst_globals st s
  · exact getSignalData_fst_globals st s

theorem removeFromSignalGroup_nextId (st : State) (s : String) (i : Nat)
    (g : String) : (removeFromSignalGroup st s i g).nextId = st.nextId := by
  unfold removeFromSignalGroup
  dsimp only
  split
  · exact getSignalData_fst_nextId st s
  · exact getSignalData_fst_nextId st s

theorem groupCleanup_nextId (st : State) (s : String) (i : Nat)
    (grp : Option String) : (groupCleanup st s i grp).nextId = st.nextId := by
  rcases grp with _ | gn
  · rfl
  · unfold groupCleanup
    dsimp only
    by_cases hne : gn ≠ ""
    · rw [if_pos hne, removeFromSignalGroup_nextId, removeFromGlobalGroup_nextId]
    · rw [if_neg hne]

theorem updateSlotFields_globals (st : State) (sig : String) (id : Nat)
    (f : SlotInfo → SlotInfo) : (updateSlotFields st sig id f).globals = st.globals := by
  unfold updateSlotFields
  rcases h : alookup st.signals sig with _ | sd <;> rfl

theorem updateSlotFields_nextId (st : State) (sig : String) (id : Nat)
    (f : SlotInfo → SlotInfo) : (updateSlotFields st sig id f).nextId = st.nextId := by
  unfold updateSlotFields
  rcases h : alookup st.signals sig with _ | sd <;> rfl

theorem disconnectById_nextId (st : State) (sig : String) (id : Nat) :
    (disconnectById st sig id).nextId = st.nextId := by
  unfold disconnectById
  rcases hl : alookup st.signals sig with _ | sd
  · rw [getSignalData_unknown st sig hl]
    dsimp only
    simp only [List.find?_nil]
  · rw [getSignalData_known st sig sd hl]
    dsimp only
    rcases hf : sd.slots.find? (fun slot => slot.id == id) with _ | slot
    · rw [hf]
    · rw [hf]
      dsimp only
      split
      · exact groupCleanup_nextId st sig slot.id slot.group
      · exact groupCleanup_nextId st sig slot.id slot.group

theorem gpairs_addToGlobalGroup (st : State) (s : String) (i : Nat)
    (gname g' : String) :
    gpairs (addToGlobalGroup st s i gname) g' =
      if g' = gname then gpairs st gname ++ [⟨s, i⟩] else gpairs st g' := by
  unfold addToGlobalGroup gpairs
  by_cases h : g' = gname
  · rw [if_pos h, h, alookup_aset_self]
    rfl
  · rw [if_neg h, alookup_aset_ne _ gname g' _ h]

theorem gpairs_removeFromGlobalGroup (st : State) (s : String) (i : Nat)
    (gname g' : String) :
    gpairs (removeFromGlobalGroup st s i gname) g' =
      if g' = gname then removeFirstPair (gpairs st gname) s i
      else gpairs st g' := by
  unfold removeFromGlobalGroup
  rcases hl : alookup st.globals gname with _ | l
  · by_cases h : g' = gname
    · rw [if_pos h, h]
      unfold gpairs
      rw [hl]
      rfl
    · rw [if_neg h]
  · dsimp only
    by_cases he : (removeFirstPair l s i).isEmpty
    · rw [if_pos he]
      by_cases h : g' = gname
      · rw [if_pos h, h]
        unfold gpairs
        rw [alookup_aerase_self, hl]
        rw [List.isEmpty_iff] at he
        simp only [Option.getD_none, Option.getD_some]
        exact he.symm
      · rw [if_neg h]
        unfold gpairs
        rw [alookup_aerase_ne _ gname g' h]
    · rw [if_neg he]
      by_cases h : g' = gname
      · rw [if_pos h, h]
        unfold gpairs
        rw [alookup_aset_self, hl]
        rfl
      · rw [if_neg h]
        unfold gpairs
        rw [alookup_aset_ne _ gname g' _ h]

theorem gpairs_groupCleanup (st : State) (s : String) (i : Nat)
    (grp : Option String) (g' : String) :
    gpairs (groupCleanup st s i grp) g' =
      if grp = some g' ∧ g' ≠ "" then removeFirstPair (gpairs st g') s i
      else gpairs st g' := by
  rcases grp with _ | gn
  · rw [if_neg (by simp)]
    rfl
  · unfold groupCleanup
    dsimp only
    by_cases hne : gn ≠ ""
    · rw [if_pos hne]
      have hg : gpairs (removeFromSignalGroup (removeFromGlobalGroup st s i gn) s i gn) g'
          = gpairs (removeFromGlobalGroup st s i gn) g' := by
        unfold gpairs
        rw [removeFromSignalGroup_globals]
      rw [hg, gpairs_removeFromGlobalGroup]
      by_cases h : g' = gn
      · rw [if_pos h, if_pos (⟨by rw [h], by rw [h]; exact hne⟩ : some gn = some g' ∧ g' ≠ ""), h]
      · rw [if_neg h, if_neg (by rintro ⟨he, _⟩; injection he with he2; exact h he2.symm)]
    · rw [if_neg hne]
      push_neg at hne
      rw [if_neg (by rintro ⟨he, hg'⟩; injection he with he2; exact hg' (by rw [← he2, hne]))]

theorem gpairs_disconnectById (st : State) (sig : String) (id : Nat) (g' : String) :
    gpairs (disconnectById st sig id) g' =
      match (slotsOf st sig).find? (fun sl => sl.id == id) with
      | none => gpairs st g'
      | some slot =>
          if slot.group = some g' ∧ g' ≠ "" then
            removeFirstPair (gpairs st g') sig id
          else gpairs st g' := by
  unfold disconnectById
  rcases hl : alookup st.signals sig with _ | sd
  · rw [getSignalData_unknown st sig hl]
    dsimp only
    simp only [List.find?_nil]
    rw [slotsOf_of_lookup_none st sig hl]
    simp only [List.find?_nil]
    unfold gpairs
    rfl
  · rw [getSignalData_known st sig sd hl]
    dsimp only
    rw [slotsOf_of_lookup st sig sd hl]
    rcases hf : sd.slots.find? (fun slot => slot.id == id) with _ | slot
    · rw [hf]
    · rw [hf]
      dsimp only
      have hid : slot.id = id := by
        have := List.find?_some hf
        simpa using this
      have hstep : ∀ (st2 : State), st2.globals = (groupCleanup st sig slot.id slot.group).globals →
          gpairs st2 g' = if slot.group = some g' ∧ g' ≠ "" then
            removeFirstPair (gpairs st g') sig id else gpairs st g' := by
        intro st2 h2
        have : gpairs st2 g' = gpairs (groupCleanup st sig slot.id slot.group) g' := by
          unfold gpairs
          rw [h2]
        rw [this, gpairs_groupCleanup, hid]
      split
      · exact hstep _ rfl
      · exact hstep _ rfl

end OpChar


section KeysFrames

theorem nodup_keys_getSignalData (st : State) (sig : String)
    (h : (st.signals.map Prod.fst).Nodup) :
    ((getSignalData st sig).1.signals.map Prod.fst).Nodup := by
  rcases hl : alookup st.signals sig with _ | sd
  · rw [getSignalData_unknown st sig hl]
    exact nodup_keys_aset _ _ _ h
  · rw [getSignalData_known st sig sd hl]
    exact h

theorem nodup_keys_addToSignalGroup (st : State) (s : String) (i : Nat) (g : String)
    (h : (st.signals.map Prod.fst).Nodup) :
    ((addToSignalGroup st s i g).signals.map Prod.fst).Nodup := by
  unfold addToSignalGroup
  dsimp only
  exact nodup_keys_aset _ _ _ (nodup_keys_getSignalData st s h)

theorem nodup_keys_removeFromSignalGroup (st : State) (s : String) (i : Nat) (g : String)
    (h : (st.signals.map Prod.fst).Nodup) :
    ((removeFromSignalGroup st s i g).signals.map Prod.fst).Nodup := by
  unfold removeFromSignalGroup
  dsimp only
  split
  · exact nodup_keys_getSignalData st s h
  · exact nodup_keys_aset _ _ _ (nodup_keys_getSignalData st s h)

theorem nodup_keys_groupCleanup (st : State) (s : String) (i : Nat)
    (grp : Option String) (h : (st.signals.map Prod.fst).Nodup) :
    ((groupCleanup st s i grp).signals.map Prod.fst).Nodup := by
  rcases grp with _ | gn
  · exact h
  · unfold groupCleanup
    dsimp only
    by_cases hne : gn ≠ ""
    · rw [if_pos hne]
      refine nodup_keys_removeFromSignalGroup _ _ _ _ ?_
      rw [removeFromGlobalGroup_signals]
      exact h
    · rw [if_neg hne]
      exact h

theorem nodup_keys_disconnectById (st : State) (sig : String) (id : Nat)
    (h : (st.signals.map Prod.fst).Nodup) :
    ((disconnectById st sig id).signals.map Prod.fst).Nodup := by
  unfold disconnectById
  rcases hl : alookup st.signals sig with _ | sd
  · rw [getSignalData_unknown st sig hl]
    dsimp only
    simp only [List.find?_nil]
    exact nodup_keys_aset _ _ _ h
  · rw [getSignalData_known st sig sd hl]
    dsimp only
    rcases hf : sd.slots.find? (fun slot => slot.id == id) with _ | slot
    · rw [hf]
      exact h
    · rw [hf]
      dsimp only
      split
      · exact nodup_keys_aerase _ _ (nodup_keys_groupCleanup st sig slot.id slot.group h)
      · exact nodup_keys_aset _ _ _ (nodup_keys_groupCleanup st sig slot.id slot.group h)

theorem nodup_keys_updateSlotFields (st : State) (sig : String) (id : Nat)
    (f : SlotInfo → SlotInfo) (h : (st.signals.map Prod.fst).Nodup) :
    ((updateSlotFields st sig id f).signals.map Prod.fst).Nodup := by
  unfold updateSlotFields
  rcases hl : alookup st.signals sig with _ | sd
  · exact h
  · dsimp only
    exact nodup_keys_aset _ _ _ h

theorem filter_ne_map_set {α : Type} (k : String) (v : α) :
    ∀ (m : List (String × α)),
      (m.map (fun p => if p.1 == k then (k, v) else p)).filter (fun p => ¬ p.1 == k) =
        m.filter (fun p => ¬ p.1 == k) := by
  intro m
  induction m with
  | nil => rfl
  | cons q m ih =>
      rw [List.map_cons]
      by_cases hq : q.1 = k
      · rw [if_pos (by simp [hq])]
        rw [List.filter_cons_of_neg (by simp), List.filter_cons_of_neg (by simp [hq]), ih]
      · rw [if_neg (by simp [hq])]
        rw [List.filter_cons_of_pos (by simp [hq]), List.filter_cons_of_pos (by simp [hq]), ih]

theorem filter_ne_aset_key {α : Type} (l : List (String × α)) (k : String) (v : α) :
    (aset l k v).filter (fun p => ¬ p.1 == k) = l.filter (fun p => ¬ p.1 == k) := by
  unfold aset
  by_cases h : l.any (fun p => p.1 == k) = true
  · rw [if_pos h, filter_ne_map_set]
  · rw [if_neg h, List.filter_append]
    rw [List.filter_cons_of_neg (by simp)]
    simp

theorem filter_ne_aerase_key {α : Type} (l : List (String × α)) (k : String) :
    (aerase l k).filter (fun p => ¬ p.1 == k) = l.filter (fun p => ¬ p.1 == k) := by
  unfold aerase
  refine List.filter_eq_self.mpr (fun p hp => ?_)
  exact (List.mem_filter.mp hp).2

theorem filter_ne_getSignalData (st : State) (sig : String) :
    (getSignalData st sig).1.signals.filter (fun p => ¬ p.1 == sig) =
      st.signals.filter (fun p => ¬ p.1 == sig) := by
  rcases hl : alookup st.signals sig with _ | sd
  · rw [getSignalData_unknown st sig hl]
    exact filter_ne_aset_key _ _ _
  · rw [getSignalData_known st sig sd hl]

theorem filter_ne_addToSignalGroup (st : State) (s : String) (i : Nat) (g : String) :
    (addToSignalGroup st s i g).signals.filter (fun p => ¬ p.1 == s) =
      st.signals.filter (fun p => ¬ p.1 == s) := by
  unfold addToSignalGroup
  dsimp only
  rw [filter_ne_aset_key]
  exact filter_ne_getSignalData st s

theorem filter_ne_removeFromSignalGroup (st : State) (s : String) (i : Nat) (g : String) :
    (removeFromSignalGroup st s i g).signals.filter (fun p => ¬ p.1 == s) =
      st.signals.filter (fun p => ¬ p.1 == s) := by
  unfold removeFromSignalGroup
  dsimp only
  split
  · exact filter_ne_getSignalData st s
  · rw [filter_ne_aset_key]
    exact filter_ne_getSignalData st s

theorem filter_ne_groupCleanup (st : State) (s : String) (i : Nat)
    (grp : Option String) :
    (groupCleanup st s i grp).signals.filter (fun p => ¬ p.1 == s) =
      st.signals.filter (fun p => ¬ p.1 == s) := by
  rcases grp with _ | gn
  · rfl
  · unfold groupCleanup
    dsimp only
    by_cases hne : gn ≠ ""
    · rw [if_pos hne, filter_ne_removeFromSignalGroup, removeFromGlobalGroup_signals]
    · rw [if_neg hne]

theorem filter_ne_disconnectById (st : State) (sig : String) (id : Nat) :
    (disconnectById st sig id).signals.filter (fun p => ¬ p.1 == sig) =
      st.signals.filter (fun p => ¬ p.1 == sig) := by
  unfold disconnectById
  rcases hl : alookup st.signals sig with _ | sd
  · rw [getSignalData_unknown st sig hl]
    dsimp only
    simp only [List.find?_nil]
    exact filter_ne_aset_key _ _ _
  · rw [getSignalData_known st sig sd hl]
    dsimp only
    rcases hf : sd.slots.find? (fun slot => slot.id == id) with _ | slot
    · rw [hf]
    · rw [hf]
      dsimp only
      split
      · rw [filter_ne_aerase_key, filter_ne_groupCleanup]
      · rw [filter_ne_aset_key, filter_ne_groupCleanup]

theorem filter_ne_updateSlotFields (st : State) (sig : String) (id : Nat)
    (f : SlotInfo → SlotInfo) :
    (updateSlotFields st sig id f).signals.filter (fun p => ¬ p.1 == sig) =
      st.signals.filter (fun p => ¬ p.1 == sig) := by
  unfold updateSlotFields
  rcases hl : alookup st.signals sig with _ | sd
  · rfl
  · dsimp only
    exact filter_ne_aset_key _ _ _

theorem canonicalExcept_eq_of_filter (st1 st2 : State) (g sig : String)
    (h : st1.signals.filter (fun p => ¬ p.1 == sig) =
      st2.signals.filter (fun p => ¬ p.1 == sig)) :
    canonicalExcept st1 g sig = canonicalExcept st2 g sig := by
  unfold canonicalExcept
  rw [h]

theorem removeFirstPair_eq_erase (l : List GPair) (s : String) (i : Nat) :
    removeFirstPair l s i = l.erase ⟨s, i⟩ := by
  induction l with
  | nil => rfl
  | cons p rest ih =>
      unfold removeFirstPair
      by_cases h : p.signalName = s ∧ p.slotId = i
      · rw [if_pos h]
        have hpe : p = ⟨s, i⟩ := by
          rcases p with ⟨a, b⟩
          simp only at h
          rw [h.1, h.2]
        rw [hpe]
        simp [List.erase_cons]
      · rw [if_neg h]
        have hne : ¬ p = (⟨s, i⟩ : GPair) := by
          intro he
          subst he
          exact h ⟨rfl, rfl⟩
        rw [List.erase_cons, if_neg (by simpa using hne), ih]

theorem mem_removeFirstSlot_of_ne {l : List SlotInfo} {id : Nat} {sl : SlotInfo}
    (h : sl ∈ l) (hne : sl.id ≠ id) : sl ∈ removeFirstSlot l id := by
  induction l with
  | nil => cases h
  | cons a l ih =>
      unfold removeFirstSlot
      by_cases ha : a.id = id
      · rw [if_pos ha]
        rcases List.mem_cons.mp h with h1 | h1
        · exact absurd (by rw [h1]; exact ha) hne
        · exact h1
      · rw [if_neg ha]
        rcases List.mem_cons.mp h with h1 | h1
        · rw [h1]
          exact List.mem_cons_self _ _
        · exact List.mem_cons_of_mem a (ih h1)

theorem removeFirstSlot_eq_filter (l : List SlotInfo) (id : Nat)
    (hnd : (l.map SlotInfo.id).Nodup) :
    removeFirstSlot l id = l.filter (fun sl => ¬ sl.id == id) := by
  induction l with
  | nil => rfl
  | cons a l ih =>
      rw [List.map_cons, List.nodup_cons] at hnd
      unfold removeFirstSlot
      by_cases ha : a.id = id
      · rw [if_pos ha, List.filter_cons_of_neg (by simp [ha])]
        refine (List.filter_eq_self.mpr (fun sl hsl => ?_)).symm
        have hne : ¬ sl.id = id := by
          intro he
          exact hnd.1 (by rw [ha, ← he]; exact List.mem_map_of_mem SlotInfo.id hsl)
        simp [hne]
      · rw [if_neg ha, List.filter_cons_of_pos (by simp [ha]), ih hnd.2]

theorem unique_slot_of_nodup {L : List SlotInfo}
    (hnd : (L.map SlotInfo.id).Nodup) {a b : SlotInfo}
    (ha : a ∈ L) (hb : b ∈ L) (hab : a.id = b.id) : a = b :=
  List.inj_on_of_nodup_map hnd ha hb hab

theorem gpairsOfSlots_removeFirstSlot_erase (gname sig : String)
    (L : List SlotInfo) (id : Nat)
    (hgrp : ∀ sl ∈ L, sl.id = id → sl.group = some gname) :
    gpairsOfSlots gname sig (removeFirstSlot L id) =
      (gpairsOfSlots gname sig L).erase ⟨sig, id⟩ := by
  induction L with
  | nil => rfl
  | cons s rest ih =>
      have ihr := ih (fun sl hsl he => hgrp sl (List.mem_cons_of_mem s hsl) he)
      unfold removeFirstSlot
      by_cases hs : s.id = id
      · rw [if_pos hs]
        have hg := hgrp s (List.mem_cons_self _ _) hs
        unfold gpairsOfSlots
        rw [List.filter_cons_of_pos (by simp [hg]), List.map_cons, hs]
        simp [List.erase_cons]
      · rw [if_neg hs]
        by_cases hgs : s.group = some gname
        · unfold gpairsOfSlots at ihr ⊢
          rw [List.filter_cons_of_pos (by simp [hgs]), List.filter_cons_of_pos (by simp [hgs]),
            List.map_cons, List.map_cons, List.erase_cons,
            if_neg (by simp [hs]), ihr]
        · unfold gpairsOfSlots at ihr ⊢
          rw [List.filter_cons_of_neg (by simp [hgs]), List.filter_cons_of_neg (by simp [hgs]), ihr]

theorem gpairsOfSlots_removeFirstSlot_other (g' sig : String)
    (L : List SlotInfo) (id : Nat)
    (hgrp : ∀ sl ∈ L, sl.id = id → ¬ sl.group = some g') :
    gpairsOfSlots g' sig (removeFirstSlot L id) = gpairsOfSlots g' sig L := by
  induction L with
  | nil => rfl
  | cons s rest ih =>
      have ihr := ih (fun sl hsl he => hgrp sl (List.mem_cons_of_mem s hsl) he)
      unfold removeFirstSlot
      by_cases hs : s.id = id
      · rw [if_pos hs]
        have hg := hgrp s (List.mem_cons_self _ _) hs
        unfold gpairsOfSlots
        rw [List.filter_cons_of_neg (by simp [hg])]
      · rw [if_neg hs]
        by_cases hgs : s.group = some g'
        · unfold gpairsOfSlots at ihr ⊢
          rw [List.filter_cons_of_pos (by simp [hgs]), List.filter_cons_of_pos (by simp [hgs]),
            List.map_cons, List.map_cons, ihr]
        · unfold gpairsOfSlots at ihr ⊢
          rw [List.filter_cons_of_neg (by simp [hgs]), List.filter_cons_of_neg (by simp [hgs]), ihr]

end KeysFrames

section InvPres

theorem inv_disconnectById (st : State) (sig : String) (id : Nat) (h : Inv st) :
    Inv (disconnectById st sig id) := by
  have hknd := nodup_keys_disconnectById st sig id h.keysNodup
  have hself := slotsOf_disconnectById_self st sig id
  have hfe := filter_ne_disconnectById st sig id
  refine ⟨hknd, ?_, ?_, ?_, ?_⟩
  · intro x
    by_cases hx : x = sig
    · rw [hx, hself]
      exact List.Nodup.sublist
        (List.Sublist.map SlotInfo.id (removeFirstSlot_sublist _ id)) (h.idsNodup sig)
    · rw [slotsOf_disconnectById_other st sig id x hx]
      exact h.idsNodup x
  · intro x sl hsl
    rw [disconnectById_nextId]
    by_cases hx : x = sig
    · rw [hx, hself] at hsl
      exact h.idsBound sig sl (removeFirstSlot_mem hsl)
    · rw [slotsOf_disconnectById_other st sig id x hx] at hsl
      exact h.idsBound x sl hsl
  · intro x sl hsl
    by_cases hx : x = sig
    · rw [hx, hself] at hsl
      exact h.groupsNE sig sl (removeFirstSlot_mem hsl)
    · rw [slotsOf_disconnectById_other st sig id x hx] at hsl
      exact h.groupsNE x sl hsl
  · intro g'
    have hdec := canonical_decomp (disconnectById st sig id) g' sig hknd
    have hdec0 := canonical_decomp st g' sig h.keysNodup
    have hexc : canonicalExcept (disconnectById st sig id) g' sig = canonicalExcept st g' sig :=
      canonicalExcept_eq_of_filter _ _ _ _ hfe
    rw [gpairs_disconnectById]
    rcases hf : (slotsOf st sig).find? (fun sl => sl.id == id) with _ | slot
    · rw [hf]
      have habs : ∀ sl ∈ slotsOf st sig, sl.id ≠ id := fun sl hsl => by
        have := List.find?_eq_none.mp hf sl hsl
        simpa using this
      have hsame : slotsOf (disconnectById st sig id) sig = slotsOf st sig := by
        rw [hself, removeFirstSlot_of_absent _ _ habs]
      rw [hsame, hexc] at hdec
      exact ((h.gperm g').trans hdec0).trans hdec.symm
    · rw [hf]
      dsimp only
      have hmem : slot ∈ slotsOf st sig := List.mem_of_find?_eq_some hf
      have hid : slot.id = id := by
        have := List.find?_some hf
        simpa using this
      by_cases hcond : slot.group = some g' ∧ g' ≠ ""
      · rw [if_pos hcond]
        have hgrp : ∀ sl ∈ slotsOf st sig, sl.id = id → sl.group = some g' := by
          intro sl hsl he
          have : sl = slot := unique_slot_of_nodup (h.idsNodup sig) hsl hmem (by rw [he, hid])
          rw [this]
          exact hcond.1
        have hpmem : (⟨sig, id⟩ : GPair) ∈ gpairsOfSlots g' sig (slotsOf st sig) := by
          rw [mem_gpairsOfSlots]
          exact ⟨rfl, slot, hmem, hid, hcond.1⟩
        rw [removeFirstPair_eq_erase]
        have p2 := ((h.gperm g').trans hdec0).erase (⟨sig, id⟩ : GPair)
        rw [List.erase_append_left _ hpmem,
          (gpairsOfSlots_removeFirstSlot_erase g' sig _ id hgrp).symm] at p2
        refine p2.trans ?_
        rw [← hself, ← hexc]
        exact hdec.symm
      · rw [if_neg hcond]
        have hgrp : ∀ sl ∈ slotsOf st sig, sl.id = id → ¬ sl.group = some g' := by
          intro sl hsl he hg'
          have heq : sl = slot := unique_slot_of_nodup (h.idsNodup sig) hsl hmem (by rw [he, hid])
          by_cases hge : g' = ""
          · exact h.groupsNE sig sl hsl (by rw [hg', hge])
          · exact hcond ⟨by rw [← heq]; exact hg', hge⟩
        have hsl2 : gpairsOfSlots g' sig (slotsOf (disconnectById st sig id) sig) =
            gpairsOfSlots g' sig (slotsOf st sig) := by
          rw [hself]
          exact gpairsOfSlots_removeFirstSlot_other g' sig _ id hgrp
        rw [hsl2, hexc] at hdec
        exact ((h.gperm g').trans hdec0).trans hdec.symm

end InvPres


section InvAdd

theorem gpairs_eq_of_globals {st1 st2 : State} (h : st1.globals = st2.globals)
    (g : String) : gpairs st1 g = gpairs st2 g := by
  unfold gpairs
  rw [h]

theorem newSlotOf_id (st : State) (name : String) (cbRef : Cb)
    (tgt : Option Nat) (opts : SlotOptions) :
    (newSlotOf st name cbRef tgt opts).id = st.nextId + 1 := by
  unfold newSlotOf
  dsimp only
  rw [getSignalData_fst_nextId]

theorem newSlotOf_group (st : State) (name : String) (cbRef : Cb)
    (tgt : Option Nat) (opts : SlotOptions) :
    (newSlotOf st name cbRef tgt opts).group = opts.group := rfl

theorem gpairsOfSlots_singleton_none (g' sig : String) (slot : SlotInfo)
    (h : ¬ slot.group = some g') : gpairsOfSlots g' sig [slot] = [] := by
  unfold gpairsOfSlots
  rw [List.filter_cons_of_neg (by simp [h])]
  rfl

theorem gpairsOfSlots_singleton_some (g' sig : String) (slot : SlotInfo)
    (h : slot.group = some g') : gpairsOfSlots g' sig [slot] = [⟨sig, slot.id⟩] := by
  unfold gpairsOfSlots
  rw [List.filter_cons_of_pos (by simp [h])]
  rfl

theorem perm_append_snoc {α : Type} (A E : List α) (p : α) :
    ((A ++ E) ++ [p]).Perm ((A ++ [p]) ++ E) := by
  rw [List.append_assoc, List.append_assoc]
  exact List.Perm.append_left A List.perm_append_comm

theorem nodup_keys_addSlotState (st : State) (name : String) (cbRef : Cb)
    (tgt : Option Nat) (opts : SlotOptions) (h : (st.signals.map Prod.fst).Nodup) :
    ((addSlotState st name cbRef tgt opts).signals.map Prod.fst).Nodup := by
  unfold addSlotState
  dsimp only
  rcases hg : opts.group with _ | g
  · exact nodup_keys_aset _ _ _ (nodup_keys_getSignalData st name h)
  · dsimp only
    by_cases hne : g ≠ ""
    · rw [if_pos hne]
      exact nodup_keys_addToSignalGroup _ _ _ _
        (nodup_keys_aset _ _ _ (nodup_keys_getSignalData st name h))
    · rw [if_neg hne]
      exact nodup_keys_aset _ _ _ (nodup_keys_getSignalData st name h)

theorem filter_ne_addSlotState (st : State) (name : String) (cbRef : Cb)
    (tgt : Option Nat) (opts : SlotOptions) :
    (addSlotState st name cbRef tgt opts).signals.filter (fun p => ¬ p.1 == name) =
      st.signals.filter (fun p => ¬ p.1 == name) := by
  unfold addSlotState
  dsimp only
  rcases hg : opts.group with _ | g
  · rw [filter_ne_aset_key]
    exact filter_ne_getSignalData st name
  · dsimp only
    by_cases hne : g ≠ ""
    · rw [if_pos hne, filter_ne_addToSignalGroup, addToGlobalGroup_signals, filter_ne_aset_key]
      exact filter_ne_getSignalData st name
    · rw [if_neg hne, filter_ne_aset_key]
      exact filter_ne_getSignalData st name

theorem nextId_addSlotState (st : State) (name : String) (cbRef : Cb)
    (tgt : Option Nat) (opts : SlotOptions) :
    (addSlotState st name cbRef tgt opts).nextId = st.nextId + 1 := by
  unfold addSlotState
  dsimp only
  rcases hg : opts.group with _ | g
  · show (getSignalData st name).1.nextId + 1 = st.nextId + 1
    rw [getSignalData_fst_nextId]
  · dsimp only
    by_cases hne : g ≠ ""
    · rw [if_pos hne, addToSignalGroup_nextId, addToGlobalGroup_nextId]
      show (getSignalData st name).1.nextId + 1 = st.nextId + 1
      rw [getSignalData_fst_nextId]
    · rw [if_neg hne]
      show (getSignalData st name).1.nextId + 1 = st.nextId + 1
      rw [getSignalData_fst_nextId]

theorem gpairs_addSlotState (st : State) (name : String) (cbRef : Cb)
    (tgt : Option Nat) (opts : SlotOptions) (g' : String) :
    gpairs (addSlotState st name cbRef tgt opts) g' =
      match opts.group with
      | some g => if g ≠ "" ∧ g' = g then gpairs st g' ++ [⟨name, st.nextId + 1⟩]
          else gpairs st g'
      | none => gpairs st g' := by
  unfold addSlotState
  dsimp only
  rcases hg : opts.group with _ | g
  · exact gpairs_eq_of_globals (getSignalData_fst_globals st name) g'
  · dsimp only
    by_cases hne : g ≠ ""
    · rw [if_pos hne]
      have h1 : gpairs (addToSignalGroup
            (addToGlobalGroup
              { { (getSignalData st name).1 with nextId := (getSignalData st name).1.nextId + 1 } with
                signals := aset { (getSignalData st name).1 with
                    nextId := (getSignalData st name).1.nextId + 1 }.signals name
                  { (getSignalData st name).2 with
                    slots := (getSignalData st name).2.slots ++ [newSlotOf st name cbRef tgt opts] } }
              name (newSlotOf st name cbRef tgt opts).id g)
            name (newSlotOf st name cbRef tgt opts).id g) g' =
          gpairs (addToGlobalGroup
            { { (getSignalData st name).1 with nextId := (getSignalData st name).1.nextId + 1 } with
              signals := aset { (getSignalData st name).1 with
                  nextId := (getSignalData st name).1.nextId + 1 }.signals name
                { (getSignalData st name).2 with
                  slots := (getSignalData st name).2.slots ++ [newSlotOf st name cbRef tgt opts] } }
            name (newSlotOf st name cbRef tgt opts).id g) g' :=
        gpairs_eq_of_globals (addToSignalGroup_globals _ _ _ _) g'
      rw [h1, gpairs_addToGlobalGroup]
      by_cases hgg : g' = g
      · rw [if_pos hgg, if_pos ⟨hne, hgg⟩, hgg, newSlotOf_id]
        congr 1
        exact gpairs_eq_of_globals (getSignalData_fst_globals st name) g
      · rw [if_neg hgg, if_neg (fun hc => hgg hc.2)]
        exact gpairs_eq_of_globals (getSignalData_fst_globals st name) g'
    · rw [if_neg hne, if_neg (fun hc => hne hc.1)]
      exact gpairs_eq_of_globals (getSignalData_fst_globals st name) g'

theorem inv_addSlotState (st : State) (name : String) (cbRef : Cb)
    (tgt : Option Nat) (opts : SlotOptions) (h : Inv st)
    (hgrp : opts.group ≠ some "") :
    Inv (addSlotState st name cbRef tgt opts) := by
  have hknd := nodup_keys_addSlotState st name cbRef tgt opts h.keysNodup
  have hself := slotsOf_addSlotState_self st name cbRef tgt opts
  have hfe := filter_ne_addSlotState st name cbRef tgt opts
  have hnid := nextId_addSlotState st name cbRef tgt opts
  refine ⟨hknd, ?_, ?_, ?_, ?_⟩
  · intro x
    by_cases hx : x = name
    · rw [hx, hself, List.map_append]
      rw [List.nodup_append]
      refine ⟨h.idsNodup name, by simp, ?_⟩
      intro i hi hi2
      simp only [List.map_cons, List.map_nil, List.mem_singleton, newSlotOf_id] at hi2
      rw [List.mem_map] at hi
      obtain ⟨sl, hsl, rfl⟩ := hi
      have := h.idsBound name sl hsl
      omega
    · rw [slotsOf_addSlotState_other st name cbRef tgt opts x hx]
      exact h.idsNodup x
  · intro x sl hsl
    rw [hnid]
    by_cases hx : x = name
    · rw [hx, hself] at hsl
      rcases List.mem_append.mp hsl with h1 | h1
      · have := h.idsBound name sl h1
        omega
      · simp only [List.mem_singleton] at h1
        rw [h1, newSlotOf_id]
    · rw [slotsOf_addSlotState_other st name cbRef tgt opts x hx] at hsl
      have := h.idsBound x sl hsl
      omega
  · intro x sl hsl
    by_cases hx : x = name
    · rw [hx, hself] at hsl
      rcases List.mem_append.mp hsl with h1 | h1
      · exact h.groupsNE name sl h1
      · simp only [List.mem_singleton] at h1
        rw [h1, newSlotOf_group]
        exact hgrp
    · rw [slotsOf_addSlotState_other st name cbRef tgt opts x hx] at hsl
      exact h.groupsNE x sl hsl
  · intro g'
    have hdec := canonical_decomp (addSlotState st name cbRef tgt opts) g' name hknd
    have hdec0 := canonical_decomp st g' name h.keysNodup
    have hexc : canonicalExcept (addSlotState st name cbRef tgt opts) g' name =
        canonicalExcept st g' name :=
      canonicalExcept_eq_of_filter _ _ _ _ hfe
    rw [gpairs_addSlotState]
    rcases hg : opts.group with _ | g
    · have hsng : gpairsOfSlots g' name [newSlotOf st name cbRef tgt opts] = [] :=
        gpairsOfSlots_singleton_none g' name _ (by rw [newSlotOf_group, hg]; simp)
      rw [hself, gpairsOfSlots_append, hsng, List.append_nil, hexc] at hdec
      exact ((h.gperm g').trans hdec0).trans hdec.symm
    · dsimp only
      by_cases hcond : g ≠ "" ∧ g' = g
      · rw [if_pos hcond]
        have hsng : gpairsOfSlots g' name [newSlotOf st name cbRef tgt opts] =
            [⟨name, st.nextId + 1⟩] := by
          rw [gpairsOfSlots_singleton_some g' name _ (by rw [newSlotOf_group, hg, hcond.2]),
            newSlotOf_id]
        rw [hself, gpairsOfSlots_append, hsng, hexc] at hdec
        refine List.Perm.trans ?_ hdec.symm
        refine List.Perm.trans (List.Perm.append_right _ ((h.gperm g').trans hdec0)) ?_
        exact perm_append_snoc _ _ _
      · rw [if_neg hcond]
        have hsng : gpairsOfSlots g' name [newSlotOf st name cbRef tgt opts] = [] := by
          refine gpairsOfSlots_singleton_none g' name _ ?_
          rw [newSlotOf_group, hg]
          intro he
          injection he with he2
          rcases Decidable.not_and_iff_or_not.mp hcond with h1 | h1
          · push_neg at h1
            exact hgrp (by rw [hg, h1])
          · exact h1 he2.symm
        rw [hself, gpairsOfSlots_append, hsng, List.append_nil, hexc] at hdec
        exact ((h.gperm g').trans hdec0).trans hdec.symm

theorem gpairsOfSlots_map_pres (g sig : String) (L : List SlotInfo)
    (F : SlotInfo → SlotInfo) (hFid : ∀ s ∈ L, (F s).id = s.id)
    (hFgr : ∀ s ∈ L, (F s).group = s.group) :
    gpairsOfSlots g sig (L.map F) = gpairsOfSlots g sig L := by
  induction L with
  | nil => rfl
  | cons s rest ih =>
      have ihr := ih (fun a ha => hFid a (List.mem_cons_of_mem s ha))
        (fun a ha => hFgr a (List.mem_cons_of_mem s ha))
      rw [List.map_cons]
      by_cases hsg : s.group = some g
      · unfold gpairsOfSlots at ihr ⊢
        rw [List.filter_cons_of_pos (by simp [hFgr s (List.mem_cons_self _ _), hsg]),
          List.filter_cons_of_pos (by simp [hsg]),
          List.map_cons, List.map_cons, ihr, hFid s (List.mem_cons_self _ _)]
      · unfold gpairsOfSlots at ihr ⊢
        rw [List.filter_cons_of_neg (by simp [hFgr s (List.mem_cons_self _ _), hsg]),
          List.filter_cons_of_neg (by simp [hsg]), ihr]

theorem inv_updateSlotFields (st : State) (sig : String) (id : Nat)
    (f : SlotInfo → SlotInfo) (hid : ∀ s, (f s).id = s.id)
    (hgr : ∀ s, (f s).group = s.group) (h : Inv st) :
    Inv (updateSlotFields st sig id f) := by
  have hknd := nodup_keys_updateSlotFields st sig id f h.keysNodup
  have hself := slotsOf_updateSlotFields_self st sig id f
  have hFid : ∀ s, ((fun s => if s.id = id then f s else s) s).id = s.id := by
    intro s
    by_cases hs : s.id = id <;> simp [hs, hid]
  have hFgr : ∀ s, ((fun s => if s.id = id then f s else s) s).group = s.group := by
    intro s
    by_cases hs : s.id = id <;> simp [hs, hgr]
  refine ⟨hknd, ?_, ?_, ?_, ?_⟩
  · intro x
    by_cases hx : x = sig
    · rw [hx, hself]
      have hmm : ((slotsOf st sig).map (fun s => if s.id = id then f s else s)).map SlotInfo.id =
          (slotsOf st sig).map SlotInfo.id := by
        rw [List.map_map]
        exact List.map_congr_left (fun s hs => hFid s)
      rw [hmm]
      exact h.idsNodup sig
    · rw [slotsOf_updateSlotFields_other st sig id f x hx]
      exact h.idsNodup x
  · intro x sl hsl
    rw [updateSlotFields_nextId]
    by_cases hx : x = sig
    · rw [hx, hself] at hsl
      rw [List.mem_map] at hsl
      obtain ⟨s, hs, rfl⟩ := hsl
      rw [hFid s]
      exact h.idsBound sig s hs
    · rw [slotsOf_updateSlotFields_other st sig id f x hx] at hsl
      exact h.idsBound x sl hsl
  · intro x sl hsl
    by_cases hx : x = sig
    · rw [hx, hself] at hsl
      rw [List.mem_map] at hsl
      obtain ⟨s, hs, rfl⟩ := hsl
      rw [hFgr s]
      exact h.groupsNE sig s hs
    · rw [slotsOf_updateSlotFields_other st sig id f x hx] at hsl
      exact h.groupsNE x sl hsl
  · intro g'
    have hdec := canonical_decomp (updateSlotFields st sig id f) g' sig hknd
    have hdec0 := canonical_decomp st g' sig h.keysNodup
    have hexc : canonicalExcept (updateSlotFields st sig id f) g' sig =
        canonicalExcept st g' sig :=
      canonicalExcept_eq_of_filter _ _ _ _ (filter_ne_updateSlotFields st sig id f)
    have hgp : gpairs (updateSlotFields st sig id f) g' = gpairs st g' :=
      gpairs_eq_of_globals (updateSlotFields_globals st sig id f) g'
    have hcan : gpairsOfSlots g' sig (slotsOf (updateSlotFields st sig id f) sig) =
        gpairsOfSlots g' sig (slotsOf st sig) := by
      rw [hself]
      exact gpairsOfSlots_map_pres g' sig _ _ (fun s _ => hFid s) (fun s _ => hFgr s)
    rw [hgp]
    rw [hcan, hexc] at hdec
    exact ((h.gperm g').trans hdec0).trans hdec.symm

end InvAdd


section DisconnectSChar

theorem dsfold_nextId (sig : String) (cb : Cb) (tgt : Option Nat) :
    ∀ (L : List SlotInfo) (A : State) (K : List SlotInfo),
      (L.foldl (fun (acc : State × List SlotInfo) slot =>
          if disconnectMatch cb tgt slot then
            (groupCleanup acc.1 sig slot.id slot.group, acc.2)
          else (acc.1, acc.2 ++ [slot])) (A, K)).1.nextId = A.nextId := by
  intro L
  induction L with
  | nil => intro A K; rfl
  | cons slot L ih =>
      intro A K
      rw [List.foldl_cons]
      by_cases hm : disconnectMatch cb tgt slot
      · rw [if_pos hm, ih, groupCleanup_nextId]
      · rw [if_neg hm, ih]

theorem dsfold_lookup_slots (sig : String) (cb : Cb) (tgt : Option Nat) :
    ∀ (L : List SlotInfo) (A : State) (K : List SlotInfo) (sd : SignalInfo),
      alookup A.signals sig = some sd →
      ∀ x, (alookup (L.foldl (fun (acc : State × List SlotInfo) slot =>
          if disconnectMatch cb tgt slot then
            (groupCleanup acc.1 sig slot.id slot.group, acc.2)
          else (acc.1, acc.2 ++ [slot])) (A, K)).1.signals x).map SignalInfo.slots =
        (alookup A.signals x).map SignalInfo.slots := by
  intro L
  induction L with
  | nil => intro A K sd hsd x; rfl
  | cons slot L ih =>
      intro A K sd hsd x
      rw [List.foldl_cons]
      by_cases hm : disconnectMatch cb tgt slot
      · rw [if_pos hm]
        have hpres := groupCleanup_lookup_slots A sig slot.id slot.group sig sd hsd
        rw [hsd] at hpres
        rcases hl2 : alookup (groupCleanup A sig slot.id slot.group).signals sig with _ | sd2
        · rw [hl2] at hpres
          simp at hpres
        · rw [hl2] at hpres
          rw [ih (groupCleanup A sig slot.id slot.group) K sd2 hl2 x,
            groupCleanup_lookup_slots A sig slot.id slot.group x sd hsd]
      · rw [if_neg hm, ih A (K ++ [slot]) sd hsd x]

theorem dsfold_filter_ne (sig : String) (cb : Cb) (tgt : Option Nat) :
    ∀ (L : List SlotInfo) (A : State) (K : List SlotInfo),
      (L.foldl (fun (acc : State × List SlotInfo) slot =>
          if disconnectMatch cb tgt slot then
            (groupCleanup acc.1 sig slot.id slot.group, acc.2)
          else (acc.1, acc.2 ++ [slot])) (A, K)).1.signals.filter
            (fun p => ¬ p.1 == sig) =
        A.signals.filter (fun p => ¬ p.1 == sig) := by
  intro L
  induction L with
  | nil => intro A K; rfl
  | cons slot L ih =>
      intro A K
      rw [List.foldl_cons]
      by_cases hm : disconnectMatch cb tgt slot
      · rw [if_pos hm, ih, filter_ne_groupCleanup]
      · rw [if_neg hm, ih]

theorem dsfold_keys (sig : String) (cb : Cb) (tgt : Option Nat) :
    ∀ (L : List SlotInfo) (A : State) (K : List SlotInfo),
      (A.signals.map Prod.fst).Nodup →
      ((L.foldl (fun (acc : State × List SlotInfo) slot =>
          if disconnectMatch cb tgt slot then
            (groupCleanup acc.1 sig slot.id slot.group, acc.2)
          else (acc.1, acc.2 ++ [slot])) (A, K)).1.signals.map Prod.fst).Nodup := by
  intro L
  induction L with
  | nil => intro A K h; exact h
  | cons slot L ih =>
      intro A K h
      rw [List.foldl_cons]
      by_cases hm : disconnectMatch cb tgt slot
      · rw [if_pos hm]
        exact ih _ _ (nodup_keys_groupCleanup A sig slot.id slot.group h)
      · rw [if_neg hm]
        exact ih _ _ h

theorem dsfold_gpairs (sig : String) (cb : Cb) (tgt : Option Nat) (g' : String) :
    ∀ (L : List SlotInfo) (A : State) (K : List SlotInfo),
      gpairs (L.foldl (fun (acc : State × List SlotInfo) slot =>
          if disconnectMatch cb tgt slot then
            (groupCleanup acc.1 sig slot.id slot.group, acc.2)
          else (acc.1, acc.2 ++ [slot])) (A, K)).1 g' =
        L.foldl (fun l sl =>
          if disconnectMatch cb tgt sl ∧ sl.group = some g' ∧ g' ≠ "" then
            removeFirstPair l sig sl.id else l) (gpairs A g') := by
  intro L
  induction L with
  | nil => intro A K; rfl
  | cons slot L ih =>
      intro A K
      rw [List.foldl_cons, List.foldl_cons]
      by_cases hm : disconnectMatch cb tgt slot
      · rw [if_pos hm, ih]
        congr 1
        rw [gpairs_groupCleanup]
        by_cases hc : slot.group = some g' ∧ g' ≠ ""
        · rw [if_pos hc, if_pos ⟨hm, hc⟩]
        · rw [if_neg hc, if_neg (fun hh => hc hh.2)]
      · rw [if_neg hm, ih]
        congr 1
        rw [if_neg (fun hh => hm hh.1)]

theorem slotsOf_disconnectS_self (st : State) (sig : String)
    (cb : Cb) (tgt : Option Nat) :
    slotsOf (disconnectS st sig cb tgt) sig =
      (slotsOf st sig).filter (fun sl => ¬ disconnectMatch cb tgt sl) := by
  have hkept := disconnectS_fold_kept sig cb tgt (getSignalData st sig).2.slots
    (getSignalData st sig).1 []
  rw [getSignalData_snd_slots, List.nil_append] at hkept
  unfold disconnectS
  dsimp only
  rw [getSignalData_snd_slots]
  by_cases hE : ((slotsOf st sig).filter (fun sl => ¬ disconnectMatch cb tgt sl)) = []
  · rw [hkept, hE]
    simp only [List.isEmpty_nil, if_true]
    unfold slotsOf
    rw [alookup_aerase_self]
    rfl
  · rw [hkept]
    simp only [List.isEmpty_iff, hE, if_false]
    unfold slotsOf
    rw [alookup_aset_self]
    rfl

theorem getSignalData_fst_lookup_self (st : State) (sig : String) :
    ∃ sd, alookup (getSignalData st sig).1.signals sig = some sd := by
  rcases hl : alookup st.signals sig with _ | sd
  · rw [getSignalData_unknown st sig hl]
    exact ⟨⟨[], []⟩, alookup_aset_self _ _ _⟩
  · rw [getSignalData_known st sig sd hl]
    exact ⟨sd, hl⟩

theorem slotsOf_disconnectS_other (st : State) (sig : String)
    (cb : Cb) (tgt : Option Nat) (x : String) (hx : x ≠ sig) :
    slotsOf (disconnectS st sig cb tgt) x = slotsOf st x := by
  obtain ⟨sd0, hsd0⟩ := getSignalData_fst_lookup_self st sig
  have hlk := dsfold_lookup_slots sig cb tgt (getSignalData st sig).2.slots
    (getSignalData st sig).1 [] sd0 hsd0 x
  have hA : alookup (getSignalData st sig).1.signals x = alookup st.signals x := by
    rcases hl : alookup st.signals sig with _ | sd
    · rw [getSignalData_unknown st sig hl]
      exact alookup_aset_ne _ sig x _ hx
    · rw [getSignalData_known st sig sd hl]
  unfold disconnectS
  dsimp only
  by_cases hE : ((getSignalData st sig).2.slots.foldl (fun (acc : State × List SlotInfo) slot =>
      if disconnectMatch cb tgt slot then
        (groupCleanup acc.1 sig slot.id slot.group, acc.2)
      else (acc.1, acc.2 ++ [slot])) ((getSignalData st sig).1, [])).2.isEmpty
  · rw [if_pos hE]
    unfold slotsOf
    rw [alookup_aerase_ne _ sig x hx]
    rw [hA] at hlk
    rw [hlk]
  · rw [if_neg hE]
    unfold slotsOf
    rw [alookup_aset_ne _ sig x _ hx]
    rw [hA] at hlk
    rw [hlk]

theorem nextId_disconnectS (st : State) (sig : String) (cb : Cb) (tgt : Option Nat) :
    (disconnectS st sig cb tgt).nextId = st.nextId := by
  have h1 := dsfold_nextId sig cb tgt (getSignalData st sig).2.slots (getSignalData st sig).1 []
  unfold disconnectS
  dsimp only
  split
  · rw [h1, getSignalData_fst_nextId]
  · rw [h1, getSignalData_fst_nextId]

theorem nodup_keys_disconnectS (st : State) (sig : String) (cb : Cb) (tgt : Option Nat)
    (h : (st.signals.map Prod.fst).Nodup) :
    ((disconnectS st sig cb tgt).signals.map Prod.fst).Nodup := by
  have h1 := dsfold_keys sig cb tgt (getSignalData st sig).2.slots (getSignalData st sig).1 []
    (nodup_keys_getSignalData st sig h)
  unfold disconnectS
  dsimp only
  split
  · exact nodup_keys_aerase _ _ h1
  · exact nodup_keys_aset _ _ _ h1

theorem filter_ne_disconnectS (st : State) (sig : String) (cb : Cb) (tgt : Option Nat) :
    (disconnectS st sig cb tgt).signals.filter (fun p => ¬ p.1 == sig) =
      st.signals.filter (fun p => ¬ p.1 == sig) := by
  have h1 := dsfold_filter_ne sig cb tgt (getSignalData st sig).2.slots (getSignalData st sig).1 []
  unfold disconnectS
  dsimp only
  split
  · rw [filter_ne_aerase_key, h1, filter_ne_getSignalData]
  · rw [filter_ne_aset_key, h1, filter_ne_getSignalData]

theorem gpairs_disconnectS (st : State) (sig : String) (cb : Cb) (tgt : Option Nat)
    (g' : String) :
    gpairs (disconnectS st sig cb tgt) g' =
      (slotsOf st sig).foldl (fun l sl =>
        if disconnectMatch cb tgt sl ∧ sl.group = some g' ∧ g' ≠ "" then
          removeFirstPair l sig sl.id else l) (gpairs st g') := by
  have h1 := dsfold_gpairs sig cb tgt g' (getSignalData st sig).2.slots (getSignalData st sig).1 []
  have h2 : gpairs (getSignalData st sig).1 g' = gpairs st g' :=
    gpairs_eq_of_globals (getSignalData_fst_globals st sig) g'
  rw [h2, getSignalData_snd_slots] at h1
  unfold disconnectS
  dsimp only
  rw [getSignalData_snd_slots]
  split
  · rw [← h1]
    rfl
  · rw [← h1]
    rfl

end DisconnectSChar


section InvDisconnectS

theorem gpairsOfSlots_cons_pos (g sig : String) (sl : SlotInfo) (L : List SlotInfo)
    (h : sl.group = some g) :
    gpairsOfSlots g sig (sl :: L) = ⟨sig, sl.id⟩ :: gpairsOfSlots g sig L := by
  unfold gpairsOfSlots
  rw [List.filter_cons_of_pos (by simp [h]), List.map_cons]

theorem gpairsOfSlots_cons_neg (g sig : String) (sl : SlotInfo) (L : List SlotInfo)
    (h : ¬ sl.group = some g) :
    gpairsOfSlots g sig (sl :: L) = gpairsOfSlots g sig L := by
  unfold gpairsOfSlots
  rw [List.filter_cons_of_neg (by simp [h])]

theorem fold_gstep_perm (cb : Cb) (tgt : Option Nat) (sig g' : String)
    (hg' : g' ≠ "") :
    ∀ (L : List SlotInfo) (init rest : List GPair),
      init.Perm (gpairsOfSlots g' sig L ++ rest) →
      (L.foldl (fun l sl =>
        if disconnectMatch cb tgt sl ∧ sl.group = some g' ∧ g' ≠ "" then
          removeFirstPair l sig sl.id else l) init).Perm
        (gpairsOfSlots g' sig (L.filter (fun sl => ¬ disconnectMatch cb tgt sl)) ++ rest) := by
  intro L
  induction L with
  | nil => intro init rest hperm; exact hperm
  | cons sl L ih =>
      intro init rest hperm
      rw [List.foldl_cons]
      by_cases hm : disconnectMatch cb tgt sl
      · rw [List.filter_cons_of_neg (by simp [hm])]
        by_cases hgrp : sl.group = some g'
        · rw [if_pos ⟨hm, hgrp, hg'⟩, removeFirstPair_eq_erase]
          refine ih _ _ ?_
          have h2 := hperm.erase (⟨sig, sl.id⟩ : GPair)
          rw [gpairsOfSlots_cons_pos g' sig sl L hgrp] at h2
          simpa [List.erase_cons] using h2
        · rw [if_neg (fun hh => hgrp hh.2.1)]
          refine ih _ _ ?_
          rw [gpairsOfSlots_cons_neg g' sig sl L hgrp] at hperm
          exact hperm
      · rw [if_neg (fun hh => hm hh.1), List.filter_cons_of_pos (by simp [hm])]
        by_cases hgrp : sl.group = some g'
        · rw [gpairsOfSlots_cons_pos g' sig sl _ hgrp]
          have hperm2 : init.Perm (gpairsOfSlots g' sig L ++ ((⟨sig, sl.id⟩ : GPair) :: rest)) := by
            rw [gpairsOfSlots_cons_pos g' sig sl L hgrp] at hperm
            exact hperm.trans (List.perm_middle.symm)
          have h3 := ih init (⟨sig, sl.id⟩ :: rest) hperm2
          exact h3.trans List.perm_middle
        · rw [gpairsOfSlots_cons_neg g' sig sl _ hgrp]
          rw [gpairsOfSlots_cons_neg g' sig sl L hgrp] at hperm
          exact ih _ _ hperm

theorem fold_gstep_id (cb : Cb) (tgt : Option Nat) (sig : String) (g' : String)
    (hg' : g' = "") :
    ∀ (L : List SlotInfo) (init : List GPair),
      L.foldl (fun l sl =>
        if disconnectMatch cb tgt sl ∧ sl.group = some g' ∧ g' ≠ "" then
          removeFirstPair l sig sl.id else l) init = init := by
  intro L
  induction L with
  | nil => intro init; rfl
  | cons sl L ih =>
      intro init
      rw [List.foldl_cons, if_neg (by rintro ⟨_, _, hne⟩; exact hne hg'), ih]

theorem canonical_empty_of_groupsNE (st : State)
    (hnd : (st.signals.map Prod.fst).Nodup)
    (hgr : ∀ sig, ∀ sl ∈ slotsOf st sig, sl.group ≠ some "") :
    canonicalPairs st "" = [] := by
  unfold canonicalPairs
  rw [List.flatten_eq_nil_iff]
  intro l hl
  rw [List.mem_map] at hl
  obtain ⟨p, hp, rfl⟩ := hl
  unfold gpairsOfSlots
  have hfil : p.2.slots.filter (fun sl => sl.group == some "") = [] := by
    rw [List.filter_eq_nil_iff]
    intro sl hsl
    have h2 := hgr p.1 sl (by rw [entry_slots_eq_slotsOf st hnd p hp]; exact hsl)
    simp [h2]
  rw [hfil]
  rfl

theorem inv_disconnectS (st : State) (sig : String) (cb : Cb) (tgt : Option Nat)
    (h : Inv st) : Inv (disconnectS st sig cb tgt) := by
  have hknd := nodup_keys_disconnectS st sig cb tgt h.keysNodup
  have hself := slotsOf_disconnectS_self st sig cb tgt
  have hids : ∀ x, ((slotsOf (disconnectS st sig cb tgt) x).map SlotInfo.id).Nodup := by
    intro x
    by_cases hx : x = sig
    · rw [hx, hself]
      exact List.Nodup.sublist (List.Sublist.map SlotInfo.id (List.filter_sublist _))
        (h.idsNodup sig)
    · rw [slotsOf_disconnectS_other st sig cb tgt x hx]
      exact h.idsNodup x
  have hbound : ∀ x, ∀ sl ∈ slotsOf (disconnectS st sig cb tgt) x,
      sl.id ≤ (disconnectS st sig cb tgt).nextId := by
    intro x sl hsl
    rw [nextId_disconnectS]
    by_cases hx : x = sig
    · rw [hx, hself] at hsl
      exact h.idsBound sig sl (List.mem_of_mem_filter hsl)
    · rw [slotsOf_disconnectS_other st sig cb tgt x hx] at hsl
      exact h.idsBound x sl hsl
  have hgne : ∀ x, ∀ sl ∈ slotsOf (disconnectS st sig cb tgt) x, sl.group ≠ some "" := by
    intro x sl hsl
    by_cases hx : x = sig
    · rw [hx, hself] at hsl
      exact h.groupsNE sig sl (List.mem_of_mem_filter hsl)
    · rw [slotsOf_disconnectS_other st sig cb tgt x hx] at hsl
      exact h.groupsNE x sl hsl
  refine ⟨hknd, hids, hbound, hgne, ?_⟩
  intro g'
  rw [gpairs_disconnectS]
  by_cases hg' : g' = ""
  · rw [fold_gstep_id cb tgt sig g' hg']
    have e1 : canonicalPairs (disconnectS st sig cb tgt) g' = [] := by
      rw [hg']
      exact canonical_empty_of_groupsNE _ hknd hgne
    have e2 : canonicalPairs st g' = [] := by
      rw [hg']
      exact canonical_empty_of_groupsNE st h.keysNodup h.groupsNE
    rw [e1]
    have := h.gperm g'
    rw [e2] at this
    exact this
  · have hperm0 : (gpairs st g').Perm
        (gpairsOfSlots g' sig (slotsOf st sig) ++ canonicalExcept st g' sig) :=
      (h.gperm g').trans (canonical_decomp st g' sig h.keysNodup)
    have hfold := fold_gstep_perm cb tgt sig g' hg' (slotsOf st sig)
      (gpairs st g') (canonicalExcept st g' sig) hperm0
    refine hfold.trans ?_
    have hexc : canonicalExcept (disconnectS st sig cb tgt) g' sig =
        canonicalExcept st g' sig :=
      canonicalExcept_eq_of_filter _ _ _ _ (filter_ne_disconnectS st sig cb tgt)
    rw [← hself, ← hexc]
    exact (canonical_decomp (disconnectS st sig cb tgt) g' sig hknd).symm

theorem inv_disFold :
    ∀ (P : List GPair) (A : State), Inv A →
      Inv (P.foldl (fun acc p => disconnectById acc p.signalName p.slotId) A) := by
  intro P
  induction P with
  | nil => intro A h; exact h
  | cons p P ih =>
      intro A h
      rw [List.foldl_cons]
      exact ih _ (inv_disconnectById A p.signalName p.slotId h)

theorem inv_eraseGlobals_of_empty (st : State) (g : String)
    (h : Inv st) (hemp : gpairs st g = []) :
    Inv { st with globals := aerase st.globals g } := by
  refine ⟨h.keysNodup, h.idsNodup, h.idsBound, h.groupsNE, ?_⟩
  intro g''
  have hcan : canonicalPairs { st with globals := aerase st.globals g } g'' =
      canonicalPairs st g'' := rfl
  rw [hcan]
  by_cases hgg : g'' = g
  · rw [hgg]
    have hz : gpairs { st with globals := aerase st.globals g } g = [] := by
      unfold gpairs
      rw [alookup_aerase_self]
      rfl
    rw [hz]
    have h2 := h.gperm g
    rw [hemp] at h2
    exact h2
  · have hz : gpairs { st with globals := aerase st.globals g } g'' = gpairs st g'' := by
      unfold gpairs
      rw [alookup_aerase_ne _ g g'' hgg]
    rw [hz]
    exact h.gperm g''

theorem inv_disconnectByGroupS (st : State) (g : String) (h : Inv st) :
    Inv (disconnectByGroupS st g) := by
  unfold disconnectByGroupS
  rcases hl : alookup st.globals g with _ | pairs
  · exact h
  · dsimp only
    have h1 : Inv (pairs.foldl (fun acc p => disconnectById acc p.signalName p.slotId) st) :=
      inv_disFold pairs st h
    rcases hl2 : alookup (pairs.foldl (fun acc p => disconnectById acc p.signalName p.slotId) st).globals g with _ | l
    · rw [hl2]
      exact h1
    · rw [hl2]
      dsimp only
      by_cases he : l.isEmpty
      · rw [if_pos he]
        refine inv_eraseGlobals_of_empty _ g h1 ?_
        unfold gpairs
        rw [hl2]
        rw [List.isEmpty_iff] at he
        rw [he]
        rfl
      · rw [if_neg he]
        exact h1

end InvDisconnectS


section InvEmit

theorem inv_state_nextTimer (st : State) (n : Nat) (h : Inv st) :
    Inv { st with nextTimer := n } :=
  ⟨h.keysNodup, h.idsNodup, h.idsBound, h.groupsNE, h.gperm⟩

theorem slotsOf_aset_empty (st : State) (sig : String)
    (hl : alookup st.signals sig = none) (x : String) :
    slotsOf { st with signals := aset st.signals sig ⟨[], []⟩ } x = slotsOf st x := by
  unfold slotsOf
  by_cases hx : x = sig
  · rw [hx, alookup_aset_self, hl]
    rfl
  · show ((alookup (aset st.signals sig ⟨[], []⟩) x).map SignalInfo.slots).getD [] = _
    rw [alookup_aset_ne _ sig x _ hx]

theorem canonicalPairs_aset_empty (st : State) (sig : String)
    (hl : alookup st.signals sig = none) (g : String) :
    canonicalPairs { st with signals := aset st.signals sig ⟨[], []⟩ } g =
      canonicalPairs st g := by
  have hany : st.signals.any (fun p => p.1 == sig) = false := by
    rcases ha : st.signals.any (fun p => p.1 == sig)
    · rfl
    · rw [List.any_eq_true] at ha
      obtain ⟨p, hp, hpk⟩ := ha
      rw [alookup_none_forall st.signals sig hl p hp] at hpk
      cases hpk
  show ((aset st.signals sig ⟨[], []⟩).map
      (fun p => gpairsOfSlots g p.1 p.2.slots)).flatten = _
  unfold aset
  rw [hany]
  simp only [Bool.false_eq_true, if_false]
  rw [List.map_append, List.flatten_append]
  simp [gpairsOfSlots, canonicalPairs]

theorem inv_getSignalData (st : State) (sig : String) (h : Inv st) :
    Inv (getSignalData st sig).1 := by
  rcases hl : alookup st.signals sig with _ | sd
  · rw [getSignalData_unknown st sig hl]
    refine ⟨nodup_keys_aset _ _ _ h.keysNodup, ?_, ?_, ?_, ?_⟩
    · intro x
      rw [slotsOf_aset_empty st sig hl x]
      exact h.idsNodup x
    · intro x sl hsl
      rw [slotsOf_aset_empty st sig hl x] at hsl
      exact h.idsBound x sl hsl
    · intro x sl hsl
      rw [slotsOf_aset_empty st sig hl x] at hsl
      exact h.groupsNE x sl hsl
    · intro g
      rw [canonicalPairs_aset_empty st sig hl g]
      exact h.gperm g
  · rw [getSignalData_known st sig sd hl]
    exact h

theorem inv_runActG (emitf : State → String → List Nat → State × List Event)
    (hf : ∀ st s a, Inv st → Inv (emitf st s a).1)
    (st : State) (a : Act) (h : Inv st) : Inv (runActG emitf st a).1 := by
  rcases a with ⟨s, args⟩ | ⟨s, i⟩ | ⟨s, c, t⟩
  · exact hf st s args h
  · exact inv_disconnectById st s i h
  · exact inv_disconnectS st s c t h

theorem inv_runActsG (emitf : State → String → List Nat → State × List Event)
    (hf : ∀ st s a, Inv st → Inv (emitf st s a).1) :
    ∀ (acts : List Act) (st : State), Inv st → Inv (runActsG emitf st acts).1 := by
  intro acts
  induction acts with
  | nil => intro st h; exact h
  | cons a acts ih =>
      intro st h
      exact ih _ (inv_runActG emitf hf st a h)

theorem inv_executeSlotPostG (env : Env)
    (emitf : State → String → List Nat → State × List Event)
    (hf : ∀ st s a, Inv st → Inv (emitf st s a).1)
    (st : State) (sig : String) (slot : SlotInfo) (args : List Nat) (h : Inv st) :
    Inv (executeSlotPostG env emitf st sig slot args).1 := by
  unfold executeSlotPostG
  rcases hd : slot.debounce with _ | deb
  · exact inv_runActsG emitf hf _ st h
  · dsimp only
    by_cases hdeb : deb ≠ 0
    · rw [if_pos hdeb]
      dsimp only
      refine inv_updateSlotFields _ _ _ _ (fun s => rfl) (fun s => rfl) ?_
      exact inv_state_nextTimer st _ h
    · rw [if_neg hdeb]
      exact inv_runActsG emitf hf _ st h

theorem inv_executeSlotG (env : Env)
    (emitf : State → String → List Nat → State × List Event)
    (hf : ∀ st s a, Inv st → Inv (emitf st s a).1)
    (st : State) (sig : String) (slot : SlotInfo) (args : List Nat) (h : Inv st) :
    Inv (executeSlotG env emitf st sig slot args).1 := by
  unfold executeSlotG
  rcases ht : slot.throttle with _ | thr
  · exact inv_executeSlotPostG env emitf hf st sig slot args h
  · dsimp only
    by_cases hthr : thr ≠ 0
    · rw [if_pos hthr]
      by_cases hsup : throttleSuppresses slot st.clock thr
      · rw [if_pos hsup]
        exact h
      · rw [if_neg hsup]
        refine inv_executeSlotPostG env emitf hf _ sig _ args ?_
        exact inv_updateSlotFields _ _ _ _ (fun s => rfl) (fun s => rfl) h
    · rw [if_neg hthr]
      exact inv_executeSlotPostG env emitf hf st sig slot args h

theorem inv_emitLoopG (env : Env)
    (emitf : State → String → List Nat → State × List Event)
    (hf : ∀ st s a, Inv st → Inv (emitf st s a).1) :
    ∀ (snapshot : List SlotInfo) (st : State) (sig : String) (args : List Nat),
      Inv st → Inv (emitLoopG env emitf st snapshot sig args).1 := by
  intro snapshot
  induction snapshot with
  | nil => intro st sig args h; exact h
  | cons slot rest ih =>
      intro st sig args h
      have h1 := inv_executeSlotG env emitf hf st sig slot args h
      have key : (emitLoopG env emitf st (slot :: rest) sig args).1 =
          (emitLoopG env emitf
            (if slot.once then
              disconnectById (executeSlotG env emitf st sig slot args).1 sig slot.id
            else (executeSlotG env emitf st sig slot args).1) rest sig args).1 := rfl
      rw [key]
      refine ih _ sig args ?_
      split
      · exact inv_disconnectById _ sig slot.id h1
      · exact h1

theorem inv_emitF (env : Env) :
    ∀ (fuel : Nat) (st : State) (sig : String) (args : List Nat), Inv st →
      Inv (emitF env fuel st sig args).1 := by
  intro fuel
  induction fuel with
  | zero => intro st sig args h; exact h
  | succ fuel ih =>
      intro st sig args h
      have key : emitF env (fuel + 1) st sig args =
          (if (getSignalData st sig).2.slots.isEmpty then
            ((getSignalData st sig).1, ([] : List Event))
          else emitLoopG env (emitF env fuel) (getSignalData st sig).1
            (getSignalData st sig).2.slots sig args) := rfl
      rw [key]
      have hg : Inv (getSignalData st sig).1 := inv_getSignalData st sig h
      split
      · exact hg
      · exact inv_emitLoopG env (emitF env fuel)
          (fun st2 s a h2 => ih st2 s a h2) _ _ sig args hg

theorem inv_runOp (env : Env) (st : State) (op : Op) (h : Inv st) :
    Inv (runOp env st op) := by
  rcases op with ⟨sig, code, tgt, opts⟩ | ⟨sig, code, tgt⟩ | ⟨sig, id⟩ | ⟨g⟩ | ⟨sig, args, fuel⟩
  · simp only [runOp]
    unfold connect
    dsimp only
    rw [if_neg (by rintro ⟨_, hnf⟩; exact hnf rfl)]
    unfold addSlot
    by_cases hval : isValidSignalName (getName (JsVal.vstr sig)) = true
    · rw [if_neg (by simp [hval])]
      have hfun : isFunction (match JsVal.vfun "f" none none (Cb.base code), tgt with
          | JsVal.vfun n p dg c, some t => JsVal.vfun n p dg (jsBind c t)
          | f, _ => f) = true := by
        rcases tgt with _ | t <;> rfl
      rw [if_neg (by simp [hfun])]
      dsimp only
      refine inv_addSlotState _ _ _ _ _ h ?_
      show ¬ (match opts.group with
        | some g => if g ≠ "" then some g else
            (match JsVal.vstr sig with
             | JsVal.vfun _ _ dg _ => dg
             | _ => none)
        | none =>
            (match JsVal.vstr sig with
             | JsVal.vfun _ _ dg _ => dg
             | _ => none)) = some ""
      rcases hog : opts.group with _ | g0
      · simp
      · dsimp only
        by_cases hg0 : g0 ≠ ""
        · rw [if_pos hg0]
          intro he
          injection he with he2
          exact hg0 he2
        · rw [if_neg hg0]
          simp
    · rw [if_pos hval]
      exact h
  · exact inv_disconnectS st sig (.base code) tgt h
  · exact inv_disconnectById st sig id h
  · simp only [runOp]
    unfold disconnectByGroupV
    by_cases hval : isValidSignalName (JsVal.vstr g) = true
    · rw [if_neg (by simp [hval])]
      exact inv_disconnectByGroupS st _ h
    · rw [if_pos hval]
      exact h
  · exact inv_emitF env fuel st sig args h

theorem inv_initState : Inv initState := by
  refine ⟨by simp [initState], ?_, ?_, ?_, ?_⟩
  · intro sig
    simp [slotsOf, alookup, initState]
  · intro sig sl hsl
    simp [slotsOf, alookup, initState] at hsl
  · intro sig sl hsl
    simp [slotsOf, alookup, initState] at hsl
  · intro g
    simp [gpairs, canonicalPairs, alookup, initState]

theorem inv_runOps (env : Env) (ops : List Op) :
    Inv (runOps env ops initState) := by
  have gen : ∀ (l : List Op) (st : State), Inv st → Inv (runOps env l st) := by
    intro l
    induction l with
    | nil => intro st h; exact h
    | cons op l ih =>
        intro st h
        exact ih _ (inv_runOp env st op h)
  exact gen ops initState inv_initState

end InvEmit


section ByGroupChar

theorem gpair_mk_eta (p : GPair) : (⟨p.signalName, p.slotId⟩ : GPair) = p := by
  cases p
  rfl

theorem no_group_slots_of_gpairs_nil (st : State) (h : Inv st) (g : String)
    (hnil : gpairs st g = []) :
    ∀ sig, ∀ sl ∈ slotsOf st sig, ¬ sl.group = some g := by
  intro sig sl hsl hgr
  have hmem : (⟨sig, sl.id⟩ : GPair) ∈ canonicalPairs st g :=
    (mem_canonicalPairs st g _ h.keysNodup).mpr ⟨sl, hsl, rfl, hgr⟩
  have hcn : canonicalPairs st g = [] := by
    have h2 := h.gperm g
    rw [hnil] at h2
    exact List.perm_nil.mp h2.symm
  rw [hcn] at hmem
  cases hmem

theorem fold_removeFirstPair_self :
    ∀ (P : List GPair),
      P.foldl (fun l p => removeFirstPair l p.signalName p.slotId) P = [] := by
  intro P
  induction P with
  | nil => rfl
  | cons p P ih =>
      rw [List.foldl_cons]
      have hstep : removeFirstPair (p :: P) p.signalName p.slotId = P := by
        rw [removeFirstPair_eq_erase, gpair_mk_eta]
        simp [List.erase_cons]
      rw [hstep]
      exact ih

theorem disByGroup_fold_char (g : String) (hg : g ≠ "") :
    ∀ (P : List GPair) (A : State), Inv A → P.Nodup →
      (∀ p ∈ P, ∃ sl ∈ slotsOf A p.signalName, sl.id = p.slotId ∧ sl.group = some g) →
      ((∀ x, slotsOf (P.foldl (fun acc p => disconnectById acc p.signalName p.slotId) A) x =
        (slotsOf A x).filter (fun sl => ¬ (⟨x, sl.id⟩ : GPair) ∈ P)) ∧
       gpairs (P.foldl (fun acc p => disconnectById acc p.signalName p.slotId) A) g =
        P.foldl (fun l p => removeFirstPair l p.signalName p.slotId) (gpairs A g)) := by
  intro P
  induction P with
  | nil =>
      intro A hA hnd hP
      refine ⟨fun x => ?_, rfl⟩
      symm
      refine List.filter_eq_self.mpr (fun sl hsl => by simp)
  | cons p P ih =>
      intro A hA hnd hP
      rw [List.nodup_cons] at hnd
      obtain ⟨sl0, hsl0, hid0, hgr0⟩ := hP p (List.mem_cons_self _ _)
      have hfindsome : ((slotsOf A p.signalName).find? (fun sl => sl.id == p.slotId)).isSome := by
        rw [List.find?_isSome]
        exact ⟨sl0, hsl0, by simp [hid0]⟩
      rcases hfind : (slotsOf A p.signalName).find? (fun sl => sl.id == p.slotId) with _ | slot
      · rw [hfind] at hfindsome
        cases hfindsome
      · have hmem' : slot ∈ slotsOf A p.signalName := List.mem_of_find?_eq_some hfind
        have hid' : slot.id = p.slotId := by
          have := List.find?_some hfind
          simpa using this
        have heq0 : slot = sl0 :=
          unique_slot_of_nodup (hA.idsNodup p.signalName) hmem' hsl0 (by rw [hid', hid0])
        have hgr' : slot.group = some g := by rw [heq0]; exact hgr0
        have hInv' : Inv (disconnectById A p.signalName p.slotId) :=
          inv_disconnectById A p.signalName p.slotId hA
        have hP' : ∀ q ∈ P, ∃ sl ∈ slotsOf (disconnectById A p.signalName p.slotId) q.signalName,
            sl.id = q.slotId ∧ sl.group = some g := by
          intro q hq
          obtain ⟨sl1, hsl1, hidq, hgrq⟩ := hP q (List.mem_cons_of_mem p hq)
          by_cases hxs : q.signalName = p.signalName
          · refine ⟨sl1, ?_, hidq, hgrq⟩
            rw [hxs, slotsOf_disconnectById_self]
            refine mem_removeFirstSlot_of_ne (by rw [← hxs]; exact hsl1) ?_
            intro hcon
            apply hnd.1
            have hqp : q = p := by
              have h1 : q.slotId = p.slotId := by rw [← hidq, hcon]
              rw [← gpair_mk_eta q, ← gpair_mk_eta p, hxs, h1]
            rw [← hqp]
            exact hq
          · refine ⟨sl1, ?_, hidq, hgrq⟩
            rw [slotsOf_disconnectById_other A p.signalName p.slotId q.signalName hxs]
            exact hsl1
        obtain ⟨iha, ihb⟩ := ih (disconnectById A p.signalName p.slotId) hInv' hnd.2 hP'
        constructor
        · intro x
          rw [List.foldl_cons, iha x]
          by_cases hx : x = p.signalName
          · rw [hx, slotsOf_disconnectById_self,
              removeFirstSlot_eq_filter _ _ (hA.idsNodup p.signalName),
              List.filter_filter]
            refine List.filter_congr (fun sl hsl => ?_)
            rw [Bool.eq_iff_iff]
            simp only [Bool.and_eq_true, decide_eq_true_eq, beq_iff_eq, List.mem_cons]
            constructor
            · rintro ⟨hnp, hni⟩ (hc | hc)
              · apply hni
                have h2 := congrArg GPair.slotId hc
                simpa using h2
              · exact hnp hc
            · intro hnc
              constructor
              · intro hc
                exact hnc (Or.inr hc)
              · intro hc
                refine hnc (Or.inl ?_)
                rw [hc]
          · rw [slotsOf_disconnectById_other A p.signalName p.slotId x hx]
            refine List.filter_congr (fun sl hsl => ?_)
            rw [Bool.eq_iff_iff]
            simp only [decide_eq_true_eq, List.mem_cons]
            constructor
            · rintro hnp (hc | hc)
              · exfalso
                apply hx
                have h2 := congrArg GPair.signalName hc
                simpa using h2
              · exact hnp hc
            · intro hnc hc
              exact hnc (Or.inr hc)
        · rw [List.foldl_cons, List.foldl_cons, ihb]
          congr 1
          rw [gpairs_disconnectById, hfind]
          dsimp only
          rw [if_pos ⟨hgr', hg⟩]

theorem disconnectByGroup_char (st : State) (g : String) (h : Inv st) :
    (∀ sig, slotsOf (disconnectByGroupS st g) sig =
      (slotsOf st sig).filter (fun sl => ¬ sl.group == some g)) ∧
    hasConnectionsInGroup (disconnectByGroupS st g) g = false ∧
    getConnectionCountByGroup (disconnectByGroupS st g) g = 0 := by
  by_cases hg : g = ""
  · subst hg
    have hnil : gpairs st "" = [] := by
      have h2 := h.gperm ""
      rw [canonical_empty_of_groupsNE st h.keysNodup h.groupsNE] at h2
      exact List.perm_nil.mp h2
    have hslots : ∀ sig, (slotsOf st sig).filter
        (fun sl => ¬ sl.group == some "") = slotsOf st sig := by
      intro sig
      refine List.filter_eq_self.mpr (fun sl hsl => ?_)
      have := h.groupsNE sig sl hsl
      simp [this]
    unfold disconnectByGroupS
    rcases hl : alookup st.globals "" with _ | pairs
    · refine ⟨fun sig => (hslots sig).symm, ?_, ?_⟩
      · unfold hasConnectionsInGroup
        rw [if_pos rfl]
      · unfold getConnectionCountByGroup
        rw [if_pos rfl]
    · dsimp only
      have hpe : pairs = [] := by
        unfold gpairs at hnil
        rw [hl] at hnil
        exact hnil
      subst hpe
      rw [List.foldl_nil, hl]
      dsimp only
      rw [if_pos (by rfl : ([] : List GPair).isEmpty = true)]
      refine ⟨?_, ?_, ?_⟩
      · intro sig
        rw [(hslots sig)]
        rfl
      · unfold hasConnectionsInGroup
        rw [if_pos rfl]
      · unfold getConnectionCountByGroup
        rw [if_pos rfl]
  · unfold disconnectByGroupS
    rcases hl : alookup st.globals g with _ | pairs
    · have hnil : gpairs st g = [] := by
        unfold gpairs
        rw [hl]
        rfl
      have hngs := no_group_slots_of_gpairs_nil st h g hnil
      refine ⟨fun sig => ?_, ?_, ?_⟩
      · symm
        refine List.filter_eq_self.mpr (fun sl hsl => ?_)
        have := hngs sig sl hsl
        simp [this]
      · unfold hasConnectionsInGroup
        rw [if_neg hg, hl]
      · unfold getConnectionCountByGroup
        rw [if_neg hg]
        unfold gpairs at hnil
        rw [hl] at hnil
        rw [hl]
        simp [hnil]
    · dsimp only
      have hpeq : gpairs st g = pairs := by
        unfold gpairs
        rw [hl]
        rfl
      have hpnd : pairs.Nodup := by
        have hcn := nodup_canonicalPairs st g h.keysNodup h.idsNodup
        have h2 := (h.gperm g).nodup_iff.mpr hcn
        rw [hpeq] at h2
        exact h2
      have hP : ∀ p ∈ pairs, ∃ sl ∈ slotsOf st p.signalName,
          sl.id = p.slotId ∧ sl.group = some g := by
        intro p hp
        have hmem : p ∈ canonicalPairs st g := by
          rw [← (h.gperm g).mem_iff, hpeq]
          exact hp
        exact (mem_canonicalPairs st g p h.keysNodup).mp hmem
      obtain ⟨hfa, hfb⟩ := disByGroup_fold_char g hg pairs st h hpnd hP
      have hfold_nil : gpairs (pairs.foldl
          (fun acc p => disconnectById acc p.signalName p.slotId) st) g = [] := by
        rw [hfb, hpeq, fold_removeFirstPair_self]
      have hslots : ∀ sig, slotsOf (pairs.foldl
          (fun acc p => disconnectById acc p.signalName p.slotId) st) sig =
          (slotsOf st sig).filter (fun sl => ¬ sl.group == some g) := by
        intro sig
        rw [hfa sig]
        refine List.filter_congr (fun sl hsl => ?_)
        have hiff : ((⟨sig, sl.id⟩ : GPair) ∉ pairs) ↔ ¬ sl.group = some g := by
          constructor
          · intro hnp hgr
            apply hnp
            rw [← hpeq, (h.gperm g).mem_iff]
            exact (mem_canonicalPairs st g _ h.keysNodup).mpr ⟨sl, hsl, rfl, hgr⟩
          · intro hngr hp
            have hmem : (⟨sig, sl.id⟩ : GPair) ∈ canonicalPairs st g := by
              rw [← (h.gperm g).mem_iff, hpeq]
              exact hp
            obtain ⟨sl2, hsl2, hid2, hgr2⟩ := (mem_canonicalPairs st g _ h.keysNodup).mp hmem
            have : sl2 = sl := unique_slot_of_nodup (h.idsNodup sig) hsl2 hsl hid2
            rw [this] at hgr2
            exact hngr hgr2
        rw [Bool.eq_iff_iff]
        simp only [decide_eq_true_eq, beq_iff_eq]
        exact hiff
      rcases hl2 : alookup (pairs.foldl
          (fun acc p => disconnectById acc p.signalName p.slotId) st).globals g with _ | l
      · rw [hl2]
        refine ⟨hslots, ?_, ?_⟩
        · unfold hasConnectionsInGroup
          rw [if_neg hg, hl2]
        · unfold getConnectionCountByGroup
          rw [if_neg hg]
          unfold gpairs at hfold_nil
          rw [hl2] at hfold_nil ⊢
          simp [hfold_nil]
      · rw [hl2]
        dsimp only
        have hle : l = [] := by
          unfold gpairs at hfold_nil
          rw [hl2] at hfold_nil
          exact hfold_nil
        subst hle
        rw [if_pos (by rfl : ([] : List GPair).isEmpty = true)]
        refine ⟨?_, ?_, ?_⟩
        · intro sig
          rw [← hslots sig]
          rfl
        · unfold hasConnectionsInGroup
          rw [if_neg hg]
          rw [alookup_aerase_self]
        · unfold getConnectionCountByGroup
          rw [if_neg hg]
          rw [alookup_aerase_self]
          rfl

end ByGroupChar


/-- C5: from the pristine state, after any sequence of API operations,
`disconnectByGroup(g)` removes exactly the registrations whose group is
`g`, across all signal identities, keeping every registration in another
group or with no group (in order); afterwards `hasConnectionsInGroup g`
returns false and `getConnectionCountByGroup g` returns 0. -/
theorem C5_disconnectByGroup_complete (env : Env) (ops : List Op) (g : String) :
    (∀ sig, slotsOf (disconnectByGroupS (runOps env ops initState) g) sig =
      (slotsOf (runOps env ops initState) sig).filter
        (fun sl => ¬ sl.group == some g)) ∧
    hasConnectionsInGroup (disconnectByGroupS (runOps env ops initState) g) g = false ∧
    getConnectionCountByGroup (disconnectByGroupS (runOps env ops initState) g) g = 0 :=
  disconnectByGroup_char (runOps env ops initState) g (inv_runOps env ops)

/-- C10: after any sequence of connect, disconnect, disconnectById,
disconnectByGroup and emit operations from the pristine state, the global
group index and the per-signal store agree: a pair `(sig, id)` is indexed
under group `g` iff the store holds a registration with that id on that
signal whose group field is `g`; consequently `getConnectionCountByGroup g`
equals the number of stored registrations whose group is `g`. -/
theorem C10_group_index_agreement (env : Env) (ops : List Op) :
    (∀ g sig id, pairIn (runOps env ops initState) g sig id ↔
      slotHasGroup (runOps env ops initState) g sig id) ∧
    (∀ g, getConnectionCountByGroup (runOps env ops initState) g =
      groupRegCount (runOps env ops initState) g) := by
  have h := inv_runOps env ops
  constructor
  · intro g sig id
    unfold pairIn slotHasGroup
    rw [(h.gperm g).mem_iff]
    rw [mem_canonicalPairs _ g _ h.keysNodup]
  · intro g
    unfold getConnectionCountByGroup
    by_cases hg : g = ""
    · rw [if_pos hg, hg]
      have e1 : groupRegCount (runOps env ops initState) "" =
          (canonicalPairs (runOps env ops initState) "").length :=
        (length_canonicalPairs _ "").symm
      rw [e1, canonical_empty_of_groupsNE _ h.keysNodup h.groupsNE]
      rfl
    · rw [if_neg hg]
      have e2 := (h.gperm g).length_eq
      rw [length_canonicalPairs] at e2
      exact e2

end SignalModel
